import Mathlib

/-!
# xgen-uranus: the consumer-group lifecycle manager

A shallow embedding of `kafka_provider/consumer.go`.

* Callbacks supplied by the caller (per-topic handlers, the receive hook, the
  error hook) are functions over a caller state `σ`, threaded through the code
  in program order, so that a handler may answer differently on every call.
* Calls that leave the package (hooks, `session.MarkMessage`, the group
  client) are recorded, in program order, in a trace.
* A blocking receive is driven by a script: the list of outcomes the
  environment presents, one per `select` or per `Consume` call.  When the
  script runs out the code is blocked and has not returned (`none`).
-/

namespace KafkaProvider

/-! ## Errors and panics -/

/-- A Go `error` value: a message and, for a wrapping error, the error it wraps. -/
inductive GoError where
  | leaf (msg : String)
  | wrapped (msg : String) (inner : GoError)
  deriving DecidableEq, Repr

/-- The sentinel `sarama.ErrClosedConsumerGroup`. -/
def ErrClosedConsumerGroup : GoError :=
  .leaf "kafka: tried to use a consumer group that was closed"

/-- The test `errors.Is(err, target)`: `err` or an error on its unwrap chain is `target`. -/
def errorsIs : GoError → GoError → Bool
  | .leaf m, target => decide (GoError.leaf m = target)
  | .wrapped m inner, target =>
      decide (GoError.wrapped m inner = target) || errorsIs inner target

/-- The text of `err.Error()`. -/
def GoError.text : GoError → String
  | .leaf m => m
  | .wrapped m inner => m ++ ": " ++ inner.text

/-- The value carried by a Go panic. -/
inductive Panic where
  | logPanicf (msg : String)
  | ofError (e : GoError)
  | closeOfClosedChannel
  deriving DecidableEq, Repr

/-! ## Messages, handlers and hooks -/

/-- The fields of `sarama.ConsumerMessage`. -/
structure ConsumerMessage where
  Topic : String
  Partition : Int
  Offset : Int
  Key : String
  Value : String
  Timestamp : Int
  deriving DecidableEq, Repr

/-- An implementation of `IConsumerService`: `HandleMessage` answers `nil`
(`none`) or an error, and may change the caller state. -/
structure IConsumerService (σ : Type) where
  HandleMessage : ConsumerMessage → σ → Option GoError × σ

/-- The struct `ConsumerMessageHandle`: the error hook and the receive hook. -/
structure ConsumerMessageHandle (σ : Type) where
  fHandlerError : GoError → σ → σ
  fReceive : ConsumerMessage → σ → σ

/-- What `ConsumeClaim` does to the outside, in program order. -/
inductive Effect where
  /-- The call `c.consumerMsgHandler.fReceive(message)`. -/
  | receive (m : ConsumerMessage)
  /-- The call `session.MarkMessage(message, metadata)`. -/
  | mark (m : ConsumerMessage) (metadata : String)
  /-- The call `handlerService.HandleMessage(ctx, message)` and the value it returned. -/
  | handle (m : ConsumerMessage) (result : Option GoError)
  /-- The call `c.consumerMsgHandler.fHandlerError(err)`. -/
  | handlerError (e : GoError)
  /-- The log line "message channel was closed". -/
  | logChannelClosed
  deriving DecidableEq, Repr

/-! ## Configuration -/

abbrev ConsumeAssignor := String

def RoundRobinAssignor : ConsumeAssignor := "roundrobin"
def StickyAssignor : ConsumeAssignor := "sticky"
def RangeAssignor : ConsumeAssignor := "range"

structure ConsumerConfig where
  Brokers : List String
  Topics : List String
  GroupID : String
  Assignor : ConsumeAssignor
  OffsetInitial : Int
  deriving DecidableEq, Repr

/-- The values of `sarama.BalanceStrategy` the code constructs. -/
inductive BalanceStrategy where
  | Sticky
  | RoundRobin
  | Range
  deriving DecidableEq, Repr

/-- The two fields of `sarama.Config` the code writes:
`Consumer.Group.Rebalance.GroupStrategies` and `Consumer.Offsets.Initial`. -/
structure SaramaConfig where
  GroupStrategies : List BalanceStrategy
  OffsetsInitial : Int
  deriving DecidableEq, Repr

/-- The method `ConsumerConfig.ToKafkaConsumerConfig`.  `base` is the value of
`sarama.NewConfig()`; a `log.Panicf` is an `Except.error`. -/
def ConsumerConfig.ToKafkaConsumerConfig (base : SaramaConfig) (c : ConsumerConfig) :
    Except Panic SaramaConfig :=
  let kafkaConsumerConfig := base
  let switched : Except Panic SaramaConfig :=
    if c.Assignor = StickyAssignor then
      .ok { kafkaConsumerConfig with GroupStrategies := [BalanceStrategy.Sticky] }
    else if c.Assignor = RoundRobinAssignor then
      .ok { kafkaConsumerConfig with GroupStrategies := [BalanceStrategy.RoundRobin] }
    else if c.Assignor = RangeAssignor then
      .ok { kafkaConsumerConfig with GroupStrategies := [BalanceStrategy.Range] }
    else
      .error (.logPanicf ("Unrecognized consumer group partition assignor: " ++ c.Assignor))
  match switched with
  | .error p => .error p
  | .ok kafkaConsumerConfig => .ok { kafkaConsumerConfig with OffsetsInitial := c.OffsetInitial }

/-! ## The group client -/

/-- The methods of `sarama.ConsumerGroup` the code calls. -/
inductive ClientCall where
  | Consume (topics : List String)
  | PauseAll
  | ResumeAll
  | Close
  deriving DecidableEq, Repr

/-- A `sarama.ConsumerGroup` value, seen from this package: the calls made on it so far. -/
structure ConsumerGroup where
  calls : List ClientCall
  deriving DecidableEq, Repr

/-- Whether fetching is suspended on the client: the last of its `PauseAll` and
`ResumeAll` calls was a `PauseAll` (a new client fetches). -/
def pausedAfter (calls : List ClientCall) : Bool :=
  calls.foldl
    (fun p c =>
      match c with
      | .PauseAll => true
      | .ResumeAll => false
      | _ => p)
    false

def ConsumerGroup.paused (g : ConsumerGroup) : Bool := pausedAfter g.calls

/-- Whether the client has been closed (the member has left the group). -/
def ConsumerGroup.closed (g : ConsumerGroup) : Bool := g.calls.contains ClientCall.Close

/-! ## The application -/

structure ConsumerApp (σ : Type) where
  Config : ConsumerConfig
  /-- The channel held in the field `ready`, by identity. -/
  ready : Nat
  consumerGroup : ConsumerGroup
  /-- The map `handler`: `none` for an absent key, `some none` for a key bound to a
  nil interface value. -/
  handler : String → Option (Option (IConsumerService σ))
  consumerMsgHandler : ConsumerMessageHandle σ

/-- The method `RegisterHandler`: `c.handler[topic] = handler`. -/
def ConsumerApp.RegisterHandler {σ : Type} (c : ConsumerApp σ) (topic : String)
    (handler : Option (IConsumerService σ)) : ConsumerApp σ :=
  { c with handler := fun t => if t = topic then some handler else c.handler t }

/-- The method `SetErrorMessageHandler`. -/
def ConsumerApp.SetErrorMessageHandler {σ : Type} (c : ConsumerApp σ)
    (handler : GoError → σ → σ) : ConsumerApp σ :=
  { c with consumerMsgHandler := { c.consumerMsgHandler with fHandlerError := handler } }

/-- The method `SetReceiveMessageHandler`. -/
def ConsumerApp.SetReceiveMessageHandler {σ : Type} (c : ConsumerApp σ)
    (handler : ConsumerMessage → σ → σ) : ConsumerApp σ :=
  { c with consumerMsgHandler := { c.consumerMsgHandler with fReceive := handler } }

/-- What `NewConsumerApp` did: the calls of `sarama.NewConsumerGroup` it made (with
their arguments) and the application it returned, or the panic it raised. -/
structure Construction (σ : Type) where
  newConsumerGroupCalls : List (List String × String × SaramaConfig)
  result : Except Panic (ConsumerApp σ)

/-- The function `NewConsumerApp`.  `newConsumerGroup` is `sarama.NewConsumerGroup`,
which connects to the brokers.  The default hooks leave the caller state alone (the
default receive hook only writes a log line). -/
def NewConsumerApp {σ : Type} (base : SaramaConfig)
    (newConsumerGroup : List String → String → SaramaConfig → Except GoError ConsumerGroup)
    (config : ConsumerConfig) : Construction σ :=
  match config.ToKafkaConsumerConfig base with
  | .error p => ⟨[], .error p⟩
  | .ok kafkaConsumerConfig =>
    let call := (config.Brokers, config.GroupID, kafkaConsumerConfig)
    match newConsumerGroup config.Brokers config.GroupID kafkaConsumerConfig with
    | .error err => ⟨[call], .error (.ofError err)⟩
    | .ok client =>
      ⟨[call], .ok
        { Config := config
          ready := 0
          consumerGroup := client
          handler := fun _ => none
          consumerMsgHandler :=
            { fHandlerError := fun _ s => s
              fReceive := fun _ s => s } }⟩

/-! ## Claim processing -/

/-- One outcome of the `select` in `ConsumeClaim`. -/
inductive Select where
  /-- A receive from `claim.Messages()` with `ok = true`. -/
  | message (m : ConsumerMessage)
  /-- A receive from `claim.Messages()` with `ok = false`. -/
  | channelClosed
  /-- A receive from `session.Context().Done()`. -/
  | contextDone
  deriving DecidableEq, Repr

/-- A run of `ConsumeClaim`: its effects, the caller state it leaves, and its result:
`none` while it is blocked in the `select`, `some r` once it has returned `r`. -/
structure ClaimRun (σ : Type) where
  trace : List Effect
  state : σ
  result : Option (Option GoError)

/-- The body of the `case message, ok := <-claim.Messages()` branch for `ok = true`. -/
def ConsumerApp.consumeMessage {σ : Type} (c : ConsumerApp σ) (message : ConsumerMessage)
    (s : σ) : List Effect × σ :=
  let s := c.consumerMsgHandler.fReceive message s
  let t := [Effect.receive message, Effect.mark message ""]
  match c.handler message.Topic with
  | none => (t, s)
  | some none => (t, s)
  | some (some handlerService) =>
    match handlerService.HandleMessage message s with
    | (none, s) => (t ++ [Effect.handle message none], s)
    | (some err, s) =>
      (t ++ [Effect.handle message (some err), Effect.handlerError err],
        c.consumerMsgHandler.fHandlerError err s)

/-- The method `ConsumeClaim`, driven by the outcomes of its `select`. -/
def ConsumerApp.ConsumeClaim {σ : Type} (c : ConsumerApp σ) : List Select → σ → ClaimRun σ
  | [], s => ⟨[], s, none⟩
  | .message m :: rest, s =>
    let step := c.consumeMessage m s
    let r := ConsumerApp.ConsumeClaim c rest step.2
    { r with trace := step.1 ++ r.trace }
  | .channelClosed :: _, s => ⟨[Effect.logChannelClosed], s, some none⟩
  | .contextDone :: _, s => ⟨[], s, some none⟩

/-- The messages a script delivers to `ConsumeClaim`: those received before the
channel is seen closed or the context is seen done. -/
def delivered : List Select → List ConsumerMessage
  | .message m :: rest => m :: delivered rest
  | _ => []

/-- The messages of the `MarkMessage` calls of a trace, in order. -/
def marks (t : List Effect) : List ConsumerMessage :=
  t.filterMap fun e =>
    match e with
    | .mark m _ => some m
    | _ => none

/-- The messages of the `HandleMessage` calls of a trace, in order. -/
def handled (t : List Effect) : List ConsumerMessage :=
  t.filterMap fun e =>
    match e with
    | .handle m _ => some m
    | _ => none

/-- The errors passed to the error hook in a trace, in order. -/
def hookErrors (t : List Effect) : List GoError :=
  t.filterMap fun e =>
    match e with
    | .handlerError err => some err
    | _ => none

/-- The errors returned by the `HandleMessage` calls of a trace, in order. -/
def handlerFailures (t : List Effect) : List GoError :=
  t.filterMap fun e =>
    match e with
    | .handle _ (some err) => some err
    | _ => none

/-- The messages of the receive-hook calls of a trace, in order. -/
def received (t : List Effect) : List ConsumerMessage :=
  t.filterMap fun e =>
    match e with
    | .receive m => some m
    | _ => none

/-- The effects one delivered message `m` may cause, in their order: the receive
hook, the mark, then at most one handler call, and the error hook right after a
handler call that returned an error. -/
def IsBlock (m : ConsumerMessage) (b : List Effect) : Prop :=
  b = [Effect.receive m, Effect.mark m ""] ∨
  b = [Effect.receive m, Effect.mark m "", Effect.handle m none] ∨
  ∃ err, b = [Effect.receive m, Effect.mark m "", Effect.handle m (some err),
    Effect.handlerError err]

/-- Whether the handler table of `c` holds a non-nil handler for the topic of `m`. -/
def ConsumerApp.dispatches {σ : Type} (c : ConsumerApp σ) (m : ConsumerMessage) : Bool :=
  match c.handler m.Topic with
  | some (some _) => true
  | _ => false

/-- Every handler call in a trace comes right after the receive hook and the mark of
the same message. -/
def MarkBeforeHandle (t : List Effect) : Prop :=
  ∀ (pre post : List Effect) (m : ConsumerMessage) (r : Option GoError),
    t = pre ++ Effect.handle m r :: post →
    ∃ pre', pre = pre' ++ [Effect.receive m, Effect.mark m ""]

/-- Every handler call that returned an error is followed at once by the error-hook
call carrying that error. -/
def HookAfterFailure (t : List Effect) : Prop :=
  ∀ (pre post : List Effect) (m : ConsumerMessage) (err : GoError),
    t = pre ++ Effect.handle m (some err) :: post →
    ∃ post', post = Effect.handlerError err :: post'

/-! ## Pause and resume -/

/-- What `toggleConsumptionFlow` leaves: the client, the flag `*isPaused`, and the
line it logged. -/
structure Toggled where
  client : ConsumerGroup
  isPaused : Bool
  logged : String
  deriving DecidableEq, Repr

/-- The function `toggleConsumptionFlow`. -/
def toggleConsumptionFlow (client : ConsumerGroup) (isPaused : Bool) : Toggled :=
  if isPaused then
    { client := { calls := client.calls ++ [ClientCall.ResumeAll] }
      isPaused := !isPaused
      logged := "Resuming consumption" }
  else
    { client := { calls := client.calls ++ [ClientCall.PauseAll] }
      isPaused := !isPaused
      logged := "Pausing consumption" }

/-- One outcome of the `select` in the signal loop of `Run`. -/
inductive Signal where
  /-- A receive from `ctx.Done()`. -/
  | ctxDone
  /-- A receive from `sigterm` (SIGINT or SIGTERM). -/
  | sigterm
  /-- A receive from `sigusr1`. -/
  | sigusr1
  deriving DecidableEq, Repr

/-- The state of the signal loop of `Run`. -/
structure SignalState where
  client : ConsumerGroup
  consumptionIsPaused : Bool
  keepRunning : Bool
  logged : List String
  deriving DecidableEq, Repr

/-- The loop `for keepRunning { select ... }` of `Run`, driven by the outcomes of its
`select`.  With `keepRunning` still true at the end of the script the loop is blocked
in the `select`. -/
def signalLoop : List Signal → SignalState → SignalState
  | [], st => st
  | sig :: rest, st =>
    if st.keepRunning then
      match sig with
      | .ctxDone =>
        signalLoop rest
          { st with keepRunning := false, logged := st.logged ++ ["terminating: context cancelled"] }
      | .sigterm =>
        signalLoop rest
          { st with keepRunning := false, logged := st.logged ++ ["terminating: via signal"] }
      | .sigusr1 =>
        let r := toggleConsumptionFlow st.client st.consumptionIsPaused
        signalLoop rest
          { st with client := r.client, consumptionIsPaused := r.isPaused,
                    logged := st.logged ++ [r.logged] }
    else st

/-- The signal loop as `Run` enters it: `consumptionIsPaused := false`,
`keepRunning := true`. -/
def ConsumerApp.signalLoopStart {σ : Type} (c : ConsumerApp σ) : SignalState :=
  { client := c.consumerGroup, consumptionIsPaused := false, keepRunning := true, logged := [] }

/-- The flag and the client after `n` calls of `toggleConsumptionFlow` in a row. -/
def toggleTimes : Nat → ConsumerGroup → Bool → ConsumerGroup × Bool
  | 0, client, isPaused => (client, isPaused)
  | n + 1, client, isPaused =>
    let r := toggleConsumptionFlow client isPaused
    toggleTimes n r.client r.isPaused

/-! ## The consumption loop -/

/-- What the consumption loop of `Run` does, in program order. -/
inductive LoopEvent where
  /-- The call `c.consumerGroup.Consume(ctx, topics, c)`. -/
  | consumeCall (topics : List String)
  /-- A call of `Setup` by the client, closing the channel `ch`. -/
  | setup (ch : Nat)
  /-- The return of `Consume` with the error `err`. -/
  | consumeReturn (err : Option GoError)
  /-- The assignment `c.ready = make(chan bool)`, with the new channel `ch`. -/
  | makeReady (ch : Nat)
  deriving DecidableEq, Repr

/-- The channels of the application: the one held in `c.ready`, the next one `make`
will create, and those closed so far. -/
structure Chans where
  ready : Nat
  nextChan : Nat
  closedChans : List Nat
  deriving DecidableEq, Repr

/-- The method `Setup`: `close(c.ready)`, which panics on a closed channel. -/
def Setup (st : Chans) : Except Panic Chans :=
  if st.ready ∈ st.closedChans then .error Panic.closeOfClosedChannel
  else .ok { st with closedChans := st.ready :: st.closedChans }

/-- The `Setup` calls the client makes during one `Consume` call, `n` of them. -/
def setupCalls : Nat → Chans → List LoopEvent × Except Panic Chans
  | 0, st => ([], .ok st)
  | n + 1, st =>
    match Setup st with
    | .error p => ([LoopEvent.setup st.ready], .error p)
    | .ok st1 =>
      let r := setupCalls n st1
      (LoopEvent.setup st.ready :: r.1, r.2)

/-- What the environment decides about one `Consume` call: how often the client
calls `Setup` during it, the error it returns, and whether `ctx.Err() != nil` when it
has returned. -/
structure ConsumeOutcome where
  setups : Nat
  err : Option GoError
  ctxCancelled : Bool
  deriving DecidableEq, Repr

/-- How the goroutine of the consumption loop ends. -/
inductive LoopExit where
  | returned
  | panicked (p : Panic)
  deriving DecidableEq, Repr

/-- A run of the consumption loop: its events, the channels it leaves, and its exit:
`none` while it is blocked in a `Consume` call. -/
structure LoopRun where
  trace : List LoopEvent
  chans : Chans
  exit : Option LoopExit
  deriving DecidableEq, Repr

/-- The loop `for { ... Consume ... }` in the goroutine of `Run`, driven by the
outcomes of its `Consume` calls. -/
def consumptionLoop (topics : List String) : List ConsumeOutcome → Chans → LoopRun
  | [], st => ⟨[LoopEvent.consumeCall topics], st, none⟩
  | o :: rest, st =>
    match setupCalls o.setups st with
    | (t, .error p) => ⟨LoopEvent.consumeCall topics :: t, st, some (LoopExit.panicked p)⟩
    | (t, .ok st1) =>
      let pre := LoopEvent.consumeCall topics :: t ++ [LoopEvent.consumeReturn o.err]
      match o.err with
      | some err =>
        if errorsIs err ErrClosedConsumerGroup then ⟨pre, st1, some LoopExit.returned⟩
        else
          ⟨pre, st1,
            some (LoopExit.panicked (Panic.logPanicf ("Error from consumer: " ++ err.text)))⟩
      | none =>
        if o.ctxCancelled then ⟨pre, st1, some LoopExit.returned⟩
        else
          let st2 : Chans := { st1 with ready := st1.nextChan, nextChan := st1.nextChan + 1 }
          let r := consumptionLoop topics rest st2
          { r with trace := pre ++ LoopEvent.makeReady st2.ready :: r.trace }

/-- The channels as `Run` finds them after `NewConsumerApp`: `c.ready` open. -/
def ConsumerApp.chans {σ : Type} (c : ConsumerApp σ) : Chans :=
  { ready := c.ready, nextChan := c.ready + 1, closedChans := [] }

/-- The consumption loop of `c.Run()`. -/
def ConsumerApp.consumptionLoop {σ : Type} (c : ConsumerApp σ)
    (script : List ConsumeOutcome) : LoopRun :=
  KafkaProvider.consumptionLoop c.Config.Topics script c.chans

/-- The topics of the `Consume` calls of a trace, in order. -/
def consumeCalls (t : List LoopEvent) : List (List String) :=
  t.filterMap fun e =>
    match e with
    | .consumeCall topics => some topics
    | _ => none

/-- The errors returned by the `Consume` calls of a trace, in order. -/
def consumeReturns (t : List LoopEvent) : List (Option GoError) :=
  t.filterMap fun e =>
    match e with
    | .consumeReturn err => some err
    | _ => none

/-- Whether the `Consume` calls of a trace never overlap: `inCall` tells whether a
call is in flight; a call is issued only when none is, and only a call in flight
returns. -/
def sequential : Bool → List LoopEvent → Bool
  | _, [] => true
  | inCall, .consumeCall _ :: rest => !inCall && sequential true rest
  | inCall, .consumeReturn _ :: rest => inCall && sequential false rest
  | inCall, _ :: rest => sequential inCall rest

/-- The channel in `c.ready` is open, and `make` has not yet handed out the channel
`nextChan` or any later one. -/
def Chans.Fresh (st : Chans) : Prop :=
  st.ready ∉ st.closedChans ∧ st.ready < st.nextChan ∧ ∀ x ∈ st.closedChans, x < st.nextChan

/-- A `Consume` call that ends in a rebalance: the client called `Setup` at most once,
the call returned nil, and the context is not cancelled. -/
def ConsumeOutcome.IsRebalance (o : ConsumeOutcome) : Prop :=
  o.setups ≤ 1 ∧ o.err = none ∧ o.ctxCancelled = false

/-! ## The readiness gate -/

/-- The method `Ready`: the channel held in `c.ready`. -/
def ConsumerApp.Ready {σ : Type} (c : ConsumerApp σ) : Nat := c.ready

/-- The application as the consumption loop leaves it: of the fields of `c` the loop
assigns only `ready`. -/
def ConsumerApp.afterLoop {σ : Type} (c : ConsumerApp σ) (script : List ConsumeOutcome) :
    ConsumerApp σ :=
  { c with ready := (c.consumptionLoop script).chans.ready }

/-- The channels closed by the `Setup` calls of a trace, in order. -/
def setupCloses (t : List LoopEvent) : List Nat :=
  t.filterMap fun e =>
    match e with
    | .setup ch => some ch
    | _ => none

/-- A session that ends in a rebalance: the client called `Setup` once, the `Consume`
call returned nil, and the context is not cancelled. -/
def ConsumeOutcome.IsSession (o : ConsumeOutcome) : Prop :=
  o.setups = 1 ∧ o.err = none ∧ o.ctxCancelled = false

/-! ## Run -/

/-- What the environment decides about one call of `Run`: the outcomes of the
`Consume` calls of the goroutine, the outcomes of the `select` of the signal loop, and
what `c.consumerGroup.Close()` returns. -/
structure RunEnv where
  loop : List ConsumeOutcome
  signals : List Signal
  closeErr : Option GoError
  deriving DecidableEq, Repr

/-- What the main goroutine of `Run` does, in program order. -/
inductive RunEvent where
  /-- The statement `go func() { ... }()` that starts the consumption loop. -/
  | startLoop
  /-- The receive `<-c.ready` on the channel `ch`. -/
  | ready (ch : Nat)
  /-- A log line. -/
  | log (line : String)
  /-- The call `cancel()`. -/
  | cancel
  /-- The return of `wg.Wait()`. -/
  | waitDone
  /-- The call `c.consumerGroup.Close()` and the error it returned. -/
  | close (err : Option GoError)
  deriving DecidableEq, Repr

/-- How a call of `Run` ends: blocked for good, aborted by a panic (of either
goroutine), or returned. -/
inductive RunOutcome where
  | blocked
  | panicked (p : Panic)
  | returned (err : Option GoError)
  deriving DecidableEq, Repr

/-- What a call of `Run` did: the events of the main goroutine, the group client with
the calls the main goroutine made on it (`PauseAll`, `ResumeAll`, `Close`; the
`Consume` calls of the other goroutine are in the trace of the consumption loop, not
here), and how the call ended. -/
structure RunResult where
  trace : List RunEvent
  client : ConsumerGroup
  outcome : RunOutcome
  deriving DecidableEq, Repr

/-- The end of `Run`, from `cancel()` to `return nil`.  `wg.Wait()` returns when the
goroutine of the consumption loop has returned; a panic of that goroutine aborts the
process, and a loop that never exits leaves `Run` blocked in `wg.Wait()`. -/
def runShutdown (client : ConsumerGroup) (loopExit : Option LoopExit)
    (closeErr : Option GoError) : RunResult :=
  match loopExit with
  | none => ⟨[RunEvent.cancel], client, RunOutcome.blocked⟩
  | some (LoopExit.panicked p) => ⟨[RunEvent.cancel], client, RunOutcome.panicked p⟩
  | some LoopExit.returned =>
    let closed : ConsumerGroup := { calls := client.calls ++ [ClientCall.Close] }
    match closeErr with
    | some err =>
      ⟨[RunEvent.cancel, RunEvent.waitDone, RunEvent.close (some err)], closed,
        RunOutcome.panicked (Panic.logPanicf ("Error closing client: " ++ err.text))⟩
    | none =>
      ⟨[RunEvent.cancel, RunEvent.waitDone, RunEvent.close none], closed,
        RunOutcome.returned none⟩

/-- The method `Run`.  Its first statements are those of `ToKafkaConsumerConfig` on
`c.Config` (the configuration they build is not used); `base` is `sarama.NewConfig()`.
The main goroutine meets the goroutine of the loop where it blocks: at `<-c.ready`,
which a `Setup` on the channel made at construction releases, in the `select` of the
signal loop, and at `wg.Wait()`. -/
def ConsumerApp.Run {σ : Type} (base : SaramaConfig) (c : ConsumerApp σ) (env : RunEnv) :
    RunResult :=
  match c.Config.ToKafkaConsumerConfig base with
  | .error p => ⟨[], c.consumerGroup, RunOutcome.panicked p⟩
  | .ok _ =>
    let loop := c.consumptionLoop env.loop
    if c.ready ∈ loop.chans.closedChans then
      let st := signalLoop env.signals c.signalLoopStart
      let pre :=
        [RunEvent.startLoop, RunEvent.ready c.ready,
          RunEvent.log "Sarama consumer up and running!..."] ++ st.logged.map RunEvent.log
      if st.keepRunning then
        match loop.exit with
        | some (LoopExit.panicked p) => ⟨pre, st.client, RunOutcome.panicked p⟩
        | _ => ⟨pre, st.client, RunOutcome.blocked⟩
      else
        let r := runShutdown st.client loop.exit env.closeErr
        { r with trace := pre ++ r.trace }
    else
      match loop.exit with
      | some (LoopExit.panicked p) =>
        ⟨[RunEvent.startLoop], c.consumerGroup, RunOutcome.panicked p⟩
      | _ => ⟨[RunEvent.startLoop], c.consumerGroup, RunOutcome.blocked⟩

/-- Whether an event is one of the three steps of the end of `Run`. -/
def RunEvent.isShutdownStep : RunEvent → Bool
  | .cancel => true
  | .waitDone => true
  | .close _ => true
  | _ => false

/-- The steps of the end of `Run` in a trace, in order. -/
def shutdownSteps (t : List RunEvent) : List RunEvent := t.filter RunEvent.isShutdownStep

/-- Whether `Run` leaves its signal loop: the assignor is recognised, the channel made
at construction gets closed, and the signal loop receives a terminating outcome. -/
def ConsumerApp.leavesSignalLoop {σ : Type} (base : SaramaConfig) (c : ConsumerApp σ)
    (env : RunEnv) : Prop :=
  (∃ k, c.Config.ToKafkaConsumerConfig base = .ok k) ∧
  c.ready ∈ (c.consumptionLoop env.loop).chans.closedChans ∧
  (signalLoop env.signals c.signalLoopStart).keepRunning = false

/-- The errors returned by the `Close` calls of a trace, in order. -/
def closeCalls (t : List RunEvent) : List (Option GoError) :=
  t.filterMap fun e =>
    match e with
    | .close err => some err
    | _ => none

/-- An environment in which the first session is set up, a SIGTERM arrives after one
SIGUSR1, the loop then returns on the cancelled context, and `Close` succeeds. -/
def cleanStop : RunEnv :=
  { loop := [{ setups := 1, err := none, ctxCancelled := true }]
    signals := [Signal.sigusr1, Signal.sigterm]
    closeErr := none }

/-- The environment `cleanStop` with a failing `Close`. -/
def failingClose : RunEnv :=
  { cleanStop with closeErr := some (GoError.leaf "broker gone") }

/-- An environment in which the first session is set up and ends in a rebalance, a
SIGTERM arrives while the next `Consume` call is in flight, and that call returns the
error of the context that `Run` has cancelled. -/
def cancelledInFlight : RunEnv :=
  { loop :=
      [{ setups := 1, err := none, ctxCancelled := false },
        { setups := 0, err := some (GoError.leaf "context canceled"), ctxCancelled := true }]
    signals := [Signal.sigterm]
    closeErr := none }

/-- Whether every `Setup` of a trace closes the channel then held in `c.ready` while
that channel is still open: `cur` is the channel held, `isOpen` tells whether it is
open; `make` gives an open channel and a `Setup` leaves the channel held closed. -/
def gateDiscipline : Nat → Bool → List LoopEvent → Bool
  | _, _, [] => true
  | cur, isOpen, .setup ch :: rest => isOpen && decide (ch = cur) && gateDiscipline cur false rest
  | _, _, .makeReady ch :: rest => gateDiscipline ch true rest
  | cur, isOpen, _ :: rest => gateDiscipline cur isOpen rest

/-! ## Sample values -/

/-- A run of three `Consume` calls: one that ends in a rebalance before any `Setup`,
one session that ends in a rebalance, and one session that ends on the cancelled
context. -/
def threeCalls : List ConsumeOutcome :=
  [{ setups := 0, err := none, ctxCancelled := false },
    { setups := 1, err := none, ctxCancelled := false },
    { setups := 1, err := none, ctxCancelled := true }]

/-- A message of topic `orders` with value `x`. -/
def ordersMessage : ConsumerMessage :=
  { Topic := "orders", Partition := 0, Offset := 7, Key := "k", Value := "x", Timestamp := 0 }

/-- A message of topic `orders` with value `bad`. -/
def badOrdersMessage : ConsumerMessage :=
  { Topic := "orders", Partition := 0, Offset := 8, Key := "k", Value := "bad", Timestamp := 0 }

/-- A message of topic `audit`. -/
def auditMessage : ConsumerMessage :=
  { Topic := "audit", Partition := 1, Offset := 3, Key := "a", Value := "y", Timestamp := 0 }

/-- A handler that counts its calls in the caller state and fails on the value `bad`. -/
def countingHandler : IConsumerService Nat :=
  { HandleMessage := fun m n =>
      (if m.Value = "bad" then some (GoError.leaf "bad value") else none, n + 1) }

/-- An application with an empty handler table and hooks that do nothing. -/
def bareApp : ConsumerApp Nat :=
  { Config :=
      { Brokers := ["localhost:9092"], Topics := ["orders", "audit"], GroupID := "g",
        Assignor := "range", OffsetInitial := -1 }
    ready := 0
    consumerGroup := { calls := [] }
    handler := fun _ => none
    consumerMsgHandler := { fHandlerError := fun _ s => s, fReceive := fun _ s => s } }

/-- The application `bareApp` with `countingHandler` registered for `orders`. -/
def ordersApp : ConsumerApp Nat := bareApp.RegisterHandler "orders" (some countingHandler)

/-- A `Consume` call that ends in a rebalance after one `Setup`. -/
def rebalanceOutcome : ConsumeOutcome :=
  { setups := 1, err := none, ctxCancelled := false }

/-- A `Consume` call that returns nil with the context cancelled. -/
def cancelledOutcome : ConsumeOutcome :=
  { setups := 1, err := none, ctxCancelled := true }

/-- A `Consume` call that returns the context's error with the context cancelled. -/
def cancelledWithError : ConsumeOutcome :=
  { setups := 0, err := some (GoError.leaf "context canceled"), ctxCancelled := true }

end KafkaProvider

/-!
# xgen-uranus: the dual-protocol service host

A shallow embedding of `transport/transport.go`, `transport/http/server.go`,
`transport/grpc/server.go` and `common/graceful_shutdown.go`.  Goroutines are kept
apart: a run is the list of events of each task, and its linear traces are the
interleavings that respect the `wg.Go` and `wg.Wait()` of the code.
-/

namespace Transport

open KafkaProvider (GoError)

/-! ## Shutdown options -/

/-- The struct `common.GracefulShutdown`; a `time.Duration` is a number of
nanoseconds, an `os.Signal` its number. -/
structure GracefulShutdown where
  Timeout : Int
  Delay : Int
  HardStop : Int
  Signal : List Nat
  deriving DecidableEq, Repr

/-! ## Events -/

/-- The values of `healthpb.HealthCheckResponse_ServingStatus`. -/
inductive ServingStatus where
  | UNKNOWN
  | SERVING
  | NOT_SERVING
  | SERVICE_UNKNOWN
  deriving DecidableEq, Repr

/-- The two `time.Sleep` statements of `UranusServer.Run`. -/
inductive SleepSite where
  /-- The statement `time.Sleep(s.shutdownOption.Timeout)`. -/
  | drain
  /-- The statement `time.Sleep(s.shutdownOption.HardStop)`. -/
  | hardStop
  deriving DecidableEq, Repr

/-- What the host and its two listeners do, in program order. -/
inductive HostEvent where
  /-- The call `SwitchHealthCheck(status)` that stores the HTTP health flag. -/
  | httpHealth (status : Bool)
  /-- The call `SwitchHealthStatusGrpc(status)` on a server that has a health server. -/
  | grpcHealth (status : ServingStatus)
  /-- A log line with a fixed text. -/
  | log (msg : String)
  /-- The Info line that announces the wait and carries `Timeout.String()`. -/
  | logWaiting (timeout : Int)
  /-- A completed `time.Sleep(d)`. -/
  | sleep (site : SleepSite) (d : Int)
  /-- The call `net.Listen` of the gRPC listener and its error. -/
  | grpcListen (err : Option GoError)
  /-- The call `ListenAndServe` of the HTTP listener and its error at binding. -/
  | httpListenAndServe (err : Option GoError)
  /-- The call `s.grpcServer.GracefulStop()`. -/
  | grpcGracefulStop
  /-- The call `s.httpServer.Shutdown(ctx)` and its error. -/
  | httpShutdown (err : Option GoError)
  /-- The call `os.Exit(code)`. -/
  | exit (code : Int)
  deriving DecidableEq, Repr

/-- The value carried by a panic of the host. -/
inductive HostPanic where
  /-- A method that reads a field was called on a nil pointer. -/
  | nilDereference
  /-- The statement `panic(err)`. -/
  | ofError (e : GoError)
  deriving DecidableEq, Repr

/-! ## The HTTP listener -/

/-- The struct `option` of `transport/http`; the gin middlewares are not modelled. -/
structure HttpOption where
  port : Int
  appName : String
  deriving DecidableEq, Repr

/-- The function `WithConnectorOption` of `transport/http`. -/
def httpWithConnectorOption (port : Int) (appName : String) : HttpOption → HttpOption :=
  fun o => { o with port := port, appName := appName }

/-- The struct `Server` of `transport/http`: its options, the paths on which
`HealthCheck` registered the health endpoint, and the atomic flag. -/
structure HttpServer where
  option : HttpOption
  healthRoutes : List String
  toggleHealthCheck : Bool
  deriving DecidableEq, Repr

/-- The function `NewServer` of `transport/http`; the flag has its zero value. -/
def HttpServer.NewServer (opts : List (HttpOption → HttpOption)) : HttpServer :=
  { option := opts.foldl (fun opt o => o opt) { port := 0, appName := "" }
    healthRoutes := []
    toggleHealthCheck := false }

/-- The method `HealthCheck`: registers the GET endpoint on `path`. -/
def HttpServer.HealthCheck (s : HttpServer) (path : String) : HttpServer :=
  { s with healthRoutes := s.healthRoutes ++ [path] }

/-- The method `SwitchHealthCheck`. -/
def HttpServer.SwitchHealthCheck (s : HttpServer) (status : Bool) : HttpServer :=
  { s with toggleHealthCheck := status }

/-- An HTTP answer: the status code and the `status` field of the JSON body. -/
structure Response where
  code : Nat
  status : String
  deriving DecidableEq, Repr

/-- The handler that `HealthCheck` registers. -/
def HttpServer.healthHandler (s : HttpServer) : Response :=
  if s.toggleHealthCheck then { code := 200, status := "ok" }
  else { code := 503, status := "not ok" }

/-- The answer to `GET path`, for a path on which `HealthCheck` registered its
endpoint; `none` for any other path (routes of `RegisterRouter` are not modelled). -/
def HttpServer.get (s : HttpServer) (path : String) : Option Response :=
  if path ∈ s.healthRoutes then some s.healthHandler else none

/-- A run of a start routine: the listener as it leaves it, its events, and the
panic it raised, if any. -/
structure Started (α : Type) where
  server : α
  events : List HostEvent
  panic : Option HostPanic
  deriving DecidableEq, Repr

/-- The method `StartHttpServer`; `bind` is the error with which `ListenAndServe`
fails to bind (the method discards what `ListenAndServe` returns). -/
def HttpServer.StartHttpServer (s : HttpServer) (bind : Option GoError) : Started HttpServer :=
  let s := s.SwitchHealthCheck true
  { server := s
    events := [HostEvent.httpHealth true, HostEvent.log "http listen on port",
      HostEvent.httpListenAndServe bind]
    panic := none }

/-! ## The gRPC listener -/

/-- The struct `health.Server`, seen as the status set per service, latest first. -/
structure HealthServer where
  statusMap : List (String × ServingStatus)
  deriving DecidableEq, Repr

/-- The method `SetServingStatus` of `health.Server`. -/
def HealthServer.SetServingStatus (h : HealthServer) (service : String)
    (status : ServingStatus) : HealthServer :=
  { statusMap := (service, status) :: h.statusMap }

/-- The status a health server reports for a service, if one is set. -/
def HealthServer.status (h : HealthServer) (service : String) : Option ServingStatus :=
  (h.statusMap.find? fun e => e.1 = service).map fun e => e.2

/-- The struct `option` of `transport/grpc`; logger and interceptors are not
modelled. -/
structure GrpcOption where
  port : Int
  useReflection : Bool
  appName : String
  deriving DecidableEq, Repr

/-- The struct `Server` of `transport/grpc`; `healthServer = none` is the nil pointer. -/
structure GrpcServer where
  option : GrpcOption
  healthServer : Option HealthServer
  deriving DecidableEq, Repr

/-- The function `NewServer` of `transport/grpc`. -/
def GrpcServer.NewServer (opts : List (GrpcOption → GrpcOption)) : GrpcServer :=
  { option := opts.foldl (fun opt o => o opt) { port := 0, useReflection := false, appName := "" }
    healthServer := none }

/-- The method `ApplyHealth`; `fresh` is the value of `health.NewServer()`. -/
def GrpcServer.ApplyHealth (s : GrpcServer) (fresh : HealthServer) : GrpcServer :=
  { s with healthServer := some fresh }

/-- The method `SwitchHealthStatusGrpc`: `s.healthServer.SetServingStatus(...)`, a
nil dereference when `healthServer` is nil. -/
def GrpcServer.SwitchHealthStatusGrpc (s : GrpcServer) (servingStatus : ServingStatus) :
    Except HostPanic GrpcServer :=
  match s.healthServer with
  | none => .error HostPanic.nilDereference
  | some h =>
    .ok { s with healthServer := some (h.SetServingStatus s.option.appName servingStatus) }

/-- The method `run`: `net.Listen`, whose error `bind` is a `panic(err)`, then the
log line and `Serve`, which blocks. -/
def GrpcServer.run (s : GrpcServer) (bind : Option GoError) : Started GrpcServer :=
  match bind with
  | some err =>
    { server := s, events := [HostEvent.grpcListen (some err)],
      panic := some (HostPanic.ofError err) }
  | none =>
    { server := s, events := [HostEvent.grpcListen none, HostEvent.log "grpc listen on port"],
      panic := none }

/-- The method `StartGrpcServer`. -/
def GrpcServer.StartGrpcServer (s : GrpcServer) (bind : Option GoError) : Started GrpcServer :=
  match s.healthServer with
  | some _ =>
    match s.SwitchHealthStatusGrpc ServingStatus.SERVING with
    | .error p => { server := s, events := [], panic := some p }
    | .ok s1 =>
      let r := s1.run bind
      { r with events := HostEvent.grpcHealth ServingStatus.SERVING :: r.events }
  | none => s.run bind

/-! ## The host -/

/-- The struct `UranusServer`; the logger is not modelled, its lines are events. -/
structure UranusServer where
  httpServer : Option HttpServer
  grpcServer : Option GrpcServer
  shutdownOption : GracefulShutdown
  deriving DecidableEq, Repr

/-- The function `NewUranusSever`. -/
def NewUranusSever : UranusServer :=
  { httpServer := none, grpcServer := none,
    shutdownOption := { Timeout := 0, Delay := 0, HardStop := 0, Signal := [] } }

/-- The method `WithHttpServer`. -/
def UranusServer.WithHttpServer (s : UranusServer) (server : HttpServer) : UranusServer :=
  { s with httpServer := some server }

/-- The method `WithGrpcServer`. -/
def UranusServer.WithGrpcServer (s : UranusServer) (server : GrpcServer) : UranusServer :=
  { s with grpcServer := some server }

/-- The method `WithGracefulShutdown`. -/
def UranusServer.WithGracefulShutdown (s : UranusServer) (shutdownOption : GracefulShutdown) :
    UranusServer :=
  { s with shutdownOption := shutdownOption }

/-- How a run of the host ends. -/
inductive HostOutcome where
  /-- The run waits for good (no signal arrives). -/
  | blocked
  /-- A panic of one of its goroutines aborts the process. -/
  | panicked (p : HostPanic)
  /-- The call `os.Exit(code)` ends the process. -/
  | exited (code : Int)
  deriving DecidableEq, Repr

/-- A run of the host, task by task: the two start goroutines, the main goroutine
from the signal to the two `wg.Go` calls, the two tasks of the wait group, and the
main goroutine behind `wg.Wait()`. -/
structure HostRun where
  startGrpc : List HostEvent
  startHttp : List HostEvent
  main : List HostEvent
  stopGrpc : List HostEvent
  stopHttp : List HostEvent
  final : List HostEvent
  outcome : HostOutcome
  deriving DecidableEq, Repr

/-- The statements of `Run` behind `<-signalCtx.Done()`; `httpShutdownErr` is what
`s.httpServer.Shutdown` returns. -/
def UranusServer.shutdownSequence (s : UranusServer) (httpShutdownErr : Option GoError) :
    HostRun :=
  let switchHttp : List HostEvent :=
    match s.httpServer with
    | some _ => [HostEvent.httpHealth false]
    | none => []
  let switchGrpc : Except HostPanic (List HostEvent) :=
    match s.grpcServer with
    | some g =>
      match g.SwitchHealthStatusGrpc ServingStatus.NOT_SERVING with
      | .error p => .error p
      | .ok _ => .ok [HostEvent.grpcHealth ServingStatus.NOT_SERVING]
    | none => .ok []
  match switchGrpc with
  | .error p =>
    { startGrpc := [], startHttp := [], main := switchHttp, stopGrpc := [], stopHttp := [],
      final := [], outcome := HostOutcome.panicked p }
  | .ok switched =>
    { startGrpc := []
      startHttp := []
      main := switchHttp ++ switched ++
        [HostEvent.logWaiting s.shutdownOption.Timeout,
          HostEvent.sleep SleepSite.drain s.shutdownOption.Timeout]
      stopGrpc :=
        match s.grpcServer with
        | some _ => [HostEvent.grpcGracefulStop, HostEvent.log "grpc server stopped"]
        | none => []
      stopHttp :=
        match s.httpServer with
        | some _ =>
          match httpShutdownErr with
          | some err =>
            [HostEvent.httpShutdown (some err), HostEvent.log "http server shutdown error",
              HostEvent.sleep SleepSite.hardStop s.shutdownOption.HardStop]
          | none => [HostEvent.httpShutdown none, HostEvent.log "http server stopped"]
        | none => []
      final := [HostEvent.log "shutdown complete", HostEvent.exit 0]
      outcome := HostOutcome.exited 0 }

/-- What the environment decides about one run of the host: the errors of the two
binds, whether a signal of the configured set arrives, and what `Shutdown` returns. -/
structure HostEnv where
  grpcBind : Option GoError
  httpBind : Option GoError
  signalled : Bool
  httpShutdownErr : Option GoError
  deriving DecidableEq, Repr

/-- The method `Run`.  The start goroutines run up to where they block in serving; a
panic of the gRPC one aborts the process; the main goroutine waits for the signal and
then runs the shutdown sequence on the listeners as their start routines left them. -/
def UranusServer.Run (s : UranusServer) (env : HostEnv) : HostRun :=
  let g := s.grpcServer.map fun srv => srv.StartGrpcServer env.grpcBind
  let h := s.httpServer.map fun srv => srv.StartHttpServer env.httpBind
  let startGrpc := (g.map fun r => r.events).getD []
  let startHttp := (h.map fun r => r.events).getD []
  match g.bind fun r => r.panic with
  | some p =>
    { startGrpc := startGrpc, startHttp := startHttp, main := [], stopGrpc := [],
      stopHttp := [], final := [], outcome := HostOutcome.panicked p }
  | none =>
    if env.signalled then
      let started : UranusServer :=
        { s with grpcServer := g.map fun r => r.server, httpServer := h.map fun r => r.server }
      let r := started.shutdownSequence env.httpShutdownErr
      { r with startGrpc := startGrpc, startHttp := startHttp }
    else
      { startGrpc := startGrpc, startHttp := startHttp, main := [], stopGrpc := [],
        stopHttp := [], final := [], outcome := HostOutcome.blocked }

/-! ## Linear traces -/

/-- The list `t` is an interleaving of `l` and `r`: it holds the elements of both,
each list in its own order. -/
inductive Interleaving {α : Type} : List α → List α → List α → Prop where
  | nil : Interleaving [] [] []
  | left (a : α) {l r t : List α} : Interleaving l r t → Interleaving (a :: l) r (a :: t)
  | right (b : α) {l r t : List α} : Interleaving l r t → Interleaving l (b :: r) (b :: t)

/-- The list `t` is a linear trace of the shutdown part of a run: the events of the
main goroutine, then those of the two tasks of the wait group in some interleaving,
then those behind `wg.Wait()`. -/
def HostRun.IsShutdownTrace (r : HostRun) (t : List HostEvent) : Prop :=
  ∃ mid, Interleaving r.stopGrpc r.stopHttp mid ∧ t = r.main ++ mid ++ r.final

/-- A switch of a health flag to not serving. -/
def HostEvent.isSwitchOff : HostEvent → Bool
  | .httpHealth false => true
  | .grpcHealth ServingStatus.NOT_SERVING => true
  | _ => false

/-- The drain sleep. -/
def HostEvent.isDrainSleep : HostEvent → Bool
  | .sleep SleepSite.drain _ => true
  | _ => false

/-- The fallback sleep. -/
def HostEvent.isHardStopSleep : HostEvent → Bool
  | .sleep SleepSite.hardStop _ => true
  | _ => false

/-- A call that closes a listener: `GracefulStop` or `Shutdown`. -/
def HostEvent.isStopCall : HostEvent → Bool
  | .grpcGracefulStop => true
  | .httpShutdown _ => true
  | _ => false

/-- In the trace `t` no event of kind `p` comes behind an event of kind `q`: every
`p` precedes every `q`. -/
def AllBefore (p q : HostEvent → Bool) (t : List HostEvent) : Prop :=
  ∀ (pre post : List HostEvent) (x : HostEvent),
    t = pre ++ x :: post → q x = true → ∀ y ∈ post, p y = false

/-- A call of `Shutdown` on the HTTP listener. -/
def HostEvent.isHttpShutdown : HostEvent → Bool
  | .httpShutdown _ => true
  | _ => false

/-- The end of `Run`: the line "shutdown complete" and the call of `os.Exit`. -/
def HostEvent.isCompletion : HostEvent → Bool
  | .log "shutdown complete" => true
  | .exit _ => true
  | _ => false

/-- Whether the gRPC server of the host, if there is one, has a health server. -/
def UranusServer.grpcHealthApplied (s : UranusServer) : Bool :=
  match s.grpcServer with
  | some g => g.healthServer.isSome
  | none => true

/-! ## Sample values -/

/-- The HTTP listener after the given calls of `SwitchHealthCheck`, in order. -/
def HttpServer.switched (s : HttpServer) (calls : List Bool) : HttpServer :=
  calls.foldl HttpServer.SwitchHealthCheck s

/-- Whether a run reaches its shutdown sequence: a signal arrives and the gRPC
listener, if there is one, has bound its port. -/
def UranusServer.reachesShutdown (s : UranusServer) (env : HostEnv) : Prop :=
  env.signalled = true ∧ (s.grpcServer.isSome = true → env.grpcBind = none)

/-- An HTTP listener with a health endpoint. -/
def sampleHttp : HttpServer :=
  (HttpServer.NewServer [httpWithConnectorOption 1323 "simple-http-app"]).HealthCheck "health"

/-- A gRPC listener on which `ApplyHealth` was not called. -/
def grpcNoHealth : GrpcServer :=
  GrpcServer.NewServer [fun o => { o with port := 10000, appName := "simple-grpc-app" }]

/-- A gRPC listener on which `ApplyHealth` was called. -/
def grpcWithHealth : GrpcServer :=
  grpcNoHealth.ApplyHealth { statusMap := [("", ServingStatus.SERVING)] }

/-- The shutdown options of the example application, in nanoseconds. -/
def sampleShutdown : GracefulShutdown :=
  { Timeout := 5000000000, Delay := 10000000000, HardStop := 10000000000,
    Signal := [2, 3, 15, 9] }

/-- The host of the example application. -/
def sampleHost : UranusServer :=
  ((NewUranusSever.WithGracefulShutdown sampleShutdown).WithHttpServer sampleHttp).WithGrpcServer
    grpcWithHealth

/-- The host of the example application without `ApplyHealth`. -/
def hostNoHealth : UranusServer :=
  ((NewUranusSever.WithGracefulShutdown sampleShutdown).WithHttpServer sampleHttp).WithGrpcServer
    grpcNoHealth

/-- A linear trace of the shutdown of `sampleHost` in which the gRPC task runs before
the HTTP task. -/
def sampleTrace : List HostEvent :=
  [HostEvent.httpHealth false, HostEvent.grpcHealth ServingStatus.NOT_SERVING,
    HostEvent.logWaiting 5000000000, HostEvent.sleep SleepSite.drain 5000000000,
    HostEvent.grpcGracefulStop, HostEvent.log "grpc server stopped",
    HostEvent.httpShutdown none, HostEvent.log "http server stopped",
    HostEvent.log "shutdown complete", HostEvent.exit 0]

/-- A linear trace of the shutdown of `sampleHost` when `Shutdown` fails, in which the
HTTP task runs before the gRPC task. -/
def sampleTraceHttpError : List HostEvent :=
  [HostEvent.httpHealth false, HostEvent.grpcHealth ServingStatus.NOT_SERVING,
    HostEvent.logWaiting 5000000000, HostEvent.sleep SleepSite.drain 5000000000,
    HostEvent.httpShutdown (some (GoError.leaf "context deadline exceeded")),
    HostEvent.log "http server shutdown error",
    HostEvent.sleep SleepSite.hardStop 10000000000,
    HostEvent.grpcGracefulStop, HostEvent.log "grpc server stopped",
    HostEvent.log "shutdown complete", HostEvent.exit 0]

/-- An environment in which both binds succeed, a signal arrives and `Shutdown`
succeeds. -/
def calmEnv : HostEnv :=
  { grpcBind := none, httpBind := none, signalled := true, httpShutdownErr := none }

/-- The environment `calmEnv` with a failing `Shutdown`. -/
def httpErrorEnv : HostEnv :=
  { calmEnv with httpShutdownErr := some (GoError.leaf "context deadline exceeded") }

/-- A host with a gRPC listener only, on which `ApplyHealth` was not called. -/
def grpcOnlyNoHealth : UranusServer :=
  (NewUranusSever.WithGracefulShutdown sampleShutdown).WithGrpcServer grpcNoHealth

end Transport

/-!
# xgen-uranus: the scaffolding commands

A shallow embedding of `listRepositories` (`commands/list_repo.go`) and of
`newAppConfig` (`commands/generate_app.go`).  The file system is a tree of named
entries; functions of the Go library that work on path strings are parameters.
-/

namespace Commands

open KafkaProvider (GoError)

/-! ## The file tree -/

/-- An entry of the file system as `os.Lstat` reports it: a file or a directory, with
its name; a directory lists its entries.  Entries that cannot be read are left out:
the callback of `listRepositories` answers nil to an error and so passes them by. -/
inductive FileNode where
  | file (name : String)
  | dir (name : String) (entries : List FileNode)

/-- The method `Name` of `os.FileInfo`. -/
def FileNode.Name : FileNode → String
  | .file name => name
  | .dir name _ => name

/-- The method `IsDir` of `os.FileInfo`. -/
def FileNode.IsDir : FileNode → Bool
  | .file _ => false
  | .dir _ _ => true

/-- What a `filepath.WalkFunc` returns: nil or `filepath.SkipDir`. -/
inductive WalkSignal where
  | none
  | SkipDir
  deriving DecidableEq, Repr

/-- The function `strings.HasPrefix`. -/
def HasPrefix (s pre : String) : Bool := pre.data.isPrefixOf s.data

mutual

/-- The function `walk` of `path/filepath`: the callback on the entry, then, for a
directory on which the callback returned nil, its entries in turn. -/
def walk {σ : Type} (join : String → String → String)
    (walkFn : String → FileNode → σ → σ × WalkSignal) :
    String → FileNode → σ → σ × WalkSignal
  | path, .file name, acc => walkFn path (.file name) acc
  | path, .dir name entries, acc =>
    match walkFn path (.dir name entries) acc with
    | (acc1, .SkipDir) => (acc1, .SkipDir)
    | (acc1, .none) => walkEntries join walkFn path entries acc1

/-- The loop over the entries in `walk`: `SkipDir` from a directory skips it, `SkipDir`
from a file ends the loop. -/
def walkEntries {σ : Type} (join : String → String → String)
    (walkFn : String → FileNode → σ → σ × WalkSignal) :
    String → List FileNode → σ → σ × WalkSignal
  | _, [], acc => (acc, .none)
  | path, e :: rest, acc =>
    match walk join walkFn (join path e.Name) e acc with
    | (acc1, .SkipDir) =>
      if !e.IsDir then (acc1, .SkipDir) else walkEntries join walkFn path rest acc1
    | (acc1, .none) => walkEntries join walkFn path rest acc1

end

/-- The function `filepath.Walk` on a root that `os.Lstat` finds: `SkipDir` from the
walk is turned into nil. -/
def Walk {σ : Type} (join : String → String → String)
    (walkFn : String → FileNode → σ → σ × WalkSignal) (root : String) (info : FileNode)
    (acc : σ) : σ :=
  (walk join walkFn root info acc).1

/-- The callback that `listRepositories` passes to `filepath.Walk`, called without an
error; `dir` is `filepath.Dir`. -/
def listCallback (dir : String → String) (path : String) (info : FileNode)
    (repos : List String) : List String × WalkSignal :=
  if info.IsDir then
    let name := info.Name
    if HasPrefix name "." || name = "vendor" || name = "node_modules" then
      (repos, WalkSignal.SkipDir)
    else (repos, WalkSignal.none)
  else if info.Name = "repository.go" then (repos ++ [dir path], WalkSignal.none)
  else (repos, WalkSignal.none)

/-- What `listRepositories` reports: the directories it lists, whether it printed
"No repositories found.", and the error it returns. -/
structure Listing where
  repos : List String
  noneFound : Bool
  err : Option GoError
  deriving DecidableEq, Repr

/-- The function `listRepositories`; `info` is what `os.Lstat(searchPath)` reports,
`join` is `filepath.Join` and `dir` is `filepath.Dir`.  The walk returns no error, as
the callback returns nil or `SkipDir` only. -/
def listRepositories (join : String → String → String) (dir : String → String)
    (searchPath : String) (info : FileNode) : Listing :=
  let repos := Walk join (listCallback dir) searchPath info []
  { repos := repos, noneFound := repos.isEmpty, err := none }

/-! ## Application configuration -/

/-- The struct `AppConfig`. -/
structure AppConfig where
  Name : String
  Module : String
  Dir : String
  Port : Int
  deriving DecidableEq, Repr

/-- The function `newAppConfig`; `trimSpace`, `filepathDir` and `filepathBase` are
`strings.TrimSpace`, `filepath.Dir` and `filepath.Base`. -/
def newAppConfig (trimSpace filepathDir filepathBase : String → String)
    (name moduleName : String) : Except GoError AppConfig :=
  let name := trimSpace name
  if name = "" then .error (GoError.leaf "app name cannot be empty")
  else
    let dir := filepathDir name
    let baseName := filepathBase name
    let appDir := if dir = "." then baseName else name
    .ok { Name := baseName, Module := moduleName, Dir := appDir, Port := 10000 }

/-! ## Sample values -/

/-- A project with one repository: `user/repository.go` below the root. -/
def projectEntries : List FileNode :=
  [FileNode.file "main.go", FileNode.dir "user" [FileNode.file "repository.go"]]

/-- The current directory as `os.Lstat(".")` reports it: its name is `.`. -/
def currentDirectory : FileNode := FileNode.dir "." projectEntries

/-- The same directory as `os.Lstat("./internal")` reports it. -/
def internalDirectory : FileNode := FileNode.dir "internal" projectEntries

/-- A stand-in for `filepath.Join` on two elements with no dots or double slashes. -/
def joinSlash (a b : String) : String := a ++ "/" ++ b

/-- A stand-in for `strings.TrimSpace` on names padded with blanks only. -/
def trimBlanks (s : String) : String :=
  String.mk (((s.data.dropWhile fun ch => ch == ' ').reverse.dropWhile fun ch => ch == ' ').reverse)

/-- A stand-in for `filepath.Base` on a clean slash-separated name. -/
def lastElement (s : String) : String :=
  String.mk (s.data.reverse.takeWhile fun ch => ch != '/').reverse

/-- A stand-in for `filepath.Dir` on a clean slash-separated relative name. -/
def directoryPart (s : String) : String :=
  match (s.data.reverse.dropWhile fun ch => ch != '/').drop 1 with
  | [] => "."
  | d => String.mk d.reverse

end Commands

/-!
# xgen-uranus: the interceptors

A shallow embedding of `interceptors/validators.go`, `interceptors/http_validators.go`,
`interceptors/correlation_tracing.go`, `interceptors/http_correlation_tracing.go` and of
`DurationToTimeMillisField` (`interceptors/logging.go`).  What gin, grpc and the id
generator answer is given by the caller of each definition.
-/

namespace Interceptors

open KafkaProvider (GoError)

/-! ## Requests and handlers -/

/-- A request value `req interface{}`: its payload, and what its `Validate` method
returns when it implements `IValidator` (`none` when it does not). -/
structure Request (α : Type) where
  payload : α
  validate : Option (Option GoError)

/-- The values stored in a `context.Context` by `context.WithValue`, latest first, and
the incoming metadata of the call (`none` when the context carries none). -/
structure CallContext where
  values : List (String × String)
  incoming : Option (String → List String)

/-- The call `ctx.Value(key)` for a string value. -/
def CallContext.Value (ctx : CallContext) (key : String) : Option String :=
  (ctx.values.find? fun e => e.1 = key).map fun e => e.2

/-- What a unary interceptor did: the calls of the downstream handler it made, with
the context and request it passed, and the pair it returned. -/
structure Intercepted (α β : Type) where
  handlerCalls : List (CallContext × Request α)
  resp : Option β
  err : Option GoError

/-- The interceptor that `Validators` returns. -/
def Validators {α β : Type} (ctx : CallContext) (req : Request α)
    (handler : CallContext → Request α → Option β × Option GoError) : Intercepted α β :=
  match req.validate with
  | some (some err) => { handlerCalls := [], resp := none, err := some err }
  | _ =>
    let r := handler ctx req
    { handlerCalls := [(ctx, req)], resp := r.1, err := r.2 }

/-- The interceptor that `CorrelationTracing` returns; `key` is
`common.CorrelationIdKey` and `generated` is what `utilities.GenerateUUIDV7()` returns
(the code calls it first, whatever the metadata holds). -/
def CorrelationTracing {α β : Type} (key : String) (generated : String) (ctx : CallContext)
    (req : Request α) (handler : CallContext → Request α → Option β × Option GoError) :
    Intercepted α β :=
  let correlationId :=
    match ctx.incoming with
    | some md =>
      if (md key).length > 0 ∧ ((md key).headD "").length > 0 then (md key).headD ""
      else generated
    | none => generated
  let ctx1 : CallContext := { ctx with values := (key, correlationId) :: ctx.values }
  let r := handler ctx1 req
  { handlerCalls := [(ctx1, req)], resp := r.1, err := r.2 }

/-- The correlation id a call brings with it: the first metadata value under `key`,
when there is one and it is not empty. -/
def CallContext.suppliedId (ctx : CallContext) (key : String) : Option String :=
  match ctx.incoming with
  | some md =>
    match md key with
    | v :: _ => if v = "" then none else some v
    | [] => none
  | none => none

/-! ## The gin context -/

/-- A JSON answer written with `AbortWithStatusJSON`: the status code and the fields
`error` and `details`. -/
structure JsonAnswer where
  code : Nat
  error : String
  details : String
  deriving DecidableEq, Repr

/-- The parts of a `gin.Context` the interceptors touch: the request headers (`""` for
a header that is absent), the keys stored with `Set`, the response headers set with
`Header`, whether the context is aborted, the answers written, and the number of
`Next` calls. -/
structure GinContext where
  requestHeader : String → String
  keys : List (String × String)
  responseHeader : List (String × String)
  aborted : Bool
  written : List JsonAnswer
  nextCalls : Nat

/-- The call `c.Get(key)` for a string value. -/
def GinContext.Get (c : GinContext) (key : String) : Option String :=
  (c.keys.find? fun e => e.1 = key).map fun e => e.2

/-- The value of a response header, if set. -/
def GinContext.responseHeaderOf (c : GinContext) (key : String) : Option String :=
  (c.responseHeader.find? fun e => e.1 = key).map fun e => e.2

/-- The method `AbortWithStatusJSON`. -/
def GinContext.AbortWithStatusJSON (c : GinContext) (answer : JsonAnswer) : GinContext :=
  { c with aborted := true, written := c.written ++ [answer] }

/-- The middleware that `HttpCorrelationTracing` returns; `key` is
`common.CorrelationIdKey` and `generate` is `utilities.GenerateUUIDV7`, called only
when the header is empty. -/
def HttpCorrelationTracing (key : String) (generate : Unit → String) (c : GinContext) :
    GinContext :=
  let correlationId := c.requestHeader key
  let correlationId := if correlationId = "" then generate () else correlationId
  { c with
    keys := (key, correlationId) :: c.keys
    responseHeader := (key, correlationId) :: c.responseHeader
    nextCalls := c.nextCalls + 1 }

/-- What one of the HTTP validation helpers did: the context it leaves, whether it
called `Validate`, and the error it returned. -/
structure Validated where
  context : GinContext
  validateCalled : Bool
  err : Option GoError

/-- The body the three HTTP validation helpers share: `bind` is the error of the
binding call, `message` the text of the answer to a binding failure. -/
def httpValidate {α : Type} (message : String) (bind : Option GoError) (c : GinContext)
    (req : Request α) : Validated :=
  match bind with
  | some err =>
    { context := c.AbortWithStatusJSON { code := 400, error := message, details := err.text }
      validateCalled := false
      err := some err }
  | none =>
    match req.validate with
    | some (some err) =>
      { context :=
          c.AbortWithStatusJSON
            { code := 400, error := "Validation failed", details := err.text }
        validateCalled := true
        err := some err }
    | some none => { context := c, validateCalled := true, err := none }
    | none => { context := c, validateCalled := false, err := none }

/-- The function `HttpValidateRequest`; `bind` is what `c.ShouldBindJSON(req)` returns. -/
def HttpValidateRequest {α : Type} (bind : Option GoError) (c : GinContext)
    (req : Request α) : Validated :=
  httpValidate "Invalid request body" bind c req

/-- The function `HttpValidateQuery`; `bind` is what `c.ShouldBindQuery(req)` returns. -/
def HttpValidateQuery {α : Type} (bind : Option GoError) (c : GinContext)
    (req : Request α) : Validated :=
  httpValidate "Invalid query parameters" bind c req

/-- The function `HttpValidateUri`; `bind` is what `c.ShouldBindUri(req)` returns. -/
def HttpValidateUri {α : Type} (bind : Option GoError) (c : GinContext)
    (req : Request α) : Validated :=
  httpValidate "Invalid URI parameters" bind c req

/-- What the three HTTP validation helpers answer, for the text `message` of the
answer to a binding failure: a failed binding aborts with 400 and the binding error and
skips `Validate`; a failed `Validate` aborts with 400 and its error; otherwise the
context is left as it was and nil is returned. -/
def AnswersAsValidator {α : Type} (message : String) (bind : Option GoError) (c : GinContext)
    (req : Request α) (r : Validated) : Prop :=
  (∀ e, bind = some e →
    r.err = some e ∧ r.validateCalled = false ∧
    r.context = c.AbortWithStatusJSON { code := 400, error := message, details := e.text }) ∧
  (∀ e, bind = none → req.validate = some (some e) →
    r.err = some e ∧ r.validateCalled = true ∧
    r.context =
      c.AbortWithStatusJSON { code := 400, error := "Validation failed", details := e.text }) ∧
  (bind = none → (req.validate = none ∨ req.validate = some none) →
    r.err = none ∧ r.context = c) ∧
  (r.err = none → r.context = c) ∧
  (r.err ≠ none ↔ ∃ a, a.code = 400 ∧ r.context = c.AbortWithStatusJSON a)

/-! ## The duration field -/

/-- A `zapcore.Field` made by `zap.Float32`: its key and its value; the value is kept
as the integer `micros` it is computed from, being `float32(micros) / 1000`. -/
structure DurationField where
  Key : String
  micros : Int
  deriving DecidableEq, Repr

/-- The integer part of `durationToMilliseconds`: `duration.Nanoseconds() / 1000`. -/
def durationMicros (duration : Int) : Int := Int.tdiv duration 1000

/-- The function `DurationToTimeMillisField`. -/
def DurationToTimeMillisField (duration : Int) : DurationField :=
  { Key := "duration_ms", micros := durationMicros duration }

/-- The variable `DefaultDurationToField`. -/
def DefaultDurationToField : Int → DurationField := DurationToTimeMillisField

/-- The key that the comment on `DurationToTimeMillisField` names. -/
def documentedDurationKey : String := "grpc.time_ms"

/-! ## Sample values -/

/-- A gin context with no headers, on which nothing was done yet. -/
def emptyGin : GinContext :=
  { requestHeader := fun _ => "", keys := [], responseHeader := [], aborted := false,
    written := [], nextCalls := 0 }

/-- A request that does not implement `IValidator`. -/
def plainRequest : Request String := { payload := "hello", validate := none }

/-- A request whose `Validate` fails. -/
def invalidRequest : Request String :=
  { payload := "", validate := some (some (GoError.leaf "name is required")) }

/-- A handler that answers with the payload. -/
def echoHandler (_ : CallContext) (req : Request String) : Option String × Option GoError :=
  (some req.payload, none)

end Interceptors

namespace KafkaProvider

/-! ## Properties of claim processing -/

section ClaimProcessing

variable {σ : Type}

theorem marks_append (a b : List Effect) : marks (a ++ b) = marks a ++ marks b := by
  simp [marks, List.filterMap_append]

theorem handled_append (a b : List Effect) : handled (a ++ b) = handled a ++ handled b := by
  simp [handled, List.filterMap_append]

theorem hookErrors_append (a b : List Effect) :
    hookErrors (a ++ b) = hookErrors a ++ hookErrors b := by
  simp [hookErrors, List.filterMap_append]

theorem handlerFailures_append (a b : List Effect) :
    handlerFailures (a ++ b) = handlerFailures a ++ handlerFailures b := by
  simp [handlerFailures, List.filterMap_append]

/-- The loop body has one of three shapes, fixed by the handler table and by what the
handler answers. -/
theorem consumeMessage_shape (c : ConsumerApp σ) (m : ConsumerMessage) (s : σ) :
    (c.consumeMessage m s).1 = [Effect.receive m, Effect.mark m ""] ∨
    (c.consumeMessage m s).1 = [Effect.receive m, Effect.mark m "", Effect.handle m none] ∨
    ∃ err, (c.consumeMessage m s).1 =
      [Effect.receive m, Effect.mark m "", Effect.handle m (some err), Effect.handlerError err] := by
  unfold ConsumerApp.consumeMessage
  cases hh : c.handler m.Topic with
  | none => simp
  | some o =>
    cases o with
    | none => simp
    | some hs =>
      cases hr : hs.HandleMessage m (c.consumerMsgHandler.fReceive m s) with
      | mk r s2 =>
        cases r with
        | none => simp [hr]
        | some err => simp [hr]

theorem consumeMessage_marks (c : ConsumerApp σ) (m : ConsumerMessage) (s : σ) :
    marks (c.consumeMessage m s).1 = [m] := by
  rcases consumeMessage_shape c m s with h | h | ⟨err, h⟩ <;> rw [h] <;> rfl

theorem consumeMessage_handled (c : ConsumerApp σ) (m : ConsumerMessage) (s : σ) :
    handled (c.consumeMessage m s).1 = [] ∨ handled (c.consumeMessage m s).1 = [m] := by
  rcases consumeMessage_shape c m s with h | h | ⟨err, h⟩ <;> rw [h]
  · exact Or.inl rfl
  · exact Or.inr rfl
  · exact Or.inr rfl

theorem ConsumeClaim_marks (c : ConsumerApp σ) (script : List Select) (s : σ) :
    marks (c.ConsumeClaim script s).trace = delivered script := by
  induction script generalizing s with
  | nil => rfl
  | cons o rest ih =>
    cases o with
    | message m =>
      simp only [ConsumerApp.ConsumeClaim, delivered, marks_append, consumeMessage_marks, ih]
      rfl
    | channelClosed => rfl
    | contextDone => rfl

theorem ConsumeClaim_handled_sublist (c : ConsumerApp σ) (script : List Select) (s : σ) :
    (handled (c.ConsumeClaim script s).trace).Sublist (delivered script) := by
  induction script generalizing s with
  | nil => exact List.Sublist.slnil
  | cons o rest ih =>
    cases o with
    | message m =>
      simp only [ConsumerApp.ConsumeClaim, delivered, handled_append]
      rcases consumeMessage_handled c m s with h | h <;> rw [h]
      · exact List.Sublist.cons _ (ih _)
      · exact List.Sublist.cons₂ _ (ih _)
    | channelClosed => exact List.Sublist.slnil
    | contextDone => exact List.Sublist.slnil

theorem consumeMessage_count_mark (c : ConsumerApp σ) (m0 m : ConsumerMessage) (s : σ) :
    (c.consumeMessage m0 s).1.count (Effect.mark m "") = [m0].count m := by
  rcases consumeMessage_shape c m0 s with h | h | ⟨err, h⟩ <;> rw [h] <;>
    by_cases hm : m0 = m <;> simp [List.count_cons, hm]

theorem ConsumeClaim_count_mark (c : ConsumerApp σ) (script : List Select) (s : σ)
    (m : ConsumerMessage) :
    (c.ConsumeClaim script s).trace.count (Effect.mark m "") = (delivered script).count m := by
  induction script generalizing s with
  | nil => rfl
  | cons o rest ih =>
    cases o with
    | message m0 =>
      simp only [ConsumerApp.ConsumeClaim, delivered, List.count_append, ih,
        consumeMessage_count_mark]
      rw [← List.count_append]
      rfl
    | channelClosed => simp [ConsumerApp.ConsumeClaim, delivered]
    | contextDone => simp [ConsumerApp.ConsumeClaim, delivered]

theorem received_append (a b : List Effect) : received (a ++ b) = received a ++ received b := by
  simp [received, List.filterMap_append]

theorem consumeMessage_isBlock (c : ConsumerApp σ) (m : ConsumerMessage) (s : σ) :
    IsBlock m (c.consumeMessage m s).1 :=
  consumeMessage_shape c m s

/-- The trace of `ConsumeClaim` is one block per delivered message, in delivery
order, followed by the log line when the channel was seen closed. -/
theorem ConsumeClaim_blocks (c : ConsumerApp σ) (script : List Select) (s : σ) :
    ∃ (blocks : List (List Effect)) (tail : List Effect),
      (c.ConsumeClaim script s).trace = blocks.flatten ++ tail ∧
      List.Forall₂ IsBlock (delivered script) blocks ∧
      (tail = [] ∨ tail = [Effect.logChannelClosed]) := by
  induction script generalizing s with
  | nil => exact ⟨[], [], rfl, List.Forall₂.nil, Or.inl rfl⟩
  | cons o rest ih =>
    cases o with
    | message m =>
      obtain ⟨blocks, tail, ht, hb, htail⟩ := ih (c.consumeMessage m s).2
      refine ⟨(c.consumeMessage m s).1 :: blocks, tail, ?_,
        List.Forall₂.cons (consumeMessage_isBlock c m s) hb, htail⟩
      simp only [ConsumerApp.ConsumeClaim, ht, List.flatten_cons, List.append_assoc]
    | channelClosed =>
      exact ⟨[], [Effect.logChannelClosed], rfl, List.Forall₂.nil, Or.inr rfl⟩
    | contextDone => exact ⟨[], [], rfl, List.Forall₂.nil, Or.inl rfl⟩

theorem markBeforeHandle_cons {t : List Effect} (h : MarkBeforeHandle t) (e : Effect)
    (he : ∀ m r, e ≠ Effect.handle m r) : MarkBeforeHandle (e :: t) := by
  intro pre post m r heq
  rcases List.cons_eq_append_iff.mp heq with ⟨_, h2⟩ | ⟨a, h1, h2⟩
  · exact absurd (List.cons.inj h2).1.symm (he m r)
  · obtain ⟨pre', hp⟩ := h a post m r h2
    exact ⟨e :: pre', by rw [h1, hp]; rfl⟩

theorem markBeforeHandle_block {t : List Effect} (h : MarkBeforeHandle t)
    (m : ConsumerMessage) (r : Option GoError) :
    MarkBeforeHandle (Effect.receive m :: Effect.mark m "" :: Effect.handle m r :: t) := by
  intro pre post m1 r1 heq
  rcases List.cons_eq_append_iff.mp heq with ⟨_, h2⟩ | ⟨a, h1, h2⟩
  · cases h2
  rcases List.cons_eq_append_iff.mp h2 with ⟨_, h4⟩ | ⟨b, h3, h4⟩
  · cases h4
  rcases List.cons_eq_append_iff.mp h4 with ⟨h5, h6⟩ | ⟨d, h5, h6⟩
  · cases h6
    exact ⟨[], by rw [h1, h3, h5]; rfl⟩
  · obtain ⟨pre', hp⟩ := h d post m1 r1 h6
    exact ⟨Effect.receive m :: Effect.mark m "" :: Effect.handle m r :: pre',
      by rw [h1, h3, h5, hp]; rfl⟩

theorem markBeforeHandle_consumeMessage (c : ConsumerApp σ) (m : ConsumerMessage) (s : σ)
    {t : List Effect} (h : MarkBeforeHandle t) :
    MarkBeforeHandle ((c.consumeMessage m s).1 ++ t) := by
  rcases consumeMessage_shape c m s with hs | hs | ⟨err, hs⟩ <;> rw [hs]
  · exact markBeforeHandle_cons (markBeforeHandle_cons h _ (by intro _ _ hh; cases hh)) _
      (by intro _ _ hh; cases hh)
  · exact markBeforeHandle_block h m none
  · exact markBeforeHandle_block (markBeforeHandle_cons h _ (by intro _ _ hh; cases hh)) m
      (some err)

theorem ConsumeClaim_markBeforeHandle (c : ConsumerApp σ) (script : List Select) (s : σ) :
    MarkBeforeHandle (c.ConsumeClaim script s).trace := by
  have hnil : MarkBeforeHandle [] := by
    intro pre post m r heq
    cases pre <;> cases heq
  induction script generalizing s with
  | nil => exact hnil
  | cons o rest ih =>
    cases o with
    | message m => exact markBeforeHandle_consumeMessage c m s (ih _)
    | channelClosed => exact markBeforeHandle_cons hnil _ (by intro _ _ hh; cases hh)
    | contextDone => exact hnil

/-- C1: for every script of deliveries and every behaviour of the hooks and handlers,
the `MarkMessage` calls of `ConsumeClaim` are exactly the delivered messages, one call
per delivery and in delivery order, and the `HandleMessage` calls are a subsequence of
the deliveries: no delivery is handed to a handler twice. -/
theorem ConsumeClaim_marks_each_delivery_once (c : ConsumerApp σ) (script : List Select)
    (s : σ) :
    marks (c.ConsumeClaim script s).trace = delivered script ∧
    (handled (c.ConsumeClaim script s).trace).Sublist (delivered script) ∧
    ∀ m : ConsumerMessage,
      ((c.ConsumeClaim script s).trace.count (Effect.mark m "") = (delivered script).count m) ∧
      (handled (c.ConsumeClaim script s).trace).count m ≤ (delivered script).count m := by
  refine ⟨ConsumeClaim_marks c script s, ConsumeClaim_handled_sublist c script s, fun m => ⟨?_, ?_⟩⟩
  · exact ConsumeClaim_count_mark c script s m
  · exact (ConsumeClaim_handled_sublist c script s).count_le m

/-- C2: the trace of `ConsumeClaim` is, in delivery order, one block per delivered
message, each block being the receive hook, then the mark, then the handler call if
there is one (then the error hook if the handler failed); and wherever a handler call
stands in the trace, the receive hook and the mark of that same message stand right
before it. -/
theorem ConsumeClaim_receive_mark_handle_order (c : ConsumerApp σ) (script : List Select)
    (s : σ) :
    (∃ (blocks : List (List Effect)) (tail : List Effect),
      (c.ConsumeClaim script s).trace = blocks.flatten ++ tail ∧
      List.Forall₂ IsBlock (delivered script) blocks ∧
      (tail = [] ∨ tail = [Effect.logChannelClosed])) ∧
    ∀ (pre post : List Effect) (m : ConsumerMessage) (r : Option GoError),
      (c.ConsumeClaim script s).trace = pre ++ Effect.handle m r :: post →
      ∃ pre', pre = pre' ++ [Effect.receive m, Effect.mark m ""] :=
  ⟨ConsumeClaim_blocks c script s, ConsumeClaim_markBeforeHandle c script s⟩

theorem hookAfterFailure_cons {t : List Effect} (h : HookAfterFailure t) (e : Effect)
    (he : ∀ m err, e ≠ Effect.handle m (some err)) : HookAfterFailure (e :: t) := by
  intro pre post m err heq
  rcases List.cons_eq_append_iff.mp heq with ⟨_, h2⟩ | ⟨a, _, h2⟩
  · exact absurd (List.cons.inj h2).1.symm (he m err)
  · exact h a post m err h2

theorem hookAfterFailure_failure {t : List Effect} (h : HookAfterFailure t)
    (m : ConsumerMessage) (err : GoError) :
    HookAfterFailure (Effect.handle m (some err) :: Effect.handlerError err :: t) := by
  intro pre post m1 err1 heq
  rcases List.cons_eq_append_iff.mp heq with ⟨_, h2⟩ | ⟨a, _, h2⟩
  · cases h2
    exact ⟨t, rfl⟩
  rcases List.cons_eq_append_iff.mp h2 with ⟨_, h4⟩ | ⟨b, _, h4⟩
  · cases h4
  · exact h b post m1 err1 h4

theorem hookAfterFailure_consumeMessage (c : ConsumerApp σ) (m : ConsumerMessage) (s : σ)
    {t : List Effect} (h : HookAfterFailure t) :
    HookAfterFailure ((c.consumeMessage m s).1 ++ t) := by
  rcases consumeMessage_shape c m s with hs | hs | ⟨err, hs⟩ <;> rw [hs]
  · exact hookAfterFailure_cons (hookAfterFailure_cons h _ (by intro _ _ hh; cases hh)) _
      (by intro _ _ hh; cases hh)
  · exact hookAfterFailure_cons
      (hookAfterFailure_cons (hookAfterFailure_cons h _ (by intro _ _ hh; cases hh)) _
        (by intro _ _ hh; cases hh)) _ (by intro _ _ hh; cases hh)
  · exact hookAfterFailure_cons
      (hookAfterFailure_cons (hookAfterFailure_failure h m err) _ (by intro _ _ hh; cases hh)) _
      (by intro _ _ hh; cases hh)

theorem ConsumeClaim_hookAfterFailure (c : ConsumerApp σ) (script : List Select) (s : σ) :
    HookAfterFailure (c.ConsumeClaim script s).trace := by
  have hnil : HookAfterFailure [] := by
    intro pre post m err heq
    cases pre <;> cases heq
  induction script generalizing s with
  | nil => exact hnil
  | cons o rest ih =>
    cases o with
    | message m => exact hookAfterFailure_consumeMessage c m s (ih _)
    | channelClosed => exact hookAfterFailure_cons hnil _ (by intro _ _ hh; cases hh)
    | contextDone => exact hnil

theorem consumeMessage_hookErrors (c : ConsumerApp σ) (m : ConsumerMessage) (s : σ) :
    hookErrors (c.consumeMessage m s).1 = handlerFailures (c.consumeMessage m s).1 := by
  rcases consumeMessage_shape c m s with h | h | ⟨err, h⟩ <;> rw [h] <;> rfl

theorem ConsumeClaim_hookErrors (c : ConsumerApp σ) (script : List Select) (s : σ) :
    hookErrors (c.ConsumeClaim script s).trace =
      handlerFailures (c.ConsumeClaim script s).trace := by
  induction script generalizing s with
  | nil => rfl
  | cons o rest ih =>
    cases o with
    | message m =>
      simp only [ConsumerApp.ConsumeClaim, hookErrors_append, handlerFailures_append,
        consumeMessage_hookErrors, ih]
    | channelClosed => rfl
    | contextDone => rfl

theorem consumeMessage_received (c : ConsumerApp σ) (m : ConsumerMessage) (s : σ) :
    received (c.consumeMessage m s).1 = [m] := by
  rcases consumeMessage_shape c m s with h | h | ⟨err, h⟩ <;> rw [h] <;> rfl

theorem ConsumeClaim_received (c : ConsumerApp σ) (script : List Select) (s : σ) :
    received (c.ConsumeClaim script s).trace = delivered script := by
  induction script generalizing s with
  | nil => rfl
  | cons o rest ih =>
    cases o with
    | message m =>
      simp only [ConsumerApp.ConsumeClaim, delivered, received_append, consumeMessage_received,
        ih]
      rfl
    | channelClosed => rfl
    | contextDone => rfl

theorem ConsumeClaim_result (c : ConsumerApp σ) (script : List Select) (s : σ) :
    (c.ConsumeClaim script s).result = none ∨ (c.ConsumeClaim script s).result = some none := by
  induction script generalizing s with
  | nil => exact Or.inl rfl
  | cons o rest ih =>
    cases o with
    | message m => exact ih _
    | channelClosed => exact Or.inr rfl
    | contextDone => exact Or.inr rfl

/-- C3: the errors passed to the error hook are exactly the errors the handler calls
returned, in the same order (so a handler that returns nil causes no hook call); a
handler call that returned an error is followed at once by the hook call with that
error; `ConsumeClaim` never returns an error; and every delivered message is received
whatever the handlers answered before it. -/
theorem ConsumeClaim_handler_error_to_hook_only (c : ConsumerApp σ) (script : List Select)
    (s : σ) :
    hookErrors (c.ConsumeClaim script s).trace =
      handlerFailures (c.ConsumeClaim script s).trace ∧
    (∀ (pre post : List Effect) (m : ConsumerMessage) (err : GoError),
      (c.ConsumeClaim script s).trace = pre ++ Effect.handle m (some err) :: post →
      ∃ post', post = Effect.handlerError err :: post') ∧
    (∀ err, (c.ConsumeClaim script s).result ≠ some (some err)) ∧
    received (c.ConsumeClaim script s).trace = delivered script := by
  refine ⟨ConsumeClaim_hookErrors c script s, ConsumeClaim_hookAfterFailure c script s, ?_,
    ConsumeClaim_received c script s⟩
  intro err h
  rcases ConsumeClaim_result c script s with h1 | h1 <;> rw [h1] at h <;> cases h

theorem consumeMessage_registered (c : ConsumerApp σ) (hs : IConsumerService σ)
    (m : ConsumerMessage) (s : σ) (hh : c.handler m.Topic = some (some hs)) :
    c.consumeMessage m s =
      match hs.HandleMessage m (c.consumerMsgHandler.fReceive m s) with
      | (none, s1) =>
        ([Effect.receive m, Effect.mark m "", Effect.handle m none], s1)
      | (some err, s1) =>
        ([Effect.receive m, Effect.mark m "", Effect.handle m (some err),
            Effect.handlerError err],
          c.consumerMsgHandler.fHandlerError err s1) := by
  unfold ConsumerApp.consumeMessage
  simp only [hh]
  cases hr : hs.HandleMessage m (c.consumerMsgHandler.fReceive m s) with
  | mk r s2 =>
    cases r with
    | none => simp
    | some err => simp

theorem consumeMessage_unregistered (c : ConsumerApp σ) (m : ConsumerMessage) (s : σ)
    (hh : c.handler m.Topic = none ∨ c.handler m.Topic = some none) :
    c.consumeMessage m s =
      ([Effect.receive m, Effect.mark m ""], c.consumerMsgHandler.fReceive m s) := by
  unfold ConsumerApp.consumeMessage
  rcases hh with hh | hh <;> simp only [hh]

theorem consumeMessage_handled_eq (c : ConsumerApp σ) (m : ConsumerMessage) (s : σ) :
    handled (c.consumeMessage m s).1 = if c.dispatches m then [m] else [] := by
  unfold ConsumerApp.dispatches
  cases hh : c.handler m.Topic with
  | none => rw [consumeMessage_unregistered c m s (Or.inl hh)]; rfl
  | some o =>
    cases o with
    | none => rw [consumeMessage_unregistered c m s (Or.inr hh)]; rfl
    | some hs =>
      rw [consumeMessage_registered c hs m s hh]
      cases hr : hs.HandleMessage m (c.consumerMsgHandler.fReceive m s) with
      | mk r s2 =>
        cases r with
        | none => rfl
        | some err => rfl

theorem ConsumeClaim_handled (c : ConsumerApp σ) (script : List Select) (s : σ) :
    handled (c.ConsumeClaim script s).trace = (delivered script).filter c.dispatches := by
  induction script generalizing s with
  | nil => rfl
  | cons o rest ih =>
    cases o with
    | message m =>
      simp only [ConsumerApp.ConsumeClaim, delivered, handled_append, consumeMessage_handled_eq,
        ih, List.filter_cons]
      cases c.dispatches m <;> simp
    | channelClosed => rfl
    | contextDone => rfl

theorem RegisterHandler_handler_same (c : ConsumerApp σ) (T : String)
    (h : Option (IConsumerService σ)) : (c.RegisterHandler T h).handler T = some h := by
  simp [ConsumerApp.RegisterHandler]

theorem RegisterHandler_handler_other (c : ConsumerApp σ) (T t : String)
    (h : Option (IConsumerService σ)) (ht : t ≠ T) :
    (c.RegisterHandler T h).handler t = c.handler t := by
  simp [ConsumerApp.RegisterHandler, ht]

theorem RegisterHandler_consumeMessage_other (c : ConsumerApp σ) (T : String)
    (h : Option (IConsumerService σ)) (m : ConsumerMessage) (s : σ) (ht : m.Topic ≠ T) :
    (c.RegisterHandler T h).consumeMessage m s = c.consumeMessage m s := by
  unfold ConsumerApp.consumeMessage
  rw [RegisterHandler_handler_other c T m.Topic h ht]
  rfl

/-- C4: after `RegisterHandler(T, h)` with `h` non-nil, a delivered message of topic
`T` is received, marked and passed to `h` itself (the error hook running iff `h`
fails); a message of another topic is processed as it was before the registration; a
message whose topic has no handler, or a nil one, is received and marked and causes
no handler call and no hook call; and over a whole run the handler calls on messages
of topic `T` are exactly the deliveries of topic `T`, which are all the handler calls
there are when no other topic has a handler. -/
theorem RegisterHandler_dispatch_by_topic (c : ConsumerApp σ) (T : String)
    (h : IConsumerService σ) :
    (∀ (m : ConsumerMessage) (s : σ), m.Topic = T →
      (c.RegisterHandler T (some h)).consumeMessage m s =
        match h.HandleMessage m (c.consumerMsgHandler.fReceive m s) with
        | (none, s1) =>
          ([Effect.receive m, Effect.mark m "", Effect.handle m none], s1)
        | (some err, s1) =>
          ([Effect.receive m, Effect.mark m "", Effect.handle m (some err),
              Effect.handlerError err],
            c.consumerMsgHandler.fHandlerError err s1)) ∧
    (∀ (m : ConsumerMessage) (s : σ), m.Topic ≠ T →
      (c.RegisterHandler T (some h)).consumeMessage m s = c.consumeMessage m s) ∧
    (∀ (m : ConsumerMessage) (s : σ),
      (c.handler m.Topic = none ∨ c.handler m.Topic = some none) →
      c.consumeMessage m s =
        ([Effect.receive m, Effect.mark m ""], c.consumerMsgHandler.fReceive m s)) ∧
    (∀ (script : List Select) (s : σ),
      (handled ((c.RegisterHandler T (some h)).ConsumeClaim script s).trace).filter
          (fun m => decide (m.Topic = T)) =
        (delivered script).filter (fun m => decide (m.Topic = T))) ∧
    (∀ (script : List Select) (s : σ),
      (∀ t, t ≠ T → c.handler t = none ∨ c.handler t = some none) →
      handled ((c.RegisterHandler T (some h)).ConsumeClaim script s).trace =
        (delivered script).filter (fun m => decide (m.Topic = T))) := by
  have hdisp : ∀ m : ConsumerMessage, m.Topic = T →
      (c.RegisterHandler T (some h)).dispatches m = true := by
    intro m hm
    simp [ConsumerApp.dispatches, hm, RegisterHandler_handler_same]
  refine ⟨?_, ?_, ?_, ?_, ?_⟩
  · intro m s hm
    have hh : (c.RegisterHandler T (some h)).handler m.Topic = some (some h) := by
      rw [hm]; exact RegisterHandler_handler_same c T (some h)
    exact consumeMessage_registered _ h m s hh
  · intro m s hm
    exact RegisterHandler_consumeMessage_other c T (some h) m s hm
  · intro m s hh
    exact consumeMessage_unregistered c m s hh
  · intro script s
    rw [ConsumeClaim_handled, List.filter_filter]
    apply List.filter_congr
    intro m _
    by_cases hm : m.Topic = T
    · simp [hm, hdisp m hm]
    · simp [hm]
  · intro script s hother
    rw [ConsumeClaim_handled]
    apply List.filter_congr
    intro m _
    by_cases hm : m.Topic = T
    · simp [hm, hdisp m hm]
    · have h1 := RegisterHandler_handler_other c T m.Topic (some h) hm
      simp only [ConsumerApp.dispatches, h1, hm, decide_False]
      rcases hother m.Topic hm with h2 | h2 <;> rw [h2]

end ClaimProcessing

theorem ConsumeClaim_receive_mark_handle_order_witness :
    (ordersApp.ConsumeClaim [Select.message ordersMessage, Select.channelClosed] 0).trace =
        [Effect.receive ordersMessage, Effect.mark ordersMessage ""] ++
          Effect.handle ordersMessage none :: [Effect.logChannelClosed] ∧
      ∃ pre', [Effect.receive ordersMessage, Effect.mark ordersMessage ""] =
        pre' ++ [Effect.receive ordersMessage, Effect.mark ordersMessage ""] :=
  ⟨by decide,
    (ConsumeClaim_receive_mark_handle_order ordersApp
      [Select.message ordersMessage, Select.channelClosed] 0).2
      [Effect.receive ordersMessage, Effect.mark ordersMessage ""] [Effect.logChannelClosed]
      ordersMessage none (by decide)⟩

theorem ConsumeClaim_handler_error_to_hook_only_witness :
    (ordersApp.ConsumeClaim
        [Select.message badOrdersMessage, Select.message ordersMessage, Select.contextDone]
        0).trace =
        [Effect.receive badOrdersMessage, Effect.mark badOrdersMessage ""] ++
          Effect.handle badOrdersMessage (some (GoError.leaf "bad value")) ::
            [Effect.handlerError (GoError.leaf "bad value"), Effect.receive ordersMessage,
              Effect.mark ordersMessage "", Effect.handle ordersMessage none] ∧
      ∃ post',
        [Effect.handlerError (GoError.leaf "bad value"), Effect.receive ordersMessage,
            Effect.mark ordersMessage "", Effect.handle ordersMessage none] =
          Effect.handlerError (GoError.leaf "bad value") :: post' :=
  ⟨by decide,
    (ConsumeClaim_handler_error_to_hook_only ordersApp
      [Select.message badOrdersMessage, Select.message ordersMessage, Select.contextDone]
      0).2.1
      [Effect.receive badOrdersMessage, Effect.mark badOrdersMessage ""] _ badOrdersMessage
      (GoError.leaf "bad value") (by decide)⟩

theorem RegisterHandler_dispatch_by_topic_witness :
    ordersMessage.Topic = "orders" ∧
      (bareApp.RegisterHandler "orders" (some countingHandler)).consumeMessage ordersMessage 0 =
        ([Effect.receive ordersMessage, Effect.mark ordersMessage "",
            Effect.handle ordersMessage none], 1) ∧
      auditMessage.Topic ≠ "orders" ∧
      (bareApp.RegisterHandler "orders" (some countingHandler)).consumeMessage auditMessage 0 =
        bareApp.consumeMessage auditMessage 0 ∧
      handled ((bareApp.RegisterHandler "orders" (some countingHandler)).ConsumeClaim
          [Select.message auditMessage, Select.message ordersMessage] 0).trace =
        [ordersMessage] :=
  ⟨by decide,
    (RegisterHandler_dispatch_by_topic bareApp "orders" countingHandler).1 ordersMessage 0
      (by decide),
    by decide,
    (RegisterHandler_dispatch_by_topic bareApp "orders" countingHandler).2.1 auditMessage 0
      (by decide),
    (RegisterHandler_dispatch_by_topic bareApp "orders" countingHandler).2.2.2.2
      [Select.message auditMessage, Select.message ordersMessage] 0
      (fun _ _ => Or.inl rfl)⟩

/-! ## Properties of pause and resume -/

theorem toggleConsumptionFlow_isPaused (client : ConsumerGroup) (isPaused : Bool) :
    (toggleConsumptionFlow client isPaused).isPaused = !isPaused := by
  cases isPaused <;> rfl

theorem toggleConsumptionFlow_calls (client : ConsumerGroup) (isPaused : Bool) :
    (toggleConsumptionFlow client isPaused).client.calls =
      client.calls ++ [if isPaused then ClientCall.ResumeAll else ClientCall.PauseAll] := by
  cases isPaused <;> rfl

theorem toggleConsumptionFlow_paused (client : ConsumerGroup) (isPaused : Bool) :
    (toggleConsumptionFlow client isPaused).client.paused =
      (toggleConsumptionFlow client isPaused).isPaused := by
  cases isPaused <;>
    simp [toggleConsumptionFlow, ConsumerGroup.paused, pausedAfter, List.foldl_append]

theorem toggleTimes_isPaused (n : Nat) (client : ConsumerGroup) (isPaused : Bool) :
    (toggleTimes n client isPaused).2 = xor isPaused (decide (n % 2 = 1)) := by
  induction n generalizing client isPaused with
  | zero => simp [toggleTimes]
  | succ k ih =>
    simp only [toggleTimes, ih, toggleConsumptionFlow_isPaused]
    rcases Nat.mod_two_eq_zero_or_one k with h | h <;>
      cases isPaused <;> simp [Nat.succ_mod_two_eq_one_iff, h, Nat.add_mod]

theorem signalLoop_stopped (script : List Signal) (st : SignalState)
    (h : st.keepRunning = false) : signalLoop script st = st := by
  cases script with
  | nil => rfl
  | cons sig rest => simp [signalLoop, h]

theorem signalLoop_append (a b : List Signal) (st : SignalState) :
    signalLoop (a ++ b) st = signalLoop b (signalLoop a st) := by
  induction a generalizing st with
  | nil => rfl
  | cons sig rest ih =>
    by_cases hk : st.keepRunning = true
    · cases sig <;> (simp only [List.cons_append, signalLoop, hk, if_true]; exact ih _)
    · have hk2 : st.keepRunning = false := by simpa using hk
      rw [signalLoop_stopped _ st hk2, signalLoop_stopped _ st hk2, signalLoop_stopped _ st hk2]

theorem signalLoop_sigusr1 (n : Nat) (st : SignalState) (h : st.keepRunning = true) :
    (signalLoop (List.replicate n Signal.sigusr1) st).keepRunning = true ∧
    (signalLoop (List.replicate n Signal.sigusr1) st).consumptionIsPaused =
      (toggleTimes n st.client st.consumptionIsPaused).2 ∧
    (signalLoop (List.replicate n Signal.sigusr1) st).client =
      (toggleTimes n st.client st.consumptionIsPaused).1 := by
  induction n generalizing st with
  | zero => exact ⟨h, rfl, rfl⟩
  | succ k ih =>
    simp only [List.replicate_succ, signalLoop, h, if_true, toggleTimes]
    exact ih _ rfl

theorem signalLoop_head_terminates (rest : List Signal) (st : SignalState)
    (hr : rest.head? ≠ some Signal.sigusr1) :
    (signalLoop rest st).consumptionIsPaused = st.consumptionIsPaused := by
  by_cases hk : st.keepRunning = true
  · cases rest with
    | nil => rfl
    | cons sig tail =>
      cases sig with
      | ctxDone => simp only [signalLoop, hk, if_true]; rw [signalLoop_stopped _ _ rfl]
      | sigterm => simp only [signalLoop, hk, if_true]; rw [signalLoop_stopped _ _ rfl]
      | sigusr1 => exact absurd rfl hr
  · have hk2 : st.keepRunning = false := by simpa using hk
    rw [signalLoop_stopped _ st hk2]

/-- C5: from the unpaused state, `N` calls of `toggleConsumptionFlow` leave the flag
true exactly when `N mod 2 = 1`; and the signal loop of `Run`, which starts unpaused,
holds that flag after the `N` SIGUSR1 receives that come before the end of the script
or before its first terminating receive, still running when nothing terminated it. -/
theorem toggle_parity (N : Nat) :
    (∀ client : ConsumerGroup, (toggleTimes N client false).2 = decide (N % 2 = 1)) ∧
    (∀ {σ : Type} (c : ConsumerApp σ),
      (signalLoop (List.replicate N Signal.sigusr1) c.signalLoopStart).consumptionIsPaused =
          decide (N % 2 = 1) ∧
        (signalLoop (List.replicate N Signal.sigusr1) c.signalLoopStart).keepRunning = true) ∧
    (∀ {σ : Type} (c : ConsumerApp σ) (rest : List Signal),
      rest.head? ≠ some Signal.sigusr1 →
      (signalLoop (List.replicate N Signal.sigusr1 ++ rest) c.signalLoopStart).consumptionIsPaused
        = decide (N % 2 = 1)) := by
  have hpar : ∀ client : ConsumerGroup, (toggleTimes N client false).2 = decide (N % 2 = 1) := by
    intro client
    rw [toggleTimes_isPaused]
    simp
  refine ⟨hpar, ?_, ?_⟩
  · intro σ c
    obtain ⟨h1, h2, _⟩ := signalLoop_sigusr1 N c.signalLoopStart rfl
    exact ⟨h2.trans (hpar _), h1⟩
  · intro σ c rest hr
    obtain ⟨_, h2, _⟩ := signalLoop_sigusr1 N c.signalLoopStart rfl
    rw [signalLoop_append, signalLoop_head_terminates rest _ hr]
    exact h2.trans (hpar _)

theorem toggle_parity_witness :
    ([Signal.sigterm, Signal.sigusr1] : List Signal).head? ≠ some Signal.sigusr1 ∧
      (signalLoop (List.replicate 3 Signal.sigusr1 ++ [Signal.sigterm, Signal.sigusr1])
        bareApp.signalLoopStart).consumptionIsPaused = decide (3 % 2 = 1) :=
  ⟨by decide, (toggle_parity 3).2.2 bareApp [Signal.sigterm, Signal.sigusr1] (by decide)⟩

theorem toggleTimes_paused (n : Nat) (client : ConsumerGroup) (isPaused : Bool)
    (h : client.paused = isPaused) :
    (toggleTimes n client isPaused).1.paused = (toggleTimes n client isPaused).2 := by
  induction n generalizing client isPaused with
  | zero => exact h
  | succ k ih =>
    simp only [toggleTimes]
    exact ih _ _ (toggleConsumptionFlow_paused client isPaused)

theorem toggleTimes_closed (n : Nat) (client : ConsumerGroup) (isPaused : Bool) :
    (toggleTimes n client isPaused).1.closed = client.closed := by
  induction n generalizing client isPaused with
  | zero => rfl
  | succ k ih =>
    simp only [toggleTimes, ih]
    cases isPaused <;> simp [toggleConsumptionFlow, ConsumerGroup.closed]

/-- C6: a call of `toggleConsumptionFlow` makes exactly one call on the client,
`ResumeAll` when the flag was true and `PauseAll` when it was false, and flips the
flag; it adds no `Close`; after it the client is paused iff the flag is set; and over
any number of calls on a client that starts unpaused with the flag false, the client
is paused iff the flag is set, and is closed only if it was before. -/
theorem toggle_one_client_call (client : ConsumerGroup) (isPaused : Bool) :
    (toggleConsumptionFlow client isPaused).client.calls =
      client.calls ++ [if isPaused then ClientCall.ResumeAll else ClientCall.PauseAll] ∧
    (toggleConsumptionFlow client isPaused).isPaused = !isPaused ∧
    (toggleConsumptionFlow client isPaused).client.closed = client.closed ∧
    (toggleConsumptionFlow client isPaused).client.paused =
      (toggleConsumptionFlow client isPaused).isPaused ∧
    (∀ n : Nat, client.paused = false →
      (toggleTimes n client false).1.paused = (toggleTimes n client false).2 ∧
      (toggleTimes n client false).1.closed = client.closed) := by
  refine ⟨toggleConsumptionFlow_calls client isPaused,
    toggleConsumptionFlow_isPaused client isPaused, ?_,
    toggleConsumptionFlow_paused client isPaused, ?_⟩
  · cases isPaused <;> simp [toggleConsumptionFlow, ConsumerGroup.closed]
  · intro n h
    exact ⟨toggleTimes_paused n client false h, toggleTimes_closed n client false⟩

theorem toggle_one_client_call_witness :
    bareApp.consumerGroup.paused = false ∧
      (toggleTimes 3 bareApp.consumerGroup false).1.paused =
        (toggleTimes 3 bareApp.consumerGroup false).2 ∧
      (toggleTimes 3 bareApp.consumerGroup false).1.closed = bareApp.consumerGroup.closed :=
  ⟨by decide, (toggle_one_client_call bareApp.consumerGroup false).2.2.2.2 3 (by decide)⟩

/-! ## Properties of construction -/

theorem ToKafkaConsumerConfig_sticky (base : SaramaConfig) (c : ConsumerConfig)
    (h : c.Assignor = "sticky") :
    c.ToKafkaConsumerConfig base =
      .ok { GroupStrategies := [BalanceStrategy.Sticky], OffsetsInitial := c.OffsetInitial } := by
  simp [ConsumerConfig.ToKafkaConsumerConfig, StickyAssignor, h]

theorem ToKafkaConsumerConfig_roundrobin (base : SaramaConfig) (c : ConsumerConfig)
    (h : c.Assignor = "roundrobin") :
    c.ToKafkaConsumerConfig base =
      .ok { GroupStrategies := [BalanceStrategy.RoundRobin],
            OffsetsInitial := c.OffsetInitial } := by
  simp [ConsumerConfig.ToKafkaConsumerConfig, StickyAssignor, RoundRobinAssignor, h]

theorem ToKafkaConsumerConfig_range (base : SaramaConfig) (c : ConsumerConfig)
    (h : c.Assignor = "range") :
    c.ToKafkaConsumerConfig base =
      .ok { GroupStrategies := [BalanceStrategy.Range], OffsetsInitial := c.OffsetInitial } := by
  simp [ConsumerConfig.ToKafkaConsumerConfig, StickyAssignor, RoundRobinAssignor, RangeAssignor,
    h]

theorem ToKafkaConsumerConfig_unrecognized (base : SaramaConfig) (c : ConsumerConfig)
    (h1 : c.Assignor ≠ "roundrobin") (h2 : c.Assignor ≠ "sticky") (h3 : c.Assignor ≠ "range") :
    c.ToKafkaConsumerConfig base =
      .error (Panic.logPanicf
        ("Unrecognized consumer group partition assignor: " ++ c.Assignor)) := by
  simp [ConsumerConfig.ToKafkaConsumerConfig, StickyAssignor, RoundRobinAssignor, RangeAssignor,
    h1, h2, h3]

/-- C7: `ToKafkaConsumerConfig` panics if and only if `Assignor` is none of
`roundrobin`, `sticky`, `range`, the empty string included; for each of the three it
returns a configuration whose only group strategy is the matching one and whose
initial offset is `OffsetInitial`. -/
theorem ToKafkaConsumerConfig_panics_iff_unrecognized (base : SaramaConfig)
    (c : ConsumerConfig) :
    ((∃ p, c.ToKafkaConsumerConfig base = .error p) ↔
      (c.Assignor ≠ "roundrobin" ∧ c.Assignor ≠ "sticky" ∧ c.Assignor ≠ "range")) ∧
    (c.Assignor = "" → ∃ p, c.ToKafkaConsumerConfig base = .error p) ∧
    (c.Assignor = "roundrobin" →
      c.ToKafkaConsumerConfig base =
        .ok { GroupStrategies := [BalanceStrategy.RoundRobin],
              OffsetsInitial := c.OffsetInitial }) ∧
    (c.Assignor = "sticky" →
      c.ToKafkaConsumerConfig base =
        .ok { GroupStrategies := [BalanceStrategy.Sticky],
              OffsetsInitial := c.OffsetInitial }) ∧
    (c.Assignor = "range" →
      c.ToKafkaConsumerConfig base =
        .ok { GroupStrategies := [BalanceStrategy.Range],
              OffsetsInitial := c.OffsetInitial }) := by
  refine ⟨⟨?_, ?_⟩, ?_, ToKafkaConsumerConfig_roundrobin base c,
    ToKafkaConsumerConfig_sticky base c, ToKafkaConsumerConfig_range base c⟩
  · rintro ⟨p, hp⟩
    refine ⟨?_, ?_, ?_⟩ <;> intro h
    · rw [ToKafkaConsumerConfig_roundrobin base c h] at hp; cases hp
    · rw [ToKafkaConsumerConfig_sticky base c h] at hp; cases hp
    · rw [ToKafkaConsumerConfig_range base c h] at hp; cases hp
  · rintro ⟨h1, h2, h3⟩
    exact ⟨_, ToKafkaConsumerConfig_unrecognized base c h1 h2 h3⟩
  · intro h
    refine ⟨_, ToKafkaConsumerConfig_unrecognized base c ?_ ?_ ?_⟩ <;> rw [h] <;> decide

theorem ToKafkaConsumerConfig_panics_iff_unrecognized_witness :
    bareApp.Config.Assignor = "range" ∧
      bareApp.Config.ToKafkaConsumerConfig { GroupStrategies := [], OffsetsInitial := 0 } =
        .ok { GroupStrategies := [BalanceStrategy.Range], OffsetsInitial := -1 } ∧
      ({ bareApp.Config with Assignor := "" } : ConsumerConfig).Assignor = "" ∧
      ∃ p, ({ bareApp.Config with Assignor := "" } : ConsumerConfig).ToKafkaConsumerConfig
        { GroupStrategies := [], OffsetsInitial := 0 } = .error p :=
  ⟨by decide,
    (ToKafkaConsumerConfig_panics_iff_unrecognized { GroupStrategies := [], OffsetsInitial := 0 }
      bareApp.Config).2.2.2.2 (by decide),
    by decide,
    (ToKafkaConsumerConfig_panics_iff_unrecognized { GroupStrategies := [], OffsetsInitial := 0 }
      { bareApp.Config with Assignor := "" }).2.1 (by decide)⟩

/-- C8: for a configuration whose assignor is none of the three, `NewConsumerApp`
panics with the assignor message, has made no call of `sarama.NewConsumerGroup`, and
returns no application; for a recognised assignor it makes exactly one such call, with
the configured brokers and group. -/
theorem NewConsumerApp_unrecognized_no_client {σ : Type} (base : SaramaConfig)
    (newConsumerGroup : List String → String → SaramaConfig → Except GoError ConsumerGroup)
    (config : ConsumerConfig) :
    ((config.Assignor ≠ "roundrobin" ∧ config.Assignor ≠ "sticky" ∧ config.Assignor ≠ "range") →
      (NewConsumerApp (σ := σ) base newConsumerGroup config).newConsumerGroupCalls = [] ∧
      (∀ app, (NewConsumerApp (σ := σ) base newConsumerGroup config).result ≠ .ok app) ∧
      ∃ msg, (match (NewConsumerApp (σ := σ) base newConsumerGroup config).result with
        | .error p => p = Panic.logPanicf msg
        | .ok _ => False)) ∧
    ((config.Assignor = "roundrobin" ∨ config.Assignor = "sticky" ∨ config.Assignor = "range") →
      ∃ k, config.ToKafkaConsumerConfig base = .ok k ∧
        (NewConsumerApp (σ := σ) base newConsumerGroup config).newConsumerGroupCalls =
          [(config.Brokers, config.GroupID, k)]) := by
  constructor
  · rintro ⟨h1, h2, h3⟩
    have hp := ToKafkaConsumerConfig_unrecognized base config h1 h2 h3
    have hr : NewConsumerApp (σ := σ) base newConsumerGroup config =
        ⟨[], .error (Panic.logPanicf
          ("Unrecognized consumer group partition assignor: " ++ config.Assignor))⟩ := by
      simp only [NewConsumerApp, hp]
    rw [hr]
    refine ⟨rfl, ?_, _, rfl⟩
    intro app h
    cases h
  · intro h
    have hk : ∃ k, config.ToKafkaConsumerConfig base = .ok k := by
      rcases h with h | h | h
      · exact ⟨_, ToKafkaConsumerConfig_roundrobin base config h⟩
      · exact ⟨_, ToKafkaConsumerConfig_sticky base config h⟩
      · exact ⟨_, ToKafkaConsumerConfig_range base config h⟩
    obtain ⟨k, hk⟩ := hk
    refine ⟨k, hk, ?_⟩
    simp only [NewConsumerApp, hk]
    cases newConsumerGroup config.Brokers config.GroupID k <;> rfl

theorem NewConsumerApp_unrecognized_no_client_witness :
    (("" : String) ≠ "roundrobin" ∧ ("" : String) ≠ "sticky" ∧ ("" : String) ≠ "range") ∧
      (NewConsumerApp (σ := Nat) { GroupStrategies := [], OffsetsInitial := 0 }
        (fun _ _ _ => .ok { calls := [] })
        { bareApp.Config with Assignor := "" }).newConsumerGroupCalls = [] :=
  ⟨by decide,
    ((NewConsumerApp_unrecognized_no_client (σ := Nat) { GroupStrategies := [], OffsetsInitial := 0 }
      (fun _ _ _ => .ok { calls := [] })
      { bareApp.Config with Assignor := "" }).1 (by decide)).1⟩

/-! ## Properties of the consumption loop -/

theorem setupCalls_events (n : Nat) (st : Chans) :
    ∀ e ∈ (setupCalls n st).1, ∃ ch, e = LoopEvent.setup ch := by
  induction n generalizing st with
  | zero => intro e he; cases he
  | succ k ih =>
    intro e he
    unfold setupCalls at he
    cases hs : Setup st with
    | error p =>
      rw [hs] at he
      simp only [List.mem_singleton] at he
      exact ⟨_, he⟩
    | ok st1 =>
      rw [hs] at he
      simp only [List.mem_cons] at he
      rcases he with he | he
      · exact ⟨_, he⟩
      · exact ih st1 e he

theorem consumeCalls_setups (t : List LoopEvent) (h : ∀ e ∈ t, ∃ ch, e = LoopEvent.setup ch) :
    consumeCalls t = [] := by
  induction t with
  | nil => rfl
  | cons e rest ih =>
    obtain ⟨ch, rfl⟩ := h e (List.mem_cons_self _ _)
    simpa [consumeCalls] using ih (fun x hx => h x (List.mem_cons_of_mem _ hx))

theorem consumeReturns_setups (t : List LoopEvent)
    (h : ∀ e ∈ t, ∃ ch, e = LoopEvent.setup ch) : consumeReturns t = [] := by
  induction t with
  | nil => rfl
  | cons e rest ih =>
    obtain ⟨ch, rfl⟩ := h e (List.mem_cons_self _ _)
    simpa [consumeReturns] using ih (fun x hx => h x (List.mem_cons_of_mem _ hx))

theorem sequential_setups (b : Bool) (t l : List LoopEvent)
    (h : ∀ e ∈ t, ∃ ch, e = LoopEvent.setup ch) : sequential b (t ++ l) = sequential b l := by
  induction t with
  | nil => rfl
  | cons e rest ih =>
    obtain ⟨ch, rfl⟩ := h e (List.mem_cons_self _ _)
    simpa [sequential] using ih (fun x hx => h x (List.mem_cons_of_mem _ hx))

theorem consumeCalls_append (a b : List LoopEvent) :
    consumeCalls (a ++ b) = consumeCalls a ++ consumeCalls b := by
  simp [consumeCalls, List.filterMap_append]

theorem consumeReturns_append (a b : List LoopEvent) :
    consumeReturns (a ++ b) = consumeReturns a ++ consumeReturns b := by
  simp [consumeReturns, List.filterMap_append]

theorem consumeCalls_cons (e : LoopEvent) (l : List LoopEvent) :
    consumeCalls (e :: l) = consumeCalls [e] ++ consumeCalls l :=
  consumeCalls_append [e] l

theorem consumeReturns_cons (e : LoopEvent) (l : List LoopEvent) :
    consumeReturns (e :: l) = consumeReturns [e] ++ consumeReturns l :=
  consumeReturns_append [e] l

/-- The `Consume` calls of the loop never overlap, whatever the environment does. -/
theorem consumptionLoop_sequential (topics : List String) (script : List ConsumeOutcome)
    (st : Chans) : sequential false (consumptionLoop topics script st).trace = true := by
  induction script generalizing st with
  | nil => rfl
  | cons o rest ih =>
    have hev := setupCalls_events o.setups st
    cases hs : setupCalls o.setups st with
    | mk t r =>
      rw [hs] at hev
      cases r with
      | error p =>
        simp only [consumptionLoop, hs, sequential, Bool.not_false, Bool.true_and]
        simpa using sequential_setups true t [] hev
      | ok st1 =>
        cases he : o.err with
        | some err =>
          by_cases hc : errorsIs err ErrClosedConsumerGroup = true <;>
            simp only [consumptionLoop, hs, he, hc, if_true, if_false, sequential,
              Bool.not_false, Bool.true_and, List.cons_append, Bool.false_eq_true] <;>
            rw [sequential_setups true t _ hev] <;> rfl
        | none =>
          by_cases hc : o.ctxCancelled = true
          · simp only [consumptionLoop, hs, he, hc, if_true, sequential, Bool.not_false,
              Bool.true_and, List.cons_append]
            rw [sequential_setups true t _ hev]
            rfl
          · simp only [consumptionLoop, hs, he, hc, if_false, sequential, Bool.not_false,
              Bool.true_and, List.cons_append, Bool.false_eq_true, List.append_assoc]
            rw [sequential_setups true t _ hev]
            simpa [sequential] using ih _

theorem setupCalls_fresh (n : Nat) (st : Chans) (hf : st.Fresh) (hn : n ≤ 1) :
    ∃ t st1, setupCalls n st = (t, .ok st1) ∧ st1.nextChan = st.nextChan ∧
      ∀ x ∈ st1.closedChans, x < st1.nextChan := by
  obtain ⟨h1, h2, h3⟩ := hf
  match n, hn with
  | 0, _ => exact ⟨[], st, rfl, rfl, h3⟩
  | 1, _ =>
    refine ⟨[LoopEvent.setup st.ready], { st with closedChans := st.ready :: st.closedChans },
      ?_, rfl, ?_⟩
    · simp [setupCalls, Setup, h1]
    · intro x hx
      simp only [List.mem_cons] at hx
      rcases hx with hx | hx
      · rw [hx]; exact h2
      · exact h3 x hx

theorem consumptionLoop_rebalance (topics : List String) (o : ConsumeOutcome)
    (rest : List ConsumeOutcome) (st st1 : Chans) (t : List LoopEvent)
    (hs : setupCalls o.setups st = (t, .ok st1)) (he : o.err = none)
    (hc : o.ctxCancelled = false) :
    consumptionLoop topics (o :: rest) st =
      { consumptionLoop topics rest
          { st1 with ready := st1.nextChan, nextChan := st1.nextChan + 1 } with
        trace := LoopEvent.consumeCall topics :: t ++
          [LoopEvent.consumeReturn none, LoopEvent.makeReady st1.nextChan] ++
          (consumptionLoop topics rest
            { st1 with ready := st1.nextChan, nextChan := st1.nextChan + 1 }).trace } := by
  simp [consumptionLoop, hs, he, hc]

theorem consumptionLoop_rebalances (topics : List String) (script : List ConsumeOutcome)
    (st : Chans) (hf : st.Fresh) (hr : ∀ o ∈ script, o.IsRebalance) :
    (consumptionLoop topics script st).exit = none ∧
    consumeCalls (consumptionLoop topics script st).trace =
      List.replicate (script.length + 1) topics ∧
    consumeReturns (consumptionLoop topics script st).trace =
      List.replicate script.length none := by
  induction script generalizing st with
  | nil => exact ⟨rfl, rfl, rfl⟩
  | cons o rest ih =>
    obtain ⟨hn, he, hc⟩ := hr o (List.mem_cons_self _ _)
    obtain ⟨t, st1, hs, hnext, hcl⟩ := setupCalls_fresh o.setups st hf hn
    have hev := setupCalls_events o.setups st
    rw [hs] at hev
    have hf2 : Chans.Fresh { st1 with ready := st1.nextChan, nextChan := st1.nextChan + 1 } := by
      refine ⟨?_, Nat.lt_succ_self _, fun x hx => Nat.lt_succ_of_lt (hcl x hx)⟩
      intro hmem
      exact absurd (hcl _ hmem) (Nat.lt_irrefl _)
    obtain ⟨ih1, ih2, ih3⟩ := ih _ hf2 (fun x hx => hr x (List.mem_cons_of_mem _ hx))
    rw [consumptionLoop_rebalance topics o rest st st1 t hs he hc]
    refine ⟨ih1, ?_, ?_⟩
    · simp only [List.cons_append, List.append_assoc, List.nil_append]
      rw [consumeCalls_cons, consumeCalls_append, consumeCalls_setups t hev,
        consumeCalls_cons (LoopEvent.consumeReturn none),
        consumeCalls_cons (LoopEvent.makeReady _), ih2]
      simp [consumeCalls, List.replicate_succ]
    · simp only [List.cons_append, List.append_assoc, List.nil_append]
      rw [consumeReturns_cons, consumeReturns_append, consumeReturns_setups t hev,
        consumeReturns_cons (LoopEvent.consumeReturn none),
        consumeReturns_cons (LoopEvent.makeReady _), ih3]
      simp [consumeReturns, List.replicate_succ]

theorem chans_fresh {σ : Type} (c : ConsumerApp σ) : c.chans.Fresh :=
  ⟨by simp [ConsumerApp.chans], Nat.lt_succ_self _, by simp [ConsumerApp.chans]⟩

/-- C9: when every `Consume` call of a script ends in a rebalance (it returns nil with
the context live), the loop of `Run` has not exited, has issued one `Consume` call per
rebalance plus the one now in flight, each for the configured topics, and each earlier
call has returned; the calls of the loop never overlap, whatever the script; and from
any state of the channels, one rebalance makes the loop go on with the rest of the
script after issuing, for a script that ends there, exactly one new `Consume` call for
the same topics behind the return. -/
theorem consumptionLoop_rebalance_one_new_session {σ : Type} (c : ConsumerApp σ) :
    (∀ script : List ConsumeOutcome, (∀ o ∈ script, o.IsRebalance) →
      (c.consumptionLoop script).exit = none ∧
      consumeCalls (c.consumptionLoop script).trace =
        List.replicate (script.length + 1) c.Config.Topics ∧
      consumeReturns (c.consumptionLoop script).trace = List.replicate script.length none) ∧
    (∀ script : List ConsumeOutcome, sequential false (c.consumptionLoop script).trace = true) ∧
    (∀ (o : ConsumeOutcome) (rest : List ConsumeOutcome) (st st1 : Chans) (t : List LoopEvent),
      setupCalls o.setups st = (t, .ok st1) → o.err = none → o.ctxCancelled = false →
      (consumptionLoop c.Config.Topics (o :: rest) st).exit =
        (consumptionLoop c.Config.Topics rest
          { st1 with ready := st1.nextChan, nextChan := st1.nextChan + 1 }).exit ∧
      (consumptionLoop c.Config.Topics (o :: rest) st).trace =
        LoopEvent.consumeCall c.Config.Topics :: t ++
          [LoopEvent.consumeReturn none, LoopEvent.makeReady st1.nextChan] ++
          (consumptionLoop c.Config.Topics rest
            { st1 with ready := st1.nextChan, nextChan := st1.nextChan + 1 }).trace ∧
      (consumptionLoop c.Config.Topics [o] st).exit = none ∧
      (consumptionLoop c.Config.Topics [o] st).trace =
        LoopEvent.consumeCall c.Config.Topics :: t ++
          [LoopEvent.consumeReturn none, LoopEvent.makeReady st1.nextChan,
            LoopEvent.consumeCall c.Config.Topics]) := by
  refine ⟨?_, ?_, ?_⟩
  · intro script hr
    exact consumptionLoop_rebalances c.Config.Topics script c.chans (chans_fresh c) hr
  · intro script
    exact consumptionLoop_sequential c.Config.Topics script c.chans
  · intro o rest st st1 t hs he hc
    rw [consumptionLoop_rebalance c.Config.Topics o rest st st1 t hs he hc,
      consumptionLoop_rebalance c.Config.Topics o [] st st1 t hs he hc]
    exact ⟨rfl, rfl, rfl, by simp [consumptionLoop]⟩

theorem consumptionLoop_rebalance_one_new_session_witness :
    (∀ o ∈ [rebalanceOutcome, rebalanceOutcome], o.IsRebalance) ∧
      (bareApp.consumptionLoop [rebalanceOutcome, rebalanceOutcome]).exit = none ∧
      consumeCalls (bareApp.consumptionLoop [rebalanceOutcome, rebalanceOutcome]).trace =
        [["orders", "audit"], ["orders", "audit"], ["orders", "audit"]] ∧
      consumeReturns (bareApp.consumptionLoop [rebalanceOutcome, rebalanceOutcome]).trace =
        [none, none] :=
  ⟨by simp [ConsumeOutcome.IsRebalance, rebalanceOutcome],
    (consumptionLoop_rebalance_one_new_session bareApp).1 [rebalanceOutcome, rebalanceOutcome]
      (by simp [ConsumeOutcome.IsRebalance, rebalanceOutcome])⟩

/-- C10, as stated, fails on a run that `Run` can make: the first session is set up,
which lets `Run` past `<-c.ready`, and ends in a rebalance; `Run` leaves its signal
loop on SIGTERM and cancels the context; the `Consume` call then in flight returns
`context.Canceled`, an error other than `ErrClosedConsumerGroup`, and the loop panics
although the context is cancelled. -/
theorem consumptionLoop_cancelled_error_panics :
    cancelledInFlight.loop = [rebalanceOutcome, cancelledWithError] ∧
      cancelledWithError.ctxCancelled = true ∧
      bareApp.leavesSignalLoop { GroupStrategies := [], OffsetsInitial := 0 }
        cancelledInFlight ∧
      RunEvent.cancel ∈
        (bareApp.Run { GroupStrategies := [], OffsetsInitial := 0 } cancelledInFlight).trace ∧
      consumeReturns (bareApp.consumptionLoop [rebalanceOutcome, cancelledWithError]).trace =
        [none, some (GoError.leaf "context canceled")] ∧
      (bareApp.consumptionLoop [rebalanceOutcome, cancelledWithError]).exit =
        some (LoopExit.panicked (Panic.logPanicf "Error from consumer: context canceled")) ∧
      (bareApp.consumptionLoop [rebalanceOutcome, cancelledWithError]).exit ≠
        some LoopExit.returned :=
  ⟨rfl, rfl, ⟨⟨_, rfl⟩, by decide, by decide⟩, by decide, by decide, by decide, by decide⟩

/-- C10, amended: when a `Consume` call returns with the context cancelled, the loop
issues no further `Consume` call; it exits normally when the call returned nil or an
error that is `ErrClosedConsumerGroup`, and it panics when the call returned any other
error. -/
theorem consumptionLoop_cancelled_exit (topics : List String) (o : ConsumeOutcome)
    (rest : List ConsumeOutcome) (st st1 : Chans) (t : List LoopEvent)
    (hs : setupCalls o.setups st = (t, .ok st1)) (hc : o.ctxCancelled = true) :
    ((o.err = none ∨ ∃ e, o.err = some e ∧ errorsIs e ErrClosedConsumerGroup = true) →
      consumptionLoop topics (o :: rest) st =
        ⟨LoopEvent.consumeCall topics :: t ++ [LoopEvent.consumeReturn o.err], st1,
          some LoopExit.returned⟩) ∧
    (∀ e, o.err = some e → errorsIs e ErrClosedConsumerGroup = false →
      consumptionLoop topics (o :: rest) st =
        ⟨LoopEvent.consumeCall topics :: t ++ [LoopEvent.consumeReturn o.err], st1,
          some (LoopExit.panicked (Panic.logPanicf ("Error from consumer: " ++ e.text)))⟩) ∧
    consumeCalls (consumptionLoop topics (o :: rest) st).trace = [topics] := by
  have hev := setupCalls_events o.setups st
  rw [hs] at hev
  have hcalls : consumeCalls
      (LoopEvent.consumeCall topics :: t ++ [LoopEvent.consumeReturn o.err]) = [topics] := by
    simp only [List.cons_append]
    rw [consumeCalls_cons, consumeCalls_append, consumeCalls_setups t hev]
    rfl
  refine ⟨?_, ?_, ?_⟩
  · rintro (he | ⟨e, he, hclosed⟩)
    · simp [consumptionLoop, hs, he, hc]
    · simp [consumptionLoop, hs, he, hclosed]
  · intro e he hclosed
    simp [consumptionLoop, hs, he, hclosed]
  · cases he : o.err with
    | none =>
      rw [he] at hcalls
      simpa [consumptionLoop, hs, he, hc] using hcalls
    | some e =>
      rw [he] at hcalls
      by_cases hclosed : errorsIs e ErrClosedConsumerGroup = true
      · simpa [consumptionLoop, hs, he, hclosed] using hcalls
      · simpa [consumptionLoop, hs, he, hclosed] using hcalls

theorem consumptionLoop_cancelled_exit_witness :
    setupCalls cancelledOutcome.setups bareApp.chans =
        ([LoopEvent.setup 0], .ok { ready := 0, nextChan := 1, closedChans := [0] }) ∧
      cancelledOutcome.ctxCancelled = true ∧
      consumptionLoop ["orders"] [cancelledOutcome, rebalanceOutcome] bareApp.chans =
        ⟨LoopEvent.consumeCall ["orders"] :: [LoopEvent.setup 0] ++
            [LoopEvent.consumeReturn cancelledOutcome.err],
          { ready := 0, nextChan := 1, closedChans := [0] }, some LoopExit.returned⟩ :=
  ⟨rfl, rfl,
    (consumptionLoop_cancelled_exit ["orders"] cancelledOutcome [rebalanceOutcome] bareApp.chans
      { ready := 0, nextChan := 1, closedChans := [0] } [LoopEvent.setup 0] rfl rfl).1
      (Or.inl rfl)⟩

/-! ## Properties of the readiness gate -/

theorem setupCloses_append (a b : List LoopEvent) :
    setupCloses (a ++ b) = setupCloses a ++ setupCloses b := by
  simp [setupCloses, List.filterMap_append]

theorem setupCalls_one (st : Chans) (h : st.ready ∉ st.closedChans) :
    setupCalls 1 st =
      ([LoopEvent.setup st.ready], .ok { st with closedChans := st.ready :: st.closedChans }) := by
  simp [setupCalls, Setup, h]

/-- A run of sessions from channels in which `c.ready` is the newest channel and is
open: the `i`-th `Setup` closes the `i`-th channel counted from `c.ready`, and the loop
ends up holding a channel that no `Setup` has closed. -/
theorem consumptionLoop_sessions (topics : List String) (script : List ConsumeOutcome)
    (st : Chans) (hnext : st.nextChan = st.ready + 1) (hold : ∀ x ∈ st.closedChans, x < st.ready)
    (hs : ∀ o ∈ script, o.IsSession) :
    setupCloses (consumptionLoop topics script st).trace =
        (List.range script.length).map (fun i => st.ready + i) ∧
    (consumptionLoop topics script st).chans.ready = st.ready + script.length ∧
    (∀ x ∈ (consumptionLoop topics script st).chans.closedChans,
      x < st.ready + script.length) ∧
    (consumptionLoop topics script st).exit = none := by
  induction script generalizing st with
  | nil =>
    refine ⟨rfl, rfl, ?_, rfl⟩
    simpa [consumptionLoop] using hold
  | cons o rest ih =>
    obtain ⟨hn, he, hc⟩ := hs o (List.mem_cons_self _ _)
    have hopen : st.ready ∉ st.closedChans := fun hmem => absurd (hold _ hmem) (Nat.lt_irrefl _)
    have hsetup := setupCalls_one st hopen
    rw [← hn] at hsetup
    have hrest := ih
      { ready := st.nextChan, nextChan := st.nextChan + 1,
        closedChans := st.ready :: st.closedChans }
      rfl
      (by
        intro x hx
        simp only [List.mem_cons] at hx
        rcases hx with hx | hx
        · rw [hx, hnext]; exact Nat.lt_succ_self _
        · rw [hnext]; exact Nat.lt_succ_of_lt (hold x hx))
      (fun x hx => hs x (List.mem_cons_of_mem _ hx))
    obtain ⟨h1, h2, h3, h4⟩ := hrest
    rw [consumptionLoop_rebalance topics o rest st _ _ hsetup he hc]
    simp only [hnext] at h1 h2 h3 h4 ⊢
    refine ⟨?_, ?_, ?_, h4⟩
    · simp only [List.cons_append, List.append_assoc, List.nil_append, List.length_cons]
      rw [show ∀ l : List LoopEvent, LoopEvent.consumeCall topics :: LoopEvent.setup st.ready ::
          LoopEvent.consumeReturn none :: LoopEvent.makeReady (st.ready + 1) :: l =
          [LoopEvent.consumeCall topics, LoopEvent.setup st.ready, LoopEvent.consumeReturn none,
            LoopEvent.makeReady (st.ready + 1)] ++ l from fun _ => rfl,
        setupCloses_append, h1, List.range_succ_eq_map, List.map_cons, List.map_map]
      simp [setupCloses, Function.comp_def, Nat.add_assoc, Nat.add_comm 1]
    · rw [h2, List.length_cons]; omega
    · intro x hx
      have := h3 x hx
      rw [List.length_cons]; omega

/-- C11, as stated, fails: after one rebalance `Ready()` is no longer the channel the
first `Setup` closed but a new, open one, and a second session closes a second
channel. -/
theorem ready_replaced_by_open_gate :
    bareApp.Ready = 0 ∧
      (bareApp.consumptionLoop [rebalanceOutcome]).chans.closedChans = [0] ∧
      (bareApp.afterLoop [rebalanceOutcome]).Ready = 1 ∧
      (bareApp.afterLoop [rebalanceOutcome]).Ready ∉
        (bareApp.consumptionLoop [rebalanceOutcome]).chans.closedChans ∧
      setupCloses (bareApp.consumptionLoop [rebalanceOutcome, rebalanceOutcome]).trace =
        [0, 1] := by
  decide

/-- C11, amended: over a run of sessions that each end in a rebalance, the first
`Setup` closes the channel made at construction, every `Setup` closes a channel of its
own (no channel is closed twice), and after every rebalance `Ready()` is a newly made
channel that no `Setup` has closed yet. -/
theorem ready_gate_renewed_per_session {σ : Type} (c : ConsumerApp σ)
    (script : List ConsumeOutcome) (hs : ∀ o ∈ script, o.IsSession) :
    setupCloses (c.consumptionLoop script).trace =
        (List.range script.length).map (fun i => c.Ready + i) ∧
    (setupCloses (c.consumptionLoop script).trace).Nodup ∧
    (c.afterLoop script).Ready = c.Ready + script.length ∧
    (c.afterLoop script).Ready ∉ (c.consumptionLoop script).chans.closedChans := by
  obtain ⟨h1, h2, h3, _⟩ := consumptionLoop_sessions c.Config.Topics script c.chans rfl
    (by simp [ConsumerApp.chans]) hs
  refine ⟨h1, ?_, h2, ?_⟩
  · have h1' : setupCloses (c.consumptionLoop script).trace =
        (List.range script.length).map (fun i => c.Ready + i) := h1
    rw [h1']
    exact List.Nodup.map (fun a b hab => Nat.add_left_cancel hab) (List.nodup_range _)
  · intro hmem
    have hlt := h3 _ hmem
    have heq : (c.afterLoop script).Ready = c.chans.ready + script.length := h2
    rw [heq] at hlt
    exact absurd hlt (Nat.lt_irrefl _)

theorem ready_gate_renewed_per_session_witness :
    (∀ o ∈ [rebalanceOutcome, rebalanceOutcome], o.IsSession) ∧
      setupCloses (bareApp.consumptionLoop [rebalanceOutcome, rebalanceOutcome]).trace =
        (List.range 2).map (fun i => bareApp.Ready + i) ∧
      (bareApp.afterLoop [rebalanceOutcome, rebalanceOutcome]).Ready = bareApp.Ready + 2 :=
  ⟨by simp [ConsumeOutcome.IsSession, rebalanceOutcome],
    (ready_gate_renewed_per_session bareApp [rebalanceOutcome, rebalanceOutcome]
      (by simp [ConsumeOutcome.IsSession, rebalanceOutcome])).1,
    (ready_gate_renewed_per_session bareApp [rebalanceOutcome, rebalanceOutcome]
      (by simp [ConsumeOutcome.IsSession, rebalanceOutcome])).2.2.1⟩

/-! ## Return of claim processing -/

theorem delivered_messages_append (pre : List ConsumerMessage) (rest : List Select)
    (h : ∀ m, rest.head? ≠ some (Select.message m)) :
    delivered (pre.map Select.message ++ rest) = pre := by
  induction pre with
  | nil =>
    cases rest with
    | nil => rfl
    | cons o tail =>
      cases o with
      | message m => exact absurd rfl (h m)
      | channelClosed => rfl
      | contextDone => rfl
  | cons m tl ih => simp [delivered, ih]

theorem ConsumeClaim_cons_message {σ : Type} (c : ConsumerApp σ) (m : ConsumerMessage)
    (rest : List Select) (s : σ) :
    c.ConsumeClaim (Select.message m :: rest) s =
      { trace := (c.consumeMessage m s).1 ++ (c.ConsumeClaim rest (c.consumeMessage m s).2).trace
        state := (c.ConsumeClaim rest (c.consumeMessage m s).2).state
        result := (c.ConsumeClaim rest (c.consumeMessage m s).2).result } :=
  rfl

theorem ConsumeClaim_messages_then {σ : Type} (c : ConsumerApp σ) (pre : List ConsumerMessage)
    (term : Select) (rest : List Select) (s : σ) (h : ∀ m, term ≠ Select.message m) :
    c.ConsumeClaim (pre.map Select.message ++ term :: rest) s =
        c.ConsumeClaim (pre.map Select.message ++ [term]) s ∧
    (c.ConsumeClaim (pre.map Select.message ++ term :: rest) s).result = some none := by
  induction pre generalizing s with
  | nil =>
    cases term with
    | message m => exact absurd rfl (h m)
    | channelClosed => exact ⟨rfl, rfl⟩
    | contextDone => exact ⟨rfl, rfl⟩
  | cons m tl ih =>
    obtain ⟨h1, h2⟩ := ih (c.consumeMessage m s).2
    rw [List.map_cons, List.cons_append, List.cons_append, ConsumeClaim_cons_message,
      ConsumeClaim_cons_message, h1]
    exact ⟨rfl, by rw [← h1]; exact h2⟩

theorem ConsumeClaim_messages_only {σ : Type} (c : ConsumerApp σ) (pre : List ConsumerMessage)
    (s : σ) : (c.ConsumeClaim (pre.map Select.message) s).result = none := by
  induction pre generalizing s with
  | nil => rfl
  | cons m tl ih => exact ih _

/-- C20: `ConsumeClaim` returns nil at the first `select` that finds the session
context done or the message channel closed; what it has done by then is to process
the messages received before, and whatever the script holds behind that point plays
no part; and as long as every `select` delivers a message it has not returned and has
processed every one of them. -/
theorem ConsumeClaim_returns_on_done_or_closed {σ : Type} (c : ConsumerApp σ)
    (pre : List ConsumerMessage) (rest : List Select) (s : σ) :
    ((c.ConsumeClaim (pre.map Select.message ++ Select.contextDone :: rest) s).result =
        some none ∧
      c.ConsumeClaim (pre.map Select.message ++ Select.contextDone :: rest) s =
        c.ConsumeClaim (pre.map Select.message ++ [Select.contextDone]) s ∧
      received (c.ConsumeClaim (pre.map Select.message ++ Select.contextDone :: rest) s).trace
        = pre) ∧
    ((c.ConsumeClaim (pre.map Select.message ++ Select.channelClosed :: rest) s).result =
        some none ∧
      c.ConsumeClaim (pre.map Select.message ++ Select.channelClosed :: rest) s =
        c.ConsumeClaim (pre.map Select.message ++ [Select.channelClosed]) s ∧
      received
          (c.ConsumeClaim (pre.map Select.message ++ Select.channelClosed :: rest) s).trace
        = pre) ∧
    ((c.ConsumeClaim (pre.map Select.message) s).result = none ∧
      received (c.ConsumeClaim (pre.map Select.message) s).trace = pre) := by
  have hd := ConsumeClaim_messages_then c pre Select.contextDone rest s
    (by intro m hm; cases hm)
  have hc := ConsumeClaim_messages_then c pre Select.channelClosed rest s
    (by intro m hm; cases hm)
  refine ⟨⟨hd.2, hd.1, ?_⟩, ⟨hc.2, hc.1, ?_⟩, ConsumeClaim_messages_only c pre s, ?_⟩
  · rw [ConsumeClaim_received]
    exact delivered_messages_append pre _ (by intro m hm; cases hm)
  · rw [ConsumeClaim_received]
    exact delivered_messages_append pre _ (by intro m hm; cases hm)
  · rw [ConsumeClaim_received]
    simpa using delivered_messages_append pre [] (by intro m hm; cases hm)

/-! ## Properties of the end of Run -/

theorem shutdownSteps_append (a b : List RunEvent) :
    shutdownSteps (a ++ b) = shutdownSteps a ++ shutdownSteps b := by
  simp [shutdownSteps]

theorem shutdownSteps_logs (l : List String) : shutdownSteps (l.map RunEvent.log) = [] := by
  induction l with
  | nil => rfl
  | cons a tl ih =>
    simp only [shutdownSteps, List.map_cons] at ih ⊢
    rw [List.filter_cons]
    simp only [RunEvent.isShutdownStep]
    exact ih

theorem shutdownSteps_runShutdown (client : ConsumerGroup) (loopExit : Option LoopExit)
    (closeErr : Option GoError) :
    shutdownSteps (runShutdown client loopExit closeErr).trace =
      (runShutdown client loopExit closeErr).trace := by
  cases loopExit with
  | none => rfl
  | some e =>
    cases e with
    | panicked p => rfl
    | returned => cases closeErr <;> rfl

theorem runShutdown_trace (client : ConsumerGroup) (loopExit : Option LoopExit)
    (closeErr : Option GoError) :
    (loopExit = some LoopExit.returned ∧
      (runShutdown client loopExit closeErr).trace =
        [RunEvent.cancel, RunEvent.waitDone, RunEvent.close closeErr]) ∨
    (loopExit ≠ some LoopExit.returned ∧
      (runShutdown client loopExit closeErr).trace = [RunEvent.cancel]) := by
  cases loopExit with
  | none => exact Or.inr ⟨(fun h => by cases h), rfl⟩
  | some e =>
    cases e with
    | panicked p => exact Or.inr ⟨(fun h => by cases h), rfl⟩
    | returned => cases closeErr <;> exact Or.inl ⟨rfl, rfl⟩

/-- When `Run` leaves its signal loop, what follows is `runShutdown` on the client as
the signal loop left it. -/
theorem Run_of_leavesSignalLoop {σ : Type} (base : SaramaConfig) (c : ConsumerApp σ)
    (env : RunEnv) (h : c.leavesSignalLoop base env) :
    c.Run base env =
      { runShutdown (signalLoop env.signals c.signalLoopStart).client
          (c.consumptionLoop env.loop).exit env.closeErr with
        trace :=
          [RunEvent.startLoop, RunEvent.ready c.ready,
            RunEvent.log "Sarama consumer up and running!..."] ++
          (signalLoop env.signals c.signalLoopStart).logged.map RunEvent.log ++
          (runShutdown (signalLoop env.signals c.signalLoopStart).client
            (c.consumptionLoop env.loop).exit env.closeErr).trace } := by
  obtain ⟨⟨k, hk⟩, hready, hkeep⟩ := h
  simp [ConsumerApp.Run, hk, hready, hkeep]

/-- Unless `Run` leaves its signal loop, it does none of the three final steps. -/
theorem Run_steps_of_not_leaves {σ : Type} (base : SaramaConfig) (c : ConsumerApp σ)
    (env : RunEnv) (h : ¬ c.leavesSignalLoop base env) :
    shutdownSteps (c.Run base env).trace = [] ∧
    ∀ err, (c.Run base env).outcome ≠ RunOutcome.returned err := by
  unfold ConsumerApp.Run
  cases hk : c.Config.ToKafkaConsumerConfig base with
  | error p => exact ⟨rfl, by intro err he; cases he⟩
  | ok k =>
    by_cases hready : c.ready ∈ (c.consumptionLoop env.loop).chans.closedChans
    · by_cases hkeep : (signalLoop env.signals c.signalLoopStart).keepRunning = true
      · simp only [hready, hkeep, if_true]
        have hpre : shutdownSteps
            ([RunEvent.startLoop, RunEvent.ready c.ready,
              RunEvent.log "Sarama consumer up and running!..."] ++
              (signalLoop env.signals c.signalLoopStart).logged.map RunEvent.log) = [] := by
          rw [shutdownSteps_append, shutdownSteps_logs]; rfl
        cases hexit : (c.consumptionLoop env.loop).exit with
        | none => exact ⟨hpre, by intro err he; cases he⟩
        | some e =>
          cases e with
          | panicked p => exact ⟨hpre, by intro err he; cases he⟩
          | returned => exact ⟨hpre, by intro err he; cases he⟩
      · exact absurd ⟨⟨k, hk⟩, hready, by simpa using hkeep⟩ h
    · simp only [hready, if_false]
      cases hexit : (c.consumptionLoop env.loop).exit with
      | none => exact ⟨rfl, by intro err he; cases he⟩
      | some e =>
        cases e with
        | panicked p => exact ⟨rfl, by intro err he; cases he⟩
        | returned => exact ⟨rfl, by intro err he; cases he⟩

theorem Run_steps_of_leaves {σ : Type} (base : SaramaConfig) (c : ConsumerApp σ)
    (env : RunEnv) (h : c.leavesSignalLoop base env) :
    shutdownSteps (c.Run base env).trace =
      (runShutdown (signalLoop env.signals c.signalLoopStart).client
        (c.consumptionLoop env.loop).exit env.closeErr).trace := by
  rw [Run_of_leavesSignalLoop base c env h]
  simp only [shutdownSteps_append, shutdownSteps_logs, shutdownSteps_runShutdown]
  rfl

theorem closeCalls_shutdownSteps (t : List RunEvent) :
    closeCalls (shutdownSteps t) = closeCalls t := by
  induction t with
  | nil => rfl
  | cons e tl ih =>
    simp only [shutdownSteps, closeCalls] at ih ⊢
    cases e <;> simp [List.filter_cons, RunEvent.isShutdownStep, List.filterMap_cons, ih]

theorem mem_shutdownSteps_close (t : List RunEvent) (err : Option GoError)
    (h : RunEvent.close err ∈ t) : RunEvent.close err ∈ shutdownSteps t := by
  simp [shutdownSteps, List.mem_filter, h, RunEvent.isShutdownStep]

/-- C12, as stated, fails: in a run that leaves the signal loop on SIGTERM while a
`Consume` call is in flight, and in which that call returns `context.Canceled`, `Run`
cancels the context, the goroutine of the loop panics, and neither the wait returns
nor is the client closed. -/
theorem Run_loop_panic_skips_close :
    bareApp.leavesSignalLoop { GroupStrategies := [], OffsetsInitial := 0 }
        cancelledInFlight ∧
      shutdownSteps
          (bareApp.Run { GroupStrategies := [], OffsetsInitial := 0 } cancelledInFlight).trace =
        [RunEvent.cancel] ∧
      closeCalls
          (bareApp.Run { GroupStrategies := [], OffsetsInitial := 0 } cancelledInFlight).trace =
        [] ∧
      (bareApp.Run { GroupStrategies := [], OffsetsInitial := 0 } cancelledInFlight).outcome =
        RunOutcome.panicked (Panic.logPanicf "Error from consumer: context canceled") :=
  ⟨⟨⟨_, rfl⟩, by decide, by decide⟩, by decide, by decide, by decide⟩

/-- C12, amended: of the three final steps of `Run` (cancel the context, return from
the wait for the consumption loop, close the client) a run performs none, or the cancel
alone, or all three in that order, each once; a close is only ever performed in a run
whose consumption loop has returned, behind the cancel and the wait; a run that leaves
its signal loop always cancels; it then performs all three when its consumption loop
returns, and the cancel alone, with no close and no return, when the loop does not
return; and when the loop panics the run ends in that panic. -/
theorem Run_cancel_wait_close_in_order {σ : Type} (base : SaramaConfig) (c : ConsumerApp σ)
    (env : RunEnv) :
    (shutdownSteps (c.Run base env).trace = [] ∨
      shutdownSteps (c.Run base env).trace = [RunEvent.cancel] ∨
      shutdownSteps (c.Run base env).trace =
        [RunEvent.cancel, RunEvent.waitDone, RunEvent.close env.closeErr]) ∧
    ((∃ err, RunEvent.close err ∈ (c.Run base env).trace) →
      (c.consumptionLoop env.loop).exit = some LoopExit.returned ∧
      shutdownSteps (c.Run base env).trace =
        [RunEvent.cancel, RunEvent.waitDone, RunEvent.close env.closeErr]) ∧
    (c.leavesSignalLoop base env →
      (shutdownSteps (c.Run base env).trace).head? = some RunEvent.cancel ∧
      ((c.consumptionLoop env.loop).exit = some LoopExit.returned →
        shutdownSteps (c.Run base env).trace =
          [RunEvent.cancel, RunEvent.waitDone, RunEvent.close env.closeErr]) ∧
      ((c.consumptionLoop env.loop).exit ≠ some LoopExit.returned →
        shutdownSteps (c.Run base env).trace = [RunEvent.cancel] ∧
        closeCalls (c.Run base env).trace = [] ∧
        ∀ err, (c.Run base env).outcome ≠ RunOutcome.returned err) ∧
      (∀ p, (c.consumptionLoop env.loop).exit = some (LoopExit.panicked p) →
        (c.Run base env).outcome = RunOutcome.panicked p)) := by
  by_cases hl : c.leavesSignalLoop base env
  · have hsteps := Run_steps_of_leaves base c env hl
    have hrun := Run_of_leavesSignalLoop base c env hl
    have hpanic : ∀ p, (c.consumptionLoop env.loop).exit = some (LoopExit.panicked p) →
        (c.Run base env).outcome = RunOutcome.panicked p := by
      intro p hp
      rw [hrun, hp]
      rfl
    rcases runShutdown_trace (signalLoop env.signals c.signalLoopStart).client
        (c.consumptionLoop env.loop).exit env.closeErr with ⟨hret, ht⟩ | ⟨hnot, ht⟩
    · rw [ht] at hsteps
      exact ⟨Or.inr (Or.inr hsteps), fun _ => ⟨hret, hsteps⟩, fun _ => ⟨by rw [hsteps]; rfl,
        fun _ => hsteps, fun hne => absurd hret hne, hpanic⟩⟩
    · rw [ht] at hsteps
      have hnoclose : closeCalls (c.Run base env).trace = [] := by
        rw [← closeCalls_shutdownSteps, hsteps]
        rfl
      have hnoret : ∀ err, (c.Run base env).outcome ≠ RunOutcome.returned err := by
        intro err he
        rw [hrun] at he
        cases hexit : (c.consumptionLoop env.loop).exit with
        | none =>
          rw [hexit] at he
          cases he
        | some e =>
          cases e with
          | panicked p =>
            rw [hexit] at he
            cases he
          | returned => exact hnot hexit
      refine ⟨Or.inr (Or.inl hsteps), ?_, fun _ => ⟨by rw [hsteps]; rfl,
        fun hret => absurd hret hnot, fun _ => ⟨hsteps, hnoclose, hnoret⟩, hpanic⟩⟩
      rintro ⟨err, hmem⟩
      have := mem_shutdownSteps_close _ err hmem
      rw [hsteps] at this
      simp at this
  · have hsteps := (Run_steps_of_not_leaves base c env hl).1
    refine ⟨Or.inl hsteps, ?_, fun h => absurd h hl⟩
    rintro ⟨err, hmem⟩
    have := mem_shutdownSteps_close _ err hmem
    rw [hsteps] at this
    simp at this

theorem Run_cancel_wait_close_in_order_witness :
    bareApp.leavesSignalLoop { GroupStrategies := [], OffsetsInitial := 0 } cleanStop ∧
      (bareApp.consumptionLoop cleanStop.loop).exit = some LoopExit.returned ∧
      shutdownSteps (bareApp.Run { GroupStrategies := [], OffsetsInitial := 0 } cleanStop).trace =
        [RunEvent.cancel, RunEvent.waitDone, RunEvent.close cleanStop.closeErr] :=
  ⟨⟨⟨_, rfl⟩, by decide, by decide⟩, by decide,
    ((Run_cancel_wait_close_in_order { GroupStrategies := [], OffsetsInitial := 0 } bareApp
      cleanStop).2.2 ⟨⟨_, rfl⟩, by decide, by decide⟩).2.1 (by decide)⟩

/-- C13: `Run` makes at most one `Close` call; when that call reports an error `Run`
panics with the message of the close error and returns nothing; when it succeeds `Run`
returns nil; the only value `Run` ever returns is nil, and it returns it only after a
successful close; and a run that leaves its signal loop and whose consumption loop
returns does reach the `Close` call. -/
theorem Run_close_error_is_fatal {σ : Type} (base : SaramaConfig) (c : ConsumerApp σ)
    (env : RunEnv) :
    (closeCalls (c.Run base env).trace = [] ∨
      closeCalls (c.Run base env).trace = [env.closeErr]) ∧
    (∀ e, closeCalls (c.Run base env).trace = [some e] →
      (c.Run base env).outcome =
        RunOutcome.panicked (Panic.logPanicf ("Error closing client: " ++ e.text))) ∧
    (closeCalls (c.Run base env).trace = [none] →
      (c.Run base env).outcome = RunOutcome.returned none) ∧
    (∀ err, (c.Run base env).outcome = RunOutcome.returned err →
      err = none ∧ closeCalls (c.Run base env).trace = [none]) ∧
    (c.leavesSignalLoop base env →
      (c.consumptionLoop env.loop).exit = some LoopExit.returned →
      closeCalls (c.Run base env).trace = [env.closeErr]) := by
  by_cases hl : c.leavesSignalLoop base env
  · have hsteps := Run_steps_of_leaves base c env hl
    have hrun := Run_of_leavesSignalLoop base c env hl
    have hcalls : closeCalls (c.Run base env).trace =
        closeCalls (runShutdown (signalLoop env.signals c.signalLoopStart).client
          (c.consumptionLoop env.loop).exit env.closeErr).trace := by
      rw [← closeCalls_shutdownSteps, hsteps]
    have hout : (c.Run base env).outcome =
        (runShutdown (signalLoop env.signals c.signalLoopStart).client
          (c.consumptionLoop env.loop).exit env.closeErr).outcome := by
      rw [hrun]
    rw [hcalls, hout]
    cases hexit : (c.consumptionLoop env.loop).exit with
    | none =>
      refine ⟨Or.inl rfl, ?_, ?_, ?_, ?_⟩
      · intro e h; cases h
      · intro h; cases h
      · intro err h; cases h
      · intro _ h; cases h
    | some ex =>
      cases ex with
      | panicked p =>
        refine ⟨Or.inl rfl, ?_, ?_, ?_, ?_⟩
        · intro e h; cases h
        · intro h; cases h
        · intro err h; cases h
        · intro _ h; cases h
      | returned =>
        cases hce : env.closeErr with
        | none =>
          refine ⟨Or.inr rfl, ?_, ?_, ?_, ?_⟩
          · intro e h; cases h
          · intro _; rfl
          · intro err h
            cases h
            exact ⟨rfl, rfl⟩
          · intro _ _; rfl
        | some e0 =>
          refine ⟨Or.inr rfl, ?_, ?_, ?_, ?_⟩
          · intro e h
            cases h
            rfl
          · intro h; cases h
          · intro err h; cases h
          · intro _ _; rfl
  · obtain ⟨hsteps, hret⟩ := Run_steps_of_not_leaves base c env hl
    have hcalls : closeCalls (c.Run base env).trace = [] := by
      rw [← closeCalls_shutdownSteps, hsteps]; rfl
    rw [hcalls]
    refine ⟨Or.inl rfl, ?_, ?_, ?_, fun h => absurd h hl⟩
    · intro e h; cases h
    · intro h; cases h
    · intro err h; exact absurd h (hret err)

theorem Run_close_error_is_fatal_witness :
    closeCalls (bareApp.Run { GroupStrategies := [], OffsetsInitial := 0 } failingClose).trace =
        [some (GoError.leaf "broker gone")] ∧
      (bareApp.Run { GroupStrategies := [], OffsetsInitial := 0 } failingClose).outcome =
        RunOutcome.panicked
          (Panic.logPanicf ("Error closing client: " ++ (GoError.leaf "broker gone").text)) :=
  ⟨by decide,
    (Run_close_error_is_fatal { GroupStrategies := [], OffsetsInitial := 0 } bareApp
      failingClose).2.1 (GoError.leaf "broker gone") (by decide)⟩

end KafkaProvider

namespace Transport

open KafkaProvider (GoError)

/-! ## Interleavings and order -/

theorem interleaving_mem {α : Type} {l r t : List α} (h : Interleaving l r t) (e : α) :
    e ∈ t ↔ e ∈ l ∨ e ∈ r := by
  induction h with
  | nil => simp
  | left a _ ih => simp only [List.mem_cons, ih]; tauto
  | right b _ ih => simp only [List.mem_cons, ih]; tauto

theorem interleaving_count {α : Type} [DecidableEq α] {l r t : List α}
    (h : Interleaving l r t) (e : α) : t.count e = l.count e + r.count e := by
  induction h with
  | nil => rfl
  | left a _ ih => simp only [List.count_cons, ih]; omega
  | right b _ ih => simp only [List.count_cons, ih]; omega

theorem interleaving_filter {α : Type} (p : α → Bool) {l r t : List α}
    (h : Interleaving l r t) : Interleaving (l.filter p) (r.filter p) (t.filter p) := by
  induction h with
  | nil => exact Interleaving.nil
  | left a _ ih =>
    cases hp : p a
    · simpa [List.filter_cons, hp] using ih
    · simpa [List.filter_cons, hp] using Interleaving.left a ih
  | right b _ ih =>
    cases hp : p b
    · simpa [List.filter_cons, hp] using ih
    · simpa [List.filter_cons, hp] using Interleaving.right b ih

theorem interleaving_nil_left {α : Type} {r t : List α} (h : Interleaving [] r t) : t = r := by
  generalize hl : ([] : List α) = l at h
  induction h with
  | nil => rfl
  | left a _ _ => cases hl
  | right b _ ih => rw [ih hl]

theorem interleaving_nil_right {α : Type} {l t : List α} (h : Interleaving l [] t) : t = l := by
  generalize hr : ([] : List α) = r at h
  induction h with
  | nil => rfl
  | left a _ ih => rw [ih hr]
  | right b _ _ => cases hr

theorem interleaving_append {α : Type} (l r : List α) : Interleaving l r (l ++ r) := by
  induction l with
  | nil =>
    induction r with
    | nil => exact Interleaving.nil
    | cons b tl ih => exact Interleaving.right b ih
  | cons a tl ih => exact Interleaving.left a ih

/-- When the front of a trace holds no `q` and its back holds no `p`, every `p` of the
trace precedes every `q`. -/
theorem allBefore_of_split (p q : HostEvent → Bool) (a b : List HostEvent)
    (ha : ∀ x ∈ a, q x = false) (hb : ∀ y ∈ b, p y = false) : AllBefore p q (a ++ b) := by
  intro pre post x heq hq y hy
  rcases List.append_eq_append_iff.mp heq with ⟨a', _, h2⟩ | ⟨c', h1, h2⟩
  · apply hb
    rw [h2]
    exact List.mem_append_right _ (List.mem_cons_of_mem _ hy)
  · rcases List.cons_eq_append_iff.mp h2 with ⟨_, h4⟩ | ⟨c'', h3, _⟩
    · apply hb
      rw [h4]
      exact List.mem_cons_of_mem _ hy
    · have hx : x ∈ a := by
        rw [h1, h3]
        exact List.mem_append_right _ (List.mem_cons_self _ _)
      rw [ha x hx] at hq
      cases hq

/-! ## The shape of the shutdown sequence -/

/-- The shutdown sequence of a host whose gRPC listener, if there is one, has a health
server. -/
theorem shutdownSequence_applied (s : UranusServer) (err : Option GoError)
    (h : s.grpcHealthApplied = true) :
    s.shutdownSequence err =
      { startGrpc := []
        startHttp := []
        main :=
          (if s.httpServer.isSome then [HostEvent.httpHealth false] else []) ++
          (if s.grpcServer.isSome then [HostEvent.grpcHealth ServingStatus.NOT_SERVING]
            else []) ++
          [HostEvent.logWaiting s.shutdownOption.Timeout,
            HostEvent.sleep SleepSite.drain s.shutdownOption.Timeout]
        stopGrpc :=
          if s.grpcServer.isSome then
            [HostEvent.grpcGracefulStop, HostEvent.log "grpc server stopped"]
          else []
        stopHttp :=
          if s.httpServer.isSome then
            match err with
            | some e =>
              [HostEvent.httpShutdown (some e), HostEvent.log "http server shutdown error",
                HostEvent.sleep SleepSite.hardStop s.shutdownOption.HardStop]
            | none => [HostEvent.httpShutdown none, HostEvent.log "http server stopped"]
          else []
        final := [HostEvent.log "shutdown complete", HostEvent.exit 0]
        outcome := HostOutcome.exited 0 } := by
  obtain ⟨http, grpc, opt⟩ := s
  cases grpc with
  | none => cases http <;> cases err <;> rfl
  | some g =>
    obtain ⟨gopt, hs⟩ := g
    cases hs with
    | none => simp [UranusServer.grpcHealthApplied] at h
    | some hsrv => cases http <;> cases err <;> rfl

theorem shutdownSequence_not_applied (s : UranusServer) (err : Option GoError)
    (h : s.grpcHealthApplied = false) :
    s.shutdownSequence err =
      { startGrpc := []
        startHttp := []
        main := if s.httpServer.isSome then [HostEvent.httpHealth false] else []
        stopGrpc := []
        stopHttp := []
        final := []
        outcome := HostOutcome.panicked HostPanic.nilDereference } := by
  obtain ⟨http, grpc, opt⟩ := s
  cases grpc with
  | none => simp [UranusServer.grpcHealthApplied] at h
  | some g =>
    obtain ⟨gopt, hs⟩ := g
    cases hs with
    | none => cases http <;> rfl
    | some hsrv => simp [UranusServer.grpcHealthApplied] at h

/-- A run that reaches its shutdown sequence performs the shutdown sequence of the
host as configured: the start routines change no field the sequence looks at. -/
theorem Run_shutdown (s : UranusServer) (env : HostEnv) (h : s.reachesShutdown env) :
    (s.Run env).main = (s.shutdownSequence env.httpShutdownErr).main ∧
    (s.Run env).stopGrpc = (s.shutdownSequence env.httpShutdownErr).stopGrpc ∧
    (s.Run env).stopHttp = (s.shutdownSequence env.httpShutdownErr).stopHttp ∧
    (s.Run env).final = (s.shutdownSequence env.httpShutdownErr).final ∧
    (s.Run env).outcome = (s.shutdownSequence env.httpShutdownErr).outcome := by
  obtain ⟨hsig, hbind⟩ := h
  obtain ⟨http, grpc, opt⟩ := s
  obtain ⟨gb, hb, sg, herr⟩ := env
  simp only at hsig hbind
  subst hsig
  cases grpc with
  | none => cases http <;> cases herr <;> exact ⟨rfl, rfl, rfl, rfl, rfl⟩
  | some g =>
    have hgb : gb = none := hbind rfl
    subst hgb
    obtain ⟨gopt, hs⟩ := g
    cases hs <;> cases http <;> cases herr <;> exact ⟨rfl, rfl, rfl, rfl, rfl⟩

theorem Run_shutdown_trace (s : UranusServer) (env : HostEnv) (h : s.reachesShutdown env)
    (t : List HostEvent) :
    (s.Run env).IsShutdownTrace t ↔ (s.shutdownSequence env.httpShutdownErr).IsShutdownTrace t := by
  obtain ⟨h1, h2, h3, h4, _⟩ := Run_shutdown s env h
  simp only [HostRun.IsShutdownTrace, h1, h2, h3, h4]

/-! ## Order of the shutdown sequence -/

theorem stop_tasks_no_switch_no_drain (s : UranusServer) (err : Option GoError)
    (mid : List HostEvent)
    (hmid : Interleaving (s.shutdownSequence err).stopGrpc (s.shutdownSequence err).stopHttp mid) :
    ∀ y ∈ mid ++ (s.shutdownSequence err).final,
      y.isSwitchOff = false ∧ y.isDrainSleep = false := by
  have key : ∀ y ∈ (s.shutdownSequence err).stopGrpc ++ (s.shutdownSequence err).stopHttp ++
      (s.shutdownSequence err).final, y.isSwitchOff = false ∧ y.isDrainSleep = false := by
    by_cases ha : s.grpcHealthApplied = true
    · rw [shutdownSequence_applied s err ha]
      cases s.httpServer.isSome <;> cases s.grpcServer.isSome <;> cases err <;>
        simp [HostEvent.isSwitchOff, HostEvent.isDrainSleep]
    · have ha' : s.grpcHealthApplied = false := by simpa using ha
      rw [shutdownSequence_not_applied s err ha']
      simp
  intro y hy
  apply key
  rw [List.mem_append, interleaving_mem hmid] at hy
  simp only [List.mem_append]
  exact hy

theorem main_no_stop_call (s : UranusServer) (err : Option GoError) :
    ∀ x ∈ (s.shutdownSequence err).main, x.isStopCall = false := by
  by_cases ha : s.grpcHealthApplied = true
  · rw [shutdownSequence_applied s err ha]
    cases s.httpServer.isSome <;> cases s.grpcServer.isSome <;> simp [HostEvent.isStopCall]
  · have ha' : s.grpcHealthApplied = false := by simpa using ha
    rw [shutdownSequence_not_applied s err ha']
    cases s.httpServer.isSome <;> simp [HostEvent.isStopCall]

theorem shutdown_trace_count (r : HostRun) (t : List HostEvent) (ht : r.IsShutdownTrace t)
    (e : HostEvent) :
    t.count e = r.main.count e + (r.stopGrpc.count e + r.stopHttp.count e) + r.final.count e := by
  obtain ⟨mid, hmid, rfl⟩ := ht
  rw [List.count_append, List.count_append, interleaving_count hmid]

theorem shutdown_switch_before_drain (s : UranusServer) (err : Option GoError)
    (t : List HostEvent) (ht : (s.shutdownSequence err).IsShutdownTrace t) :
    AllBefore HostEvent.isSwitchOff HostEvent.isDrainSleep t := by
  obtain ⟨mid, hmid, rfl⟩ := ht
  have hrest := stop_tasks_no_switch_no_drain s err mid hmid
  by_cases ha : s.grpcHealthApplied = true
  · have hmain : (s.shutdownSequence err).main =
        ((if s.httpServer.isSome then [HostEvent.httpHealth false] else []) ++
          (if s.grpcServer.isSome then [HostEvent.grpcHealth ServingStatus.NOT_SERVING]
            else []) ++ [HostEvent.logWaiting s.shutdownOption.Timeout]) ++
        [HostEvent.sleep SleepSite.drain s.shutdownOption.Timeout] := by
      rw [shutdownSequence_applied s err ha]
      simp
    rw [hmain, List.append_assoc, List.append_assoc]
    apply allBefore_of_split
    · cases s.httpServer.isSome <;> cases s.grpcServer.isSome <;>
        simp [HostEvent.isDrainSleep]
    · intro y hy
      rw [List.mem_append] at hy
      rcases hy with hy | hy
      · rw [List.mem_singleton] at hy
        rw [hy]
        rfl
      · exact (hrest y hy).1
  · have ha' : s.grpcHealthApplied = false := by simpa using ha
    rw [List.append_assoc]
    apply allBefore_of_split
    · rw [shutdownSequence_not_applied s err ha']
      cases s.httpServer.isSome <;> simp [HostEvent.isDrainSleep]
    · intro y hy
      exact (hrest y hy).1

theorem shutdown_drain_before_stop (s : UranusServer) (err : Option GoError)
    (t : List HostEvent) (ht : (s.shutdownSequence err).IsShutdownTrace t) :
    AllBefore HostEvent.isDrainSleep HostEvent.isStopCall t := by
  obtain ⟨mid, hmid, rfl⟩ := ht
  rw [List.append_assoc]
  apply allBefore_of_split
  · exact main_no_stop_call s err
  · intro y hy
    exact (stop_tasks_no_switch_no_drain s err mid hmid y hy).2

theorem shutdown_one_drain_sleep (s : UranusServer) (err : Option GoError)
    (t : List HostEvent) (ht : (s.shutdownSequence err).IsShutdownTrace t)
    (ha : s.grpcHealthApplied = true) :
    t.filter HostEvent.isDrainSleep =
      [HostEvent.sleep SleepSite.drain s.shutdownOption.Timeout] := by
  obtain ⟨mid, hmid, rfl⟩ := ht
  have hrest := stop_tasks_no_switch_no_drain s err mid hmid
  have hnil : (mid ++ (s.shutdownSequence err).final).filter HostEvent.isDrainSleep = [] := by
    rw [List.filter_eq_nil_iff]
    intro y hy
    rw [(hrest y hy).2]
    simp
  rw [List.append_assoc, List.filter_append, hnil, List.append_nil,
    shutdownSequence_applied s err ha]
  cases s.httpServer.isSome <;> cases s.grpcServer.isSome <;>
    simp [List.filter_cons, HostEvent.isDrainSleep]

/-- C14: in every linear trace of the shutdown sequence of a run that reaches it, the
HTTP health flag is switched to not serving once if an HTTP listener is configured, the
gRPC health status once if a gRPC listener with a health server is configured, no such
switch comes behind the drain sleep, and no drain sleep comes behind a `GracefulStop`
or `Shutdown` call; when the gRPC listener, if any, has a health server the trace
holds exactly one drain sleep, of duration `Timeout`. -/
theorem shutdown_switch_drain_stop_order (s : UranusServer) (env : HostEnv)
    (t : List HostEvent) (hr : s.reachesShutdown env) (ht : (s.Run env).IsShutdownTrace t) :
    t.count (HostEvent.httpHealth false) = (if s.httpServer.isSome then 1 else 0) ∧
    t.count (HostEvent.grpcHealth ServingStatus.NOT_SERVING) =
      (if s.grpcServer.isSome && s.grpcHealthApplied then 1 else 0) ∧
    AllBefore HostEvent.isSwitchOff HostEvent.isDrainSleep t ∧
    AllBefore HostEvent.isDrainSleep HostEvent.isStopCall t ∧
    (s.grpcHealthApplied = true →
      t.filter HostEvent.isDrainSleep =
        [HostEvent.sleep SleepSite.drain s.shutdownOption.Timeout]) := by
  rw [Run_shutdown_trace s env hr] at ht
  refine ⟨?_, ?_, shutdown_switch_before_drain s _ t ht, shutdown_drain_before_stop s _ t ht,
    shutdown_one_drain_sleep s _ t ht⟩
  · rw [shutdown_trace_count _ t ht]
    by_cases ha : s.grpcHealthApplied = true
    · rw [shutdownSequence_applied s _ ha]
      cases s.httpServer.isSome <;> cases s.grpcServer.isSome <;> cases env.httpShutdownErr <;>
        simp [List.count_cons]
    · have ha' : s.grpcHealthApplied = false := by simpa using ha
      rw [shutdownSequence_not_applied s _ ha']
      cases s.httpServer.isSome <;> simp [List.count_cons]
  · rw [shutdown_trace_count _ t ht]
    by_cases ha : s.grpcHealthApplied = true
    · rw [shutdownSequence_applied s _ ha, ha]
      cases s.httpServer.isSome <;> cases s.grpcServer.isSome <;> cases env.httpShutdownErr <;>
        simp [List.count_cons]
    · have ha' : s.grpcHealthApplied = false := by simpa using ha
      rw [shutdownSequence_not_applied s _ ha', ha']
      cases s.httpServer.isSome <;> simp [List.count_cons]

theorem shutdown_switch_drain_stop_order_witness :
    sampleHost.reachesShutdown calmEnv ∧
      (sampleHost.Run calmEnv).IsShutdownTrace sampleTrace ∧
      sampleTrace.count (HostEvent.httpHealth false) = 1 ∧
      sampleTrace.count (HostEvent.grpcHealth ServingStatus.NOT_SERVING) = 1 ∧
      sampleTrace.filter HostEvent.isDrainSleep = [HostEvent.sleep SleepSite.drain 5000000000] :=
  have hr : sampleHost.reachesShutdown calmEnv := ⟨rfl, fun _ => rfl⟩
  have ht : (sampleHost.Run calmEnv).IsShutdownTrace sampleTrace :=
    ⟨[HostEvent.grpcGracefulStop, HostEvent.log "grpc server stopped",
        HostEvent.httpShutdown none, HostEvent.log "http server stopped"],
      Interleaving.left _ (Interleaving.left _ (Interleaving.right _
        (Interleaving.right _ Interleaving.nil))), rfl⟩
  ⟨hr, ht, (shutdown_switch_drain_stop_order sampleHost calmEnv sampleTrace hr ht).1,
    (shutdown_switch_drain_stop_order sampleHost calmEnv sampleTrace hr ht).2.1,
    (shutdown_switch_drain_stop_order sampleHost calmEnv sampleTrace hr ht).2.2.2.2 rfl⟩

/-! ## The fallback sleep -/

theorem allBefore_nil (p q : HostEvent → Bool) : AllBefore p q [] := by
  intro pre post x heq
  cases pre <;> cases heq

theorem allBefore_tail (p q : HostEvent → Bool) (a : HostEvent) (l : List HostEvent)
    (h : AllBefore p q (a :: l)) : AllBefore p q l := by
  intro pre post x heq hq y hy
  exact h (a :: pre) post x (by rw [heq]; rfl) hq y hy

/-- Interleaving a list with one that holds neither kind of event keeps the order. -/
theorem allBefore_interleaving (p q : HostEvent → Bool) {l r m : List HostEvent}
    (h : Interleaving l r m) (hl : AllBefore p q l) (hrp : ∀ y ∈ r, p y = false)
    (hrq : ∀ y ∈ r, q y = false) : AllBefore p q m := by
  induction h with
  | nil => exact hl
  | @left a l r t hi ih =>
    have ih' := ih (allBefore_tail p q a l hl) hrp hrq
    intro pre post x heq hq y hy
    rcases List.cons_eq_append_iff.mp heq with ⟨_, h2⟩ | ⟨pre', _, h2⟩
    · obtain ⟨hx, hpost⟩ := List.cons.inj h2
      rw [hpost] at hy
      rcases (interleaving_mem hi y).mp hy with hy' | hy'
      · exact hl [] l a rfl (by rw [← hx]; exact hq) y hy'
      · exact hrp y hy'
    · exact ih' pre' post x h2 hq y hy
  | @right b l r t hi ih =>
    have ih' := ih hl (fun y hy => hrp y (List.mem_cons_of_mem _ hy))
      (fun y hy => hrq y (List.mem_cons_of_mem _ hy))
    intro pre post x heq hq y hy
    rcases List.cons_eq_append_iff.mp heq with ⟨_, h2⟩ | ⟨pre', _, h2⟩
    · obtain ⟨hx, _⟩ := List.cons.inj h2
      have := hrq b (List.mem_cons_self _ _)
      rw [← hx, hq] at this
      cases this
    · exact ih' pre' post x h2 hq y hy

theorem allBefore_append (p q : HostEvent → Bool) (a b : List HostEvent)
    (ha : AllBefore p q a) (hb : AllBefore p q b)
    (h : (∀ x ∈ a, q x = false) ∨ (∀ y ∈ b, p y = false)) : AllBefore p q (a ++ b) := by
  intro pre post x heq hq y hy
  rcases List.append_eq_append_iff.mp heq with ⟨a', h1, h2⟩ | ⟨c', h1, h2⟩
  · exact hb a' post x h2 hq y hy
  · rcases List.cons_eq_append_iff.mp h2 with ⟨_, h4⟩ | ⟨c'', h3, h4⟩
    · exact hb [] post x h4 hq y hy
    · rw [h3] at h1
      rw [h4, List.mem_append] at hy
      rcases hy with hy | hy
      · exact ha pre c'' x h1 hq y hy
      · rcases h with h | h
        · have hx : x ∈ a := by
            rw [h1]
            exact List.mem_append_right _ (List.mem_cons_self _ _)
          rw [h x hx] at hq
          cases hq
        · exact h y hy

theorem shutdown_trace_mem (r : HostRun) (t : List HostEvent) (ht : r.IsShutdownTrace t)
    (e : HostEvent) :
    e ∈ t ↔ e ∈ r.main ∨ (e ∈ r.stopGrpc ∨ e ∈ r.stopHttp) ∨ e ∈ r.final := by
  obtain ⟨mid, hmid, rfl⟩ := ht
  simp only [List.mem_append, interleaving_mem hmid, or_assoc]

theorem shutdown_trace_filter (r : HostRun) (t : List HostEvent) (ht : r.IsShutdownTrace t)
    (p : HostEvent → Bool) (hg : r.stopGrpc.filter p = []) :
    t.filter p = r.main.filter p ++ r.stopHttp.filter p ++ r.final.filter p := by
  obtain ⟨mid, hmid, rfl⟩ := ht
  have hf := interleaving_filter p hmid
  rw [hg] at hf
  rw [List.filter_append, List.filter_append, interleaving_nil_left hf]

theorem allBefore_of_no_q (p q : HostEvent → Bool) (a : List HostEvent)
    (ha : ∀ x ∈ a, q x = false) : AllBefore p q a := by
  intro pre post x heq hq
  have hx : x ∈ a := by
    rw [heq]
    exact List.mem_append_right _ (List.mem_cons_self _ _)
  rw [ha x hx] at hq
  cases hq

theorem interleaving_swap {α : Type} {l r t : List α} (h : Interleaving l r t) :
    Interleaving r l t := by
  induction h with
  | nil => exact Interleaving.nil
  | left a _ ih => exact Interleaving.right a ih
  | right b _ ih => exact Interleaving.left b ih

theorem shutdownSequence_stopGrpc (s : UranusServer) (e1 e2 : Option GoError) :
    (s.shutdownSequence e1).stopGrpc = (s.shutdownSequence e2).stopGrpc := by
  by_cases ha : s.grpcHealthApplied = true
  · rw [shutdownSequence_applied s e1 ha, shutdownSequence_applied s e2 ha]
  · have ha' : s.grpcHealthApplied = false := by simpa using ha
    rw [shutdownSequence_not_applied s e1 ha', shutdownSequence_not_applied s e2 ha']

theorem shutdown_stopGrpc_free (s : UranusServer) (err : Option GoError) :
    ∀ y ∈ (s.shutdownSequence err).stopGrpc,
      y.isHttpShutdown = false ∧ y.isHardStopSleep = false ∧ y.isCompletion = false := by
  by_cases ha : s.grpcHealthApplied = true
  · rw [shutdownSequence_applied s err ha]
    cases s.grpcServer.isSome <;>
      simp [HostEvent.isHttpShutdown, HostEvent.isHardStopSleep, HostEvent.isCompletion]
  · have ha' : s.grpcHealthApplied = false := by simpa using ha
    rw [shutdownSequence_not_applied s err ha']
    simp

theorem shutdown_main_free (s : UranusServer) (err : Option GoError) :
    ∀ y ∈ (s.shutdownSequence err).main,
      y.isHttpShutdown = false ∧ y.isHardStopSleep = false ∧ y.isCompletion = false := by
  by_cases ha : s.grpcHealthApplied = true
  · rw [shutdownSequence_applied s err ha]
    cases s.httpServer.isSome <;> cases s.grpcServer.isSome <;>
      simp [HostEvent.isHttpShutdown, HostEvent.isHardStopSleep, HostEvent.isCompletion]
  · have ha' : s.grpcHealthApplied = false := by simpa using ha
    rw [shutdownSequence_not_applied s err ha']
    cases s.httpServer.isSome <;>
      simp [HostEvent.isHttpShutdown, HostEvent.isHardStopSleep, HostEvent.isCompletion]

theorem shutdown_final_free (s : UranusServer) (err : Option GoError) :
    ∀ y ∈ (s.shutdownSequence err).final,
      y.isHttpShutdown = false ∧ y.isHardStopSleep = false := by
  by_cases ha : s.grpcHealthApplied = true
  · rw [shutdownSequence_applied s err ha]
    simp [HostEvent.isHttpShutdown, HostEvent.isHardStopSleep]
  · have ha' : s.grpcHealthApplied = false := by simpa using ha
    rw [shutdownSequence_not_applied s err ha']
    simp

theorem shutdown_stopHttp_free (s : UranusServer) (err : Option GoError) :
    (∀ y ∈ (s.shutdownSequence err).stopHttp, y.isCompletion = false) ∧
    AllBefore HostEvent.isHttpShutdown HostEvent.isHardStopSleep
      (s.shutdownSequence err).stopHttp := by
  by_cases ha : s.grpcHealthApplied = true
  · rw [shutdownSequence_applied s err ha]
    cases s.httpServer.isSome
    · exact ⟨by simp, allBefore_nil _ _⟩
    · cases err with
      | none =>
        refine ⟨by simp [HostEvent.isCompletion], ?_⟩
        exact allBefore_of_no_q _ _ _ (by simp [HostEvent.isHardStopSleep])
      | some e =>
        refine ⟨by simp [HostEvent.isCompletion], ?_⟩
        exact allBefore_of_split _ _
          [HostEvent.httpShutdown (some e), HostEvent.log "http server shutdown error"]
          [HostEvent.sleep SleepSite.hardStop s.shutdownOption.HardStop]
          (by simp [HostEvent.isHardStopSleep]) (by simp [HostEvent.isHttpShutdown])
  · have ha' : s.grpcHealthApplied = false := by simpa using ha
    rw [shutdownSequence_not_applied s err ha']
    exact ⟨by simp, allBefore_nil _ _⟩

theorem shutdown_shutdown_before_hardStop (s : UranusServer) (err : Option GoError)
    (t : List HostEvent) (ht : (s.shutdownSequence err).IsShutdownTrace t) :
    AllBefore HostEvent.isHttpShutdown HostEvent.isHardStopSleep t ∧
    AllBefore HostEvent.isHardStopSleep HostEvent.isCompletion t := by
  obtain ⟨mid, hmid, rfl⟩ := ht
  have hg := shutdown_stopGrpc_free s err
  have hm := shutdown_main_free s err
  have hf := shutdown_final_free s err
  have hh := shutdown_stopHttp_free s err
  constructor
  · rw [List.append_assoc]
    apply allBefore_append
    · exact allBefore_of_no_q _ _ _ (fun x hx => (hm x hx).2.1)
    · apply allBefore_append
      · exact allBefore_interleaving _ _ (interleaving_swap hmid) hh.2 (fun y hy => (hg y hy).1)
          (fun y hy => (hg y hy).2.1)
      · exact allBefore_of_no_q _ _ _ (fun x hx => (hf x hx).2)
      · exact Or.inr (fun y hy => (hf y hy).1)
    · exact Or.inl (fun x hx => (hm x hx).2.1)
  · apply allBefore_of_split
    · intro x hx
      rw [List.mem_append, interleaving_mem hmid] at hx
      rcases hx with hx | hx | hx
      · exact (hm x hx).2.2
      · exact (hg x hx).2.2
      · exact hh.1 x hx
    · intro y hy
      exact (hf y hy).2

theorem shutdown_hardStop_filter (s : UranusServer) (err : Option GoError)
    (t : List HostEvent) (ht : (s.shutdownSequence err).IsShutdownTrace t)
    (hhttp : s.httpServer.isSome = true) :
    t.filter HostEvent.isHardStopSleep =
        (if err.isSome && s.grpcHealthApplied then
          [HostEvent.sleep SleepSite.hardStop s.shutdownOption.HardStop] else []) ∧
    t.filter HostEvent.isHttpShutdown =
        (if s.grpcHealthApplied then [HostEvent.httpShutdown err] else []) := by
  have hg := shutdown_stopGrpc_free s err
  have hg1 : (s.shutdownSequence err).stopGrpc.filter HostEvent.isHardStopSleep = [] := by
    rw [List.filter_eq_nil_iff]
    intro y hy
    rw [(hg y hy).2.1]
    simp
  have hg2 : (s.shutdownSequence err).stopGrpc.filter HostEvent.isHttpShutdown = [] := by
    rw [List.filter_eq_nil_iff]
    intro y hy
    rw [(hg y hy).1]
    simp
  rw [shutdown_trace_filter _ t ht _ hg1, shutdown_trace_filter _ t ht _ hg2]
  by_cases ha : s.grpcHealthApplied = true
  · rw [shutdownSequence_applied s err ha, ha, hhttp]
    cases s.grpcServer.isSome <;> cases err <;>
      simp [List.filter_cons, HostEvent.isHardStopSleep, HostEvent.isHttpShutdown]
  · have ha' : s.grpcHealthApplied = false := by simpa using ha
    rw [shutdownSequence_not_applied s err ha', ha', hhttp]
    simp [List.filter_cons, HostEvent.isHardStopSleep, HostEvent.isHttpShutdown]

/-- C16: in every linear trace of the shutdown sequence of a run that reaches it with
an HTTP listener configured, the fallback sleep occurs at most once and only with the
duration `HardStop`; it occurs if and only if the trace holds a `Shutdown` call that
returned an error; no `Shutdown` call comes behind it and it comes behind neither the
line "shutdown complete" nor the exit; and the task that stops the gRPC listener is
the same whatever `Shutdown` returns, with one `GracefulStop` call whenever a gRPC
listener is configured and a `Shutdown` call is made at all. -/
theorem hardStop_sleep_iff_shutdown_error (s : UranusServer) (env : HostEnv)
    (t : List HostEvent) (hr : s.reachesShutdown env) (hhttp : s.httpServer.isSome = true)
    (ht : (s.Run env).IsShutdownTrace t) :
    (t.filter HostEvent.isHardStopSleep = [] ∨
      t.filter HostEvent.isHardStopSleep =
        [HostEvent.sleep SleepSite.hardStop s.shutdownOption.HardStop]) ∧
    (t.filter HostEvent.isHardStopSleep ≠ [] ↔
      ∃ e, t.filter HostEvent.isHttpShutdown = [HostEvent.httpShutdown (some e)]) ∧
    AllBefore HostEvent.isHttpShutdown HostEvent.isHardStopSleep t ∧
    AllBefore HostEvent.isHardStopSleep HostEvent.isCompletion t ∧
    (∀ err, (s.Run { env with httpShutdownErr := err }).stopGrpc = (s.Run env).stopGrpc) ∧
    (t.filter HostEvent.isHttpShutdown ≠ [] → s.grpcServer.isSome = true →
      t.count HostEvent.grpcGracefulStop = 1) := by
  have hstop : ∀ err, (s.Run { env with httpShutdownErr := err }).stopGrpc =
      (s.Run env).stopGrpc := by
    intro err
    have hr' : s.reachesShutdown { env with httpShutdownErr := err } := hr
    rw [(Run_shutdown s _ hr').2.1, (Run_shutdown s env hr).2.1]
    exact shutdownSequence_stopGrpc s _ _
  rw [Run_shutdown_trace s env hr] at ht
  obtain ⟨hf1, hf2⟩ := shutdown_hardStop_filter s _ t ht hhttp
  obtain ⟨ho1, ho2⟩ := shutdown_shutdown_before_hardStop s _ t ht
  refine ⟨?_, ?_, ho1, ho2, hstop, ?_⟩
  · rw [hf1]
    split_ifs
    · exact Or.inr rfl
    · exact Or.inl rfl
  · rw [hf1, hf2]
    cases env.httpShutdownErr <;> cases s.grpcHealthApplied <;> simp
  · intro hne hgrpc
    rw [hf2] at hne
    have ha : s.grpcHealthApplied = true := by
      cases h : s.grpcHealthApplied
      · rw [h] at hne; simp at hne
      · rfl
    rw [shutdown_trace_count _ t ht, shutdownSequence_applied s _ ha, hhttp, hgrpc]
    cases env.httpShutdownErr <;> simp [List.count_cons]

theorem hardStop_sleep_iff_shutdown_error_witness :
    sampleHost.reachesShutdown httpErrorEnv ∧
      sampleHost.httpServer.isSome = true ∧
      (sampleHost.Run httpErrorEnv).IsShutdownTrace sampleTraceHttpError ∧
      (sampleTraceHttpError.filter HostEvent.isHardStopSleep = [] ∨
        sampleTraceHttpError.filter HostEvent.isHardStopSleep =
          [HostEvent.sleep SleepSite.hardStop sampleHost.shutdownOption.HardStop]) ∧
      sampleTraceHttpError.count HostEvent.grpcGracefulStop = 1 :=
  have hr : sampleHost.reachesShutdown httpErrorEnv := ⟨rfl, fun _ => rfl⟩
  have ht : (sampleHost.Run httpErrorEnv).IsShutdownTrace sampleTraceHttpError :=
    ⟨[HostEvent.httpShutdown (some (GoError.leaf "context deadline exceeded")),
        HostEvent.log "http server shutdown error",
        HostEvent.sleep SleepSite.hardStop 10000000000,
        HostEvent.grpcGracefulStop, HostEvent.log "grpc server stopped"],
      Interleaving.right _ (Interleaving.right _ (Interleaving.right _
        (Interleaving.left _ (Interleaving.left _ Interleaving.nil)))), rfl⟩
  ⟨hr, rfl, ht,
    (hardStop_sleep_iff_shutdown_error sampleHost httpErrorEnv sampleTraceHttpError hr rfl ht).1,
    (hardStop_sleep_iff_shutdown_error sampleHost httpErrorEnv sampleTraceHttpError hr rfl
      ht).2.2.2.2.2 (by decide) rfl⟩

/-! ## The end of the host's run -/

/-- When the gRPC listener, if there is one, has a health server, a run that reaches
its shutdown sequence ends with the line "shutdown complete" and `os.Exit(0)`. -/
theorem Run_exits_zero_of_health_applied (s : UranusServer) (env : HostEnv)
    (hr : s.reachesShutdown env) (ha : s.grpcHealthApplied = true) :
    (s.Run env).outcome = HostOutcome.exited 0 ∧
    (s.Run env).final = [HostEvent.log "shutdown complete", HostEvent.exit 0] := by
  obtain ⟨_, _, _, h4, h5⟩ := Run_shutdown s env hr
  rw [h4, h5, shutdownSequence_applied s _ ha]
  exact ⟨rfl, rfl⟩

/-- C17, at the failing input: a host whose gRPC listener has no health server, with
both binds succeeding and a signal arriving, panics on a nil dereference at the gRPC
health switch, behind the HTTP switch; it performs no drain sleep, stops no listener
and does not reach `os.Exit(0)`. -/
theorem Run_without_health_server_panics :
    hostNoHealth.reachesShutdown calmEnv ∧
      (hostNoHealth.Run calmEnv).outcome = HostOutcome.panicked HostPanic.nilDereference ∧
      (hostNoHealth.Run calmEnv).main = [HostEvent.httpHealth false] ∧
      (hostNoHealth.Run calmEnv).stopGrpc = [] ∧
      (hostNoHealth.Run calmEnv).stopHttp = [] ∧
      (hostNoHealth.Run calmEnv).final = [] :=
  ⟨⟨rfl, fun _ => rfl⟩, by decide, by decide, by decide, by decide, by decide⟩

/-! ## The Delay field -/

/-- C19: two hosts with the same listeners whose shutdown options agree on `Timeout`,
`HardStop` and `Signal` (they may differ in `Delay`) make the same run in every
environment; and every sleep the main goroutine performs before the wait group is the
drain sleep, of duration `Timeout`, which it does perform when the run reaches the
shutdown sequence and the gRPC listener, if any, has a health server. -/
theorem Run_independent_of_Delay (s1 s2 : UranusServer) (env : HostEnv)
    (hhttp : s1.httpServer = s2.httpServer) (hgrpc : s1.grpcServer = s2.grpcServer)
    (hT : s1.shutdownOption.Timeout = s2.shutdownOption.Timeout)
    (hH : s1.shutdownOption.HardStop = s2.shutdownOption.HardStop)
    (hS : s1.shutdownOption.Signal = s2.shutdownOption.Signal) :
    s1.Run env = s2.Run env ∧
    (∀ site d, HostEvent.sleep site d ∈ (s1.Run env).main →
      site = SleepSite.drain ∧ d = s1.shutdownOption.Timeout) ∧
    (s1.reachesShutdown env → s1.grpcHealthApplied = true →
      HostEvent.sleep SleepSite.drain s1.shutdownOption.Timeout ∈ (s1.Run env).main) := by
  refine ⟨?_, ?_, ?_⟩
  · obtain ⟨h1, g1, ⟨T1, D1, H1, S1⟩⟩ := s1
    obtain ⟨h2, g2, ⟨T2, D2, H2, S2⟩⟩ := s2
    simp only at hhttp hgrpc hT hH hS
    subst hhttp hgrpc hT hH hS
    obtain ⟨gb, hb, sg, herr⟩ := env
    cases g1 with
    | none => cases h1 <;> cases sg <;> cases herr <;> rfl
    | some g =>
      obtain ⟨gopt, hs⟩ := g
      cases hs <;> cases gb <;> cases h1 <;> cases sg <;> cases herr <;> rfl
  · intro site d hmem
    obtain ⟨h1, g1, opt⟩ := s1
    obtain ⟨gb, hb, sg, herr⟩ := env
    cases g1 with
    | none =>
      cases h1 <;> cases sg <;> cases herr <;>
        simp [UranusServer.Run, UranusServer.shutdownSequence] at hmem <;>
        exact ⟨hmem.1, hmem.2⟩
    | some g =>
      obtain ⟨gopt, hs⟩ := g
      cases hs <;> cases gb <;> cases h1 <;> cases sg <;> cases herr <;>
        simp [UranusServer.Run, UranusServer.shutdownSequence, GrpcServer.StartGrpcServer,
          GrpcServer.run, GrpcServer.SwitchHealthStatusGrpc] at hmem <;>
        exact ⟨hmem.1, hmem.2⟩
  · intro hr ha
    rw [(Run_shutdown s1 env hr).1, shutdownSequence_applied s1 _ ha]
    simp

theorem Run_independent_of_Delay_witness :
    sampleHost.Run calmEnv =
        ({ sampleHost with
            shutdownOption := { sampleHost.shutdownOption with Delay := 0 } } :
          UranusServer).Run calmEnv ∧
      HostEvent.sleep SleepSite.drain sampleHost.shutdownOption.Timeout ∈
        (sampleHost.Run calmEnv).main :=
  ⟨(Run_independent_of_Delay sampleHost
      { sampleHost with shutdownOption := { sampleHost.shutdownOption with Delay := 0 } }
      calmEnv rfl rfl rfl rfl rfl).1,
    (Run_independent_of_Delay sampleHost
      { sampleHost with shutdownOption := { sampleHost.shutdownOption with Delay := 0 } }
      calmEnv rfl rfl rfl rfl rfl).2.2 ⟨rfl, fun _ => rfl⟩ rfl⟩

/-! ## Health at start -/

/-- C15, as stated, fails: when the HTTP bind fails the flag has been switched to
serving before the bind was tried and stays so (the health endpoint answers 200); and
when the gRPC bind fails the health status was already set to serving when
`net.Listen` failed. -/
theorem health_serving_despite_failed_bind :
    (sampleHttp.StartHttpServer (some (GoError.leaf "address already in use"))).events =
        [HostEvent.httpHealth true, HostEvent.log "http listen on port",
          HostEvent.httpListenAndServe (some (GoError.leaf "address already in use"))] ∧
      (sampleHttp.StartHttpServer
          (some (GoError.leaf "address already in use"))).server.toggleHealthCheck = true ∧
      (sampleHttp.StartHttpServer
          (some (GoError.leaf "address already in use"))).server.get "health" =
        some { code := 200, status := "ok" } ∧
      (grpcWithHealth.StartGrpcServer (some (GoError.leaf "address already in use"))).events =
        [HostEvent.grpcHealth ServingStatus.SERVING,
          HostEvent.grpcListen (some (GoError.leaf "address already in use"))] ∧
      ((grpcWithHealth.StartGrpcServer
          (some (GoError.leaf "address already in use"))).server.healthServer.bind
        fun h => h.status "simple-grpc-app") = some ServingStatus.SERVING := by
  decide

/-- C15, amended: a newly made HTTP listener reports not serving; `StartHttpServer`
switches the flag to serving before it tries to bind and whatever the bind does, so
the flag reports serving afterwards also when the bind failed; `StartGrpcServer` of a
listener with a health server sets the status of the application to serving before
`net.Listen`, whatever `net.Listen` does, and panics when `net.Listen` fails; without
a health server it switches nothing.  Before its start routine a gRPC listener has no
health server until `ApplyHealth`, and from then on reports what `health.NewServer()`
reports: when that reports serving for the empty service name, a listener with the
default application name reports serving before it is started. -/
theorem start_switches_health_before_bind (opts : List (HttpOption → HttpOption))
    (gopts : List (GrpcOption → GrpcOption)) (h : HttpServer) (g : GrpcServer)
    (bind : Option GoError) :
    (HttpServer.NewServer opts).toggleHealthCheck = false ∧
    (h.StartHttpServer bind).events =
      [HostEvent.httpHealth true, HostEvent.log "http listen on port",
        HostEvent.httpListenAndServe bind] ∧
    (h.StartHttpServer bind).server.toggleHealthCheck = true ∧
    (h.StartHttpServer bind).panic = none ∧
    (g.healthServer.isSome = true →
      (g.StartGrpcServer bind).events =
        HostEvent.grpcHealth ServingStatus.SERVING :: (g.run bind).events ∧
      (g.run bind).events.head? = some (HostEvent.grpcListen bind) ∧
      ((g.StartGrpcServer bind).server.healthServer.bind fun hs => hs.status g.option.appName) =
        some ServingStatus.SERVING ∧
      (g.StartGrpcServer bind).panic = bind.map HostPanic.ofError) ∧
    (g.healthServer = none → (g.StartGrpcServer bind) = g.run bind ∧
      ∀ st, HostEvent.grpcHealth st ∉ (g.StartGrpcServer bind).events) ∧
    (GrpcServer.NewServer gopts).healthServer = none ∧
    (∀ fresh : HealthServer,
      (g.ApplyHealth fresh).option = g.option ∧
      ((g.ApplyHealth fresh).healthServer.bind fun hs => hs.status g.option.appName) =
        fresh.status g.option.appName) ∧
    (∀ fresh : HealthServer, fresh.status "" = some ServingStatus.SERVING →
      ((GrpcServer.NewServer []).ApplyHealth fresh).option.appName = "" ∧
      (((GrpcServer.NewServer []).ApplyHealth fresh).healthServer.bind fun hs =>
        hs.status ((GrpcServer.NewServer []).ApplyHealth fresh).option.appName) =
          some ServingStatus.SERVING) := by
  refine ⟨rfl, rfl, rfl, rfl, ?_, ?_, rfl, fun _ => ⟨rfl, rfl⟩, fun fresh hf => ⟨rfl, hf⟩⟩
  · intro hsome
    obtain ⟨gopt, hs⟩ := g
    cases hs with
    | none => cases hsome
    | some hsrv =>
      cases bind <;>
        simp [GrpcServer.StartGrpcServer, GrpcServer.SwitchHealthStatusGrpc, GrpcServer.run,
          HealthServer.SetServingStatus, HealthServer.status]
  · intro hnone
    obtain ⟨gopt, hs⟩ := g
    simp only at hnone
    subst hnone
    cases bind <;> simp [GrpcServer.StartGrpcServer, GrpcServer.run]

theorem start_switches_health_before_bind_witness :
    grpcWithHealth.healthServer.isSome = true ∧
      (grpcWithHealth.StartGrpcServer (some (GoError.leaf "address already in use"))).panic =
        (some (GoError.leaf "address already in use")).map HostPanic.ofError ∧
      grpcNoHealth.healthServer = none ∧
      grpcNoHealth.StartGrpcServer none = grpcNoHealth.run none ∧
      HealthServer.status { statusMap := [("", ServingStatus.SERVING)] } "" =
        some ServingStatus.SERVING ∧
      (((GrpcServer.NewServer []).ApplyHealth
          { statusMap := [("", ServingStatus.SERVING)] }).healthServer.bind fun hs =>
        hs.status ((GrpcServer.NewServer []).ApplyHealth
          { statusMap := [("", ServingStatus.SERVING)] }).option.appName) =
          some ServingStatus.SERVING :=
  ⟨rfl,
    ((start_switches_health_before_bind [] [] sampleHttp grpcWithHealth
      (some (GoError.leaf "address already in use"))).2.2.2.2.1 rfl).2.2.2,
    rfl,
    ((start_switches_health_before_bind [] [] sampleHttp grpcNoHealth none).2.2.2.2.2.1 rfl).1,
    by decide,
    ((start_switches_health_before_bind [] [] sampleHttp grpcNoHealth none).2.2.2.2.2.2.2.2
      { statusMap := [("", ServingStatus.SERVING)] } (by decide)).2⟩

/-! ## The health endpoint -/

theorem switched_flag (s : HttpServer) (calls : List Bool) :
    (s.switched calls).toggleHealthCheck = calls.getLast?.getD s.toggleHealthCheck ∧
    (s.switched calls).healthRoutes = s.healthRoutes := by
  induction calls generalizing s with
  | nil => exact ⟨rfl, rfl⟩
  | cons c cs ih =>
    obtain ⟨h1, h2⟩ := ih (s.SwitchHealthCheck c)
    have hs : s.switched (c :: cs) = (s.SwitchHealthCheck c).switched cs := rfl
    rw [hs, h1, h2]
    refine ⟨?_, rfl⟩
    cases cs with
    | nil => rfl
    | cons d ds =>
      simp only [List.getLast?_cons_cons, HttpServer.SwitchHealthCheck]
      cases hgl : (d :: ds).getLast? with
      | none => simp at hgl
      | some v => rfl

/-- C18: the endpoint that `HealthCheck` registers answers 200 when the flag is true
and 503 when it is false, and nothing else; the flag is the argument of the last
`SwitchHealthCheck` call, or its initial value when there was none; so the endpoint of
a listener answers by the last switch, and that of a newly made listener answers 503. -/
theorem health_endpoint_reports_flag (s : HttpServer) (path : String) (calls : List Bool)
    (opts : List (HttpOption → HttpOption)) :
    (s.HealthCheck path).get path = some (s.HealthCheck path).healthHandler ∧
    (s.healthHandler.code = 200 ↔ s.toggleHealthCheck = true) ∧
    (s.healthHandler.code = 503 ↔ s.toggleHealthCheck = false) ∧
    (s.switched calls).toggleHealthCheck = calls.getLast?.getD s.toggleHealthCheck ∧
    (((s.HealthCheck path).switched calls).get path).map (fun r => r.code) =
      some (if calls.getLast?.getD s.toggleHealthCheck then 200 else 503) ∧
    ((HttpServer.NewServer opts).HealthCheck path).get path =
      some { code := 503, status := "not ok" } := by
  refine ⟨?_, ?_, ?_, (switched_flag s calls).1, ?_, ?_⟩
  · simp [HttpServer.get, HttpServer.HealthCheck]
  · cases h : s.toggleHealthCheck <;> simp [HttpServer.healthHandler, h]
  · cases h : s.toggleHealthCheck <;> simp [HttpServer.healthHandler, h]
  · obtain ⟨h1, h2⟩ := switched_flag (s.HealthCheck path) calls
    have hflag : (s.HealthCheck path).toggleHealthCheck = s.toggleHealthCheck := rfl
    rw [hflag] at h1
    have hmem : path ∈ ((s.HealthCheck path).switched calls).healthRoutes := by
      rw [h2]
      simp [HttpServer.HealthCheck]
    simp only [HttpServer.get, hmem, if_true, Option.map_some', HttpServer.healthHandler, h1]
    cases calls.getLast?.getD s.toggleHealthCheck <;> rfl
  · simp [HttpServer.get, HttpServer.HealthCheck, HttpServer.NewServer,
      HttpServer.healthHandler]

end Transport

namespace KafkaProvider

/-! ## No double close of the readiness gate -/

theorem setupCalls_le_one (n : Nat) (st : Chans) (hf : st.Fresh) (hn : n ≤ 1) :
    (n = 0 ∧ setupCalls n st = ([], .ok st)) ∨
    (n = 1 ∧ setupCalls n st =
      ([LoopEvent.setup st.ready], .ok { st with closedChans := st.ready :: st.closedChans })) := by
  rcases Nat.le_one_iff_eq_zero_or_eq_one.mp hn with h | h
  · exact Or.inl ⟨h, by rw [h]; rfl⟩
  · exact Or.inr ⟨h, by rw [h]; exact setupCalls_one st hf.1⟩

/-- One iteration of the loop whose `Consume` call returns either ends the loop, with
no panic of `Setup`, or is a rebalance. -/
theorem consumptionLoop_step (topics : List String) (o : ConsumeOutcome)
    (rest : List ConsumeOutcome) (st st1 : Chans) (t : List LoopEvent)
    (hs : setupCalls o.setups st = (t, .ok st1)) :
    ((consumptionLoop topics (o :: rest) st).trace =
        LoopEvent.consumeCall topics :: t ++ [LoopEvent.consumeReturn o.err] ∧
      (consumptionLoop topics (o :: rest) st).exit ≠
        some (LoopExit.panicked Panic.closeOfClosedChannel)) ∨
    (o.err = none ∧ o.ctxCancelled = false) := by
  cases he : o.err with
  | some err =>
    left
    by_cases hc : errorsIs err ErrClosedConsumerGroup = true
    · simp [consumptionLoop, hs, he, hc]
    · simp [consumptionLoop, hs, he, hc]
  | none =>
    cases hc : o.ctxCancelled with
    | true =>
      left
      simp [consumptionLoop, hs, he, hc]
    | false => exact Or.inr ⟨rfl, rfl⟩

theorem consumptionLoop_gate (topics : List String) (script : List ConsumeOutcome)
    (st : Chans) (hf : st.Fresh) (hn : ∀ o ∈ script, o.setups ≤ 1) :
    (consumptionLoop topics script st).exit ≠
        some (LoopExit.panicked Panic.closeOfClosedChannel) ∧
    gateDiscipline st.ready true (consumptionLoop topics script st).trace = true ∧
    (∀ ch ∈ setupCloses (consumptionLoop topics script st).trace,
      ch = st.ready ∨ st.nextChan ≤ ch) ∧
    (setupCloses (consumptionLoop topics script st).trace).Nodup := by
  induction script generalizing st with
  | nil =>
    refine ⟨by simp [consumptionLoop], rfl, ?_, ?_⟩
    · intro ch hch
      simp [consumptionLoop, setupCloses] at hch
    · simp [consumptionLoop, setupCloses]
  | cons o rest ih =>
    have hrest : ∀ x ∈ rest, x.setups ≤ 1 := fun x hx => hn x (List.mem_cons_of_mem _ hx)
    obtain ⟨hopen, hlt, hcl⟩ := hf
    rcases setupCalls_le_one o.setups st ⟨hopen, hlt, hcl⟩ (hn o (List.mem_cons_self _ _)) with
      ⟨_, hs⟩ | ⟨_, hs⟩
    · rcases consumptionLoop_step topics o rest st st [] hs with ⟨htr, hex⟩ | ⟨he, hc⟩
      · rw [htr]
        refine ⟨hex, by simp [gateDiscipline], ?_, ?_⟩
        · intro ch hch
          simp [setupCloses] at hch
        · simp [setupCloses]
      · have hf2 : Chans.Fresh { st with ready := st.nextChan, nextChan := st.nextChan + 1 } :=
          ⟨fun hmem => absurd (hcl _ hmem) (Nat.lt_irrefl _), Nat.lt_succ_self _,
            fun x hx => Nat.lt_succ_of_lt (hcl x hx)⟩
        obtain ⟨i1, i2, i3, i4⟩ := ih _ hf2 hrest
        rw [consumptionLoop_rebalance topics o rest st st [] hs he hc]
        refine ⟨i1, ?_, ?_, ?_⟩
        · simpa [gateDiscipline] using i2
        · intro ch hch
          have hch' : ch ∈ setupCloses (consumptionLoop topics rest
              { st with ready := st.nextChan, nextChan := st.nextChan + 1 }).trace := by
            simpa [setupCloses] using hch
          rcases i3 ch hch' with h | h
          · exact Or.inr (Nat.le_of_eq h.symm)
          · exact Or.inr (Nat.le_of_succ_le h)
        · simpa [setupCloses] using i4
    · rcases consumptionLoop_step topics o rest st _ _ hs with ⟨htr, hex⟩ | ⟨he, hc⟩
      · rw [htr]
        refine ⟨hex, by simp [gateDiscipline], ?_, ?_⟩
        · intro ch hch
          simp [setupCloses] at hch
          exact Or.inl hch
        · simp [setupCloses]
      · have hf2 : Chans.Fresh
            { ready := st.nextChan, nextChan := st.nextChan + 1,
              closedChans := st.ready :: st.closedChans } := by
          refine ⟨?_, Nat.lt_succ_self _, ?_⟩
          · intro hmem
            simp only [List.mem_cons] at hmem
            rcases hmem with h | h
            · omega
            · exact absurd (hcl _ h) (Nat.lt_irrefl _)
          · intro x hx
            simp only [List.mem_cons] at hx
            rcases hx with h | h
            · show x < st.nextChan + 1
              omega
            · exact Nat.lt_succ_of_lt (hcl x h)
        obtain ⟨i1, i2, i3, i4⟩ := ih _ hf2 hrest
        rw [consumptionLoop_rebalance topics o rest st _ _ hs he hc]
        have hcloses : setupCloses
            (LoopEvent.consumeCall topics :: [LoopEvent.setup st.ready] ++
              [LoopEvent.consumeReturn none, LoopEvent.makeReady st.nextChan] ++
              (consumptionLoop topics rest
                { ready := st.nextChan, nextChan := st.nextChan + 1,
                  closedChans := st.ready :: st.closedChans }).trace) =
            st.ready :: setupCloses (consumptionLoop topics rest
                { ready := st.nextChan, nextChan := st.nextChan + 1,
                  closedChans := st.ready :: st.closedChans }).trace := by
          simp [setupCloses]
        refine ⟨i1, ?_, ?_, ?_⟩
        · simpa [gateDiscipline] using i2
        · intro ch hch
          rw [hcloses, List.mem_cons] at hch
          rcases hch with h | h
          · exact Or.inl h
          · rcases i3 ch h with h' | h'
            · exact Or.inr (Nat.le_of_eq h'.symm)
            · exact Or.inr (Nat.le_of_succ_le h')
        · rw [hcloses, List.nodup_cons]
          refine ⟨?_, i4⟩
          intro hmem
          rcases i3 _ hmem with h | h
          · simp only at h; omega
          · simp only at h; omega

/-- C26: in a run of the consumption loop in which the client calls `Setup` at most
once per `Consume` call, no `Setup` panics on a closed channel; every `Setup` closes
the channel held in `c.ready` at that moment, which is the channel made at
construction or by the last `make` and has not been closed since; and no channel is
closed twice. -/
theorem Setup_never_closes_closed_gate {σ : Type} (c : ConsumerApp σ)
    (script : List ConsumeOutcome) (hn : ∀ o ∈ script, o.setups ≤ 1) :
    (c.consumptionLoop script).exit ≠ some (LoopExit.panicked Panic.closeOfClosedChannel) ∧
    gateDiscipline c.Ready true (c.consumptionLoop script).trace = true ∧
    (setupCloses (c.consumptionLoop script).trace).Nodup := by
  obtain ⟨h1, h2, _, h4⟩ :=
    consumptionLoop_gate c.Config.Topics script c.chans (chans_fresh c) hn
  exact ⟨h1, h2, h4⟩

theorem Setup_never_closes_closed_gate_witness :
    (∀ o ∈ threeCalls, o.setups ≤ 1) ∧
      (bareApp.consumptionLoop threeCalls).exit ≠
        some (LoopExit.panicked Panic.closeOfClosedChannel) ∧
      gateDiscipline bareApp.Ready true (bareApp.consumptionLoop threeCalls).trace = true ∧
      (setupCloses (bareApp.consumptionLoop threeCalls).trace).Nodup :=
  ⟨by decide, Setup_never_closes_closed_gate bareApp threeCalls (by decide)⟩

end KafkaProvider

namespace Transport

/-! ## The unguarded health switch -/

/-- C27, at the failing input: for a gRPC listener on which `ApplyHealth` was not
called, `StartGrpcServer` skips the health switch and does not panic, but
`SwitchHealthStatusGrpc` is a nil dereference, and the shutdown sequence of a host with
that listener, which calls it without the guard, panics there: it reaches neither the
drain sleep nor a stop call nor the exit. -/
theorem shutdown_switches_health_without_guard :
    grpcNoHealth.healthServer = none ∧
      (grpcNoHealth.StartGrpcServer none).panic = none ∧
      (grpcNoHealth.StartGrpcServer none).events =
        [HostEvent.grpcListen none, HostEvent.log "grpc listen on port"] ∧
      grpcNoHealth.SwitchHealthStatusGrpc ServingStatus.NOT_SERVING =
        .error HostPanic.nilDereference ∧
      grpcOnlyNoHealth.reachesShutdown calmEnv ∧
      (grpcOnlyNoHealth.Run calmEnv).outcome = HostOutcome.panicked HostPanic.nilDereference ∧
      (grpcOnlyNoHealth.Run calmEnv).main = [] ∧
      (grpcOnlyNoHealth.Run calmEnv).stopGrpc = [] ∧
      (grpcOnlyNoHealth.Run calmEnv).final = [] :=
  ⟨rfl, by decide, by decide, rfl, ⟨rfl, fun _ => rfl⟩, by decide, by decide, by decide,
    by decide⟩

end Transport

namespace Commands

open KafkaProvider (GoError)

/-! ## Listing repositories -/

/-- A root directory whose name starts with a dot is skipped by the callback, whatever
it holds. -/
theorem listRepositories_hidden_root (join : String → String → String) (dir : String → String)
    (searchPath name : String) (entries : List FileNode) (h : HasPrefix name "." = true) :
    (listRepositories join dir searchPath (FileNode.dir name entries)).repos = [] := by
  simp [listRepositories, Walk, walk, listCallback, FileNode.IsDir, FileNode.Name, h]

/-- C21, at the failing input: for the default search path `.`, whose `os.Lstat` name
is `.`, the callback answers `SkipDir` on the root, so `listRepositories` lists nothing
and prints "No repositories found.", whatever the current directory holds, here a
directory `user` with a `repository.go`; the same tree under the name `internal` is
listed with that directory. -/
theorem listRepositories_skips_current_directory (join : String → String → String)
    (dir : String → String) (entries : List FileNode) :
    (listRepositories join dir "." (FileNode.dir "." entries)).repos = [] ∧
      (listRepositories join dir "." (FileNode.dir "." entries)).noneFound = true ∧
      (listRepositories join dir "." currentDirectory).repos = [] ∧
      (listRepositories join dir "internal" internalDirectory).repos =
        [dir (join (join "internal" "user") "repository.go")] := by
  have hdot : HasPrefix "." "." = true := by decide
  have h1 : HasPrefix "internal" "." = false := by decide
  have h2 : HasPrefix "user" "." = false := by decide
  have h3 : ("internal" : String) ≠ "vendor" := by decide
  have h4 : ("internal" : String) ≠ "node_modules" := by decide
  have h5 : ("user" : String) ≠ "vendor" := by decide
  have h6 : ("user" : String) ≠ "node_modules" := by decide
  have h7 : ("main.go" : String) ≠ "repository.go" := by decide
  refine ⟨?_, ?_, ?_, ?_⟩
  · simp [listRepositories, Walk, walk, listCallback, FileNode.IsDir, FileNode.Name, hdot]
  · simp [listRepositories, Walk, walk, listCallback, FileNode.IsDir, FileNode.Name, hdot]
  · simp [listRepositories, Walk, walk, listCallback, FileNode.IsDir, FileNode.Name, hdot,
      currentDirectory]
  · simp [listRepositories, Walk, walk, walkEntries, listCallback, FileNode.IsDir,
      FileNode.Name, internalDirectory, projectEntries, h1, h2, h3, h4, h5, h6, h7]

/-! ## Application configuration -/

/-- C23: `newAppConfig` returns an error exactly when the trimmed name is empty;
otherwise it returns the configuration with port 10000, the module unchanged, the last
path element of the trimmed name as name, and as directory the trimmed name, or that
last element when `filepath.Dir` of the trimmed name is `.`. -/
theorem newAppConfig_error_iff_empty_name (trimSpace filepathDir filepathBase : String → String)
    (name moduleName : String) :
    ((∃ e, newAppConfig trimSpace filepathDir filepathBase name moduleName = .error e) ↔
        trimSpace name = "") ∧
      (trimSpace name ≠ "" →
        newAppConfig trimSpace filepathDir filepathBase name moduleName =
          .ok { Name := filepathBase (trimSpace name)
                Module := moduleName
                Dir :=
                  if filepathDir (trimSpace name) = "." then filepathBase (trimSpace name)
                  else trimSpace name
                Port := 10000 }) := by
  by_cases h : trimSpace name = ""
  · refine ⟨⟨fun _ => h, fun _ => ⟨GoError.leaf "app name cannot be empty", ?_⟩⟩,
      fun hne => absurd h hne⟩
    simp [newAppConfig, h]
  · refine ⟨⟨fun ⟨e, he⟩ => ?_, fun he => absurd he h⟩, fun _ => ?_⟩
    · simp [newAppConfig, h] at he
    · simp [newAppConfig, h]

theorem newAppConfig_error_iff_empty_name_witness :
    trimBlanks " services/billing " ≠ "" ∧
      newAppConfig trimBlanks directoryPart lastElement " services/billing " "example.com/shop" =
        .ok { Name := "billing", Module := "example.com/shop", Dir := "services/billing",
              Port := 10000 } ∧
      newAppConfig trimBlanks directoryPart lastElement " billing" "example.com/shop" =
        .ok { Name := "billing", Module := "example.com/shop", Dir := "billing",
              Port := 10000 } ∧
      (∃ e, newAppConfig trimBlanks directoryPart lastElement "  " "example.com/shop" =
        .error e) :=
  ⟨by decide,
    ((newAppConfig_error_iff_empty_name trimBlanks directoryPart lastElement
      " services/billing " "example.com/shop").2 (by decide)).trans (congrArg Except.ok (by decide)),
    ((newAppConfig_error_iff_empty_name trimBlanks directoryPart lastElement
      " billing" "example.com/shop").2 (by decide)).trans (congrArg Except.ok (by decide)),
    (newAppConfig_error_iff_empty_name trimBlanks directoryPart lastElement
      "  " "example.com/shop").1.2 (by decide)⟩

end Commands

namespace Interceptors

open KafkaProvider (GoError)

/-! ## The gRPC validator -/

/-- C28: the `Validators` interceptor calls the handler exactly when the request does
not implement `IValidator` or its `Validate` returns nil, and then once, with the
context and request it was given, and returns the handler's pair; when `Validate`
returns an error it returns nil and that error and calls no handler. -/
theorem Validators_calls_handler_iff_valid {α β : Type} (ctx : CallContext) (req : Request α)
    (handler : CallContext → Request α → Option β × Option GoError) :
    ((Validators ctx req handler).handlerCalls ≠ [] ↔
        (req.validate = none ∨ req.validate = some none)) ∧
      (∀ e, req.validate = some (some e) →
        (Validators ctx req handler).handlerCalls = [] ∧
        (Validators ctx req handler).resp = none ∧
        (Validators ctx req handler).err = some e) ∧
      ((req.validate = none ∨ req.validate = some none) →
        (Validators ctx req handler).handlerCalls = [(ctx, req)] ∧
        ((Validators ctx req handler).resp, (Validators ctx req handler).err) =
          handler ctx req) := by
  rcases hv : req.validate with _ | _ | e <;> simp [Validators, hv]

theorem Validators_calls_handler_iff_valid_witness :
    (Validators (β := String) { values := [], incoming := none } invalidRequest
        echoHandler).handlerCalls = [] ∧
      (Validators { values := [], incoming := none } invalidRequest echoHandler).resp = none ∧
      (Validators { values := [], incoming := none } invalidRequest echoHandler).err =
        some (GoError.leaf "name is required") ∧
      (Validators { values := [], incoming := none } plainRequest echoHandler).resp =
        some "hello" :=
  ⟨((Validators_calls_handler_iff_valid { values := [], incoming := none } invalidRequest
      echoHandler).2.1 _ rfl).1,
    ((Validators_calls_handler_iff_valid { values := [], incoming := none } invalidRequest
      echoHandler).2.1 _ rfl).2.1,
    ((Validators_calls_handler_iff_valid { values := [], incoming := none } invalidRequest
      echoHandler).2.1 _ rfl).2.2,
    congrArg Prod.fst
      ((Validators_calls_handler_iff_valid { values := [], incoming := none } plainRequest
        echoHandler).2.2 (Or.inl rfl)).2⟩

/-! ## The HTTP validators -/

/-- An aborted context differs from the context it was made from. -/
theorem abort_ne_self (c : GinContext) (a : JsonAnswer) : c ≠ c.AbortWithStatusJSON a := by
  intro h
  have hw := congrArg GinContext.written h
  simp [GinContext.AbortWithStatusJSON] at hw

/-- The shared body answers as the three helpers are claimed to. -/
theorem httpValidate_answers {α : Type} (message : String) (bind : Option GoError)
    (c : GinContext) (req : Request α) :
    AnswersAsValidator message bind c req (httpValidate message bind c req) := by
  unfold AnswersAsValidator
  cases bind with
  | some b =>
    refine ⟨?_, ?_, ?_, ?_, ?_⟩
    · intro e he
      cases he
      exact ⟨rfl, rfl, rfl⟩
    · intro e he
      cases he
    · intro he
      cases he
    · intro he
      cases he
    · exact ⟨fun _ => ⟨_, rfl, rfl⟩, fun _ he => by cases he⟩
  | none =>
    rcases hv : req.validate with _ | _ | v
    · refine ⟨fun e he => (by cases he), fun e _ he => (by cases he), ?_, ?_, ?_⟩
      · intro _ _
        simp [httpValidate, hv]
      · intro _
        simp [httpValidate, hv]
      · constructor
        · intro h
          simp [httpValidate, hv] at h
        · rintro ⟨a, _, ha⟩
          simp only [httpValidate, hv] at ha
          exact absurd ha (abort_ne_self c a)
    · refine ⟨fun e he => (by cases he), fun e _ he => (by cases he), ?_, ?_, ?_⟩
      · intro _ _
        simp [httpValidate, hv]
      · intro _
        simp [httpValidate, hv]
      · constructor
        · intro h
          simp [httpValidate, hv] at h
        · rintro ⟨a, _, ha⟩
          simp only [httpValidate, hv] at ha
          exact absurd ha (abort_ne_self c a)
    · refine ⟨fun e he => (by cases he), ?_, ?_, ?_, ?_⟩
      · intro e _ he
        cases he
        simp [httpValidate, hv]
      · intro _ h
        rcases h with h | h <;> cases h
      · intro h
        simp [httpValidate, hv] at h
      · constructor
        · intro _
          exact ⟨{ code := 400, error := "Validation failed", details := v.text }, rfl, by
            simp [httpValidate, hv]⟩
        · intro _
          simp [httpValidate, hv]

/-- C24: each of `HttpValidateRequest`, `HttpValidateQuery` and `HttpValidateUri`
returns a non-nil error exactly when it has aborted the request with a 400 answer: a
binding failure aborts with 400 and does not call `Validate`, a `Validate` failure
aborts with 400, and when nil is returned the context is as it was, with nothing
written and no abort. -/
theorem HttpValidate_error_iff_aborted {α : Type} (bind : Option GoError) (c : GinContext)
    (req : Request α) :
    AnswersAsValidator "Invalid request body" bind c req (HttpValidateRequest bind c req) ∧
      AnswersAsValidator "Invalid query parameters" bind c req
        (HttpValidateQuery bind c req) ∧
      AnswersAsValidator "Invalid URI parameters" bind c req (HttpValidateUri bind c req) :=
  ⟨httpValidate_answers _ bind c req, httpValidate_answers _ bind c req,
    httpValidate_answers _ bind c req⟩

theorem HttpValidate_error_iff_aborted_witness :
    (HttpValidateRequest none emptyGin invalidRequest).err =
        some (GoError.leaf "name is required") ∧
      (HttpValidateRequest none emptyGin invalidRequest).validateCalled = true ∧
      (HttpValidateRequest none emptyGin invalidRequest).context =
        emptyGin.AbortWithStatusJSON
          { code := 400, error := "Validation failed"
            details := (GoError.leaf "name is required").text } :=
  (HttpValidate_error_iff_aborted none emptyGin invalidRequest).1.2.1 _ rfl rfl

/-! ## The correlation id -/

/-- The id that the gRPC interceptor stores is the supplied one, or the generated one
when none is supplied. -/
theorem correlationId_eq (key generated : String) (ctx : CallContext) :
    (match ctx.incoming with
      | some md =>
        if (md key).length > 0 ∧ ((md key).headD "").length > 0 then (md key).headD ""
        else generated
      | none => generated) = (ctx.suppliedId key).getD generated := by
  unfold CallContext.suppliedId
  cases ctx.incoming with
  | none => rfl
  | some md =>
    show (if (md key).length > 0 ∧ ((md key).headD "").length > 0 then (md key).headD ""
        else generated) =
      (match md key with
        | v :: _ => if v = "" then none else some v
        | [] => none).getD generated
    generalize md key = l
    cases l with
    | nil => simp
    | cons v vs =>
      by_cases hv : v = ""
      · subst hv
        simp
      · have hl : 0 < v.length := by
          cases v with
          | mk data =>
            cases data with
            | nil => exact absurd rfl hv
            | cons ch rest => exact Nat.succ_pos _
        simp [hv, hl]

/-- C25: `HttpCorrelationTracing` stores under the key, in the request context and in
the response header, the same id, the request header value when that is not empty and
the generated id otherwise, and calls `Next` once; `CorrelationTracing` calls the
handler once with a context that holds under the key the first incoming metadata value
when there is one and it is not empty, and the generated id otherwise, and returns the
handler's pair. -/
theorem correlation_id_kept_or_generated {α β : Type} (key generated : String)
    (generate : Unit → String) (c : GinContext) (ctx : CallContext) (req : Request α)
    (handler : CallContext → Request α → Option β × Option GoError) :
    (HttpCorrelationTracing key generate c).Get key =
        some (if c.requestHeader key = "" then generate () else c.requestHeader key) ∧
      (HttpCorrelationTracing key generate c).responseHeaderOf key =
        (HttpCorrelationTracing key generate c).Get key ∧
      (HttpCorrelationTracing key generate c).nextCalls = c.nextCalls + 1 ∧
      (HttpCorrelationTracing key generate c).aborted = c.aborted ∧
      ∃ ctx1,
        (CorrelationTracing key generated ctx req handler).handlerCalls = [(ctx1, req)] ∧
        ctx1.Value key = some ((ctx.suppliedId key).getD generated) ∧
        ctx1.incoming = ctx.incoming ∧
        ((CorrelationTracing key generated ctx req handler).resp,
          (CorrelationTracing key generated ctx req handler).err) = handler ctx1 req := by
  refine ⟨?_, ?_, rfl, rfl, ?_⟩
  · simp [HttpCorrelationTracing, GinContext.Get]
  · simp [HttpCorrelationTracing, GinContext.Get, GinContext.responseHeaderOf]
  · refine ⟨_, rfl, ?_, rfl, rfl⟩
    simp only [CallContext.Value, List.find?_cons_of_pos, decide_True, Option.map_some',
      correlationId_eq]

/-! ## The duration field -/

/-- C22, at every duration: the field made by `DurationToTimeMillisField`, and so by
`DefaultDurationToField`, has the key `duration_ms`, which is not the key
`grpc.time_ms` that the comment on the function names. -/
theorem DurationToTimeMillisField_key_is_duration_ms (d : Int) :
    (DurationToTimeMillisField d).Key = "duration_ms" ∧
      (DefaultDurationToField d).Key = "duration_ms" ∧
      (DurationToTimeMillisField d).Key ≠ documentedDurationKey ∧
      (DefaultDurationToField d).Key ≠ documentedDurationKey :=
  ⟨rfl, rfl, (by decide : ("duration_ms" : String) ≠ "grpc.time_ms"),
    (by decide : ("duration_ms" : String) ≠ "grpc.time_ms")⟩

end Interceptors
